import Mathlib

/-!
# FastCGI client: record codec, request builder and response assembly

A shallow embedding of `inc/FastCGIClientImpl.h` and `inc/StreamReaderImpl.h`.

Conventions of the embedding

* A `std::string` is a list of bytes, each byte given by its unsigned wire
  value (`0 .. 255`).  `static_cast<char>(x)` keeps the low eight bits, so it
  is `x % 256`.
* Reading a `char` out of a string (`buf[i]`) gives a *signed* eight bit
  value, as on the platforms the client is built for; see `charAt`.
* `uint16_t` and `size_t` values are natural numbers, reduced `% 2^16` where
  the source narrows.
-/

namespace FastCgi

/-- A `std::string`: bytes by unsigned wire value. -/
abbrev Bytes := List Nat

/-- Every element is a byte. -/
def IsBytes (s : Bytes) : Prop := ∀ b ∈ s, b < 256

/-- The client's `enum FcgiRecordType` (FastCGIClient.h, lines 55-68). -/
inductive FcgiRecordType
  | FCGI_TYPE_BEGIN
  | FCGI_TYPE_ABORT
  | FCGI_TYPE_END
  | FCGI_TYPE_PARAMS
  | FCGI_TYPE_STDIN
  | FCGI_TYPE_STDOUT
  | FCGI_TYPE_STDERR
  | FCGI_TYPE_DATA
  | FCGI_TYPE_GETVALUES
  | FCGI_TYPE_GETVALUES_RESULT
  | FCGI_TYPE_UNKOWNTYPE
  deriving DecidableEq, Repr

open FcgiRecordType

/-- The integer tag of each enumerator. -/
def FcgiRecordType.toNat : FcgiRecordType → Nat
  | FCGI_TYPE_BEGIN => 1
  | FCGI_TYPE_ABORT => 2
  | FCGI_TYPE_END => 3
  | FCGI_TYPE_PARAMS => 4
  | FCGI_TYPE_STDIN => 5
  | FCGI_TYPE_STDOUT => 6
  | FCGI_TYPE_STDERR => 7
  | FCGI_TYPE_DATA => 8
  | FCGI_TYPE_GETVALUES => 9
  | FCGI_TYPE_GETVALUES_RESULT => 10
  | FCGI_TYPE_UNKOWNTYPE => 11

/-- The anonymous-namespace `enum FcgiRole`, by value. -/
def FCGI_ROLE_RESPONDER : Nat := 1

def FCGI_VERSION : Nat := 1

def FCGI_HEADER_SIZE : Nat := 8

def KEEP_ALIVE : Nat := 0x01

/-- The constant `FCGI_HDR_STR(FCGI_HDR, sizeof(FCGI_HDR))`: the BEGIN_REQUEST body. -/
def FCGI_HDR_STR : Bytes :=
  [0x00, FCGI_ROLE_RESPONDER % 256, KEEP_ALIVE, 0x00, 0x00, 0x00, 0x00, 0x00]

def EMPTY_MARK : Bytes := []

/-- Source `FastCgiClient::encodeFastCgiRecord` (lines 178-201).  `requestId` is a
`uint16_t` in the source; `content.length()` is a `size_t`. -/
def encodeFastCgiRecord (recType : FcgiRecordType) (content : Bytes) (requestId : Nat) : Bytes :=
  let contentLen := content.length
  [ FCGI_VERSION % 256,
    recType.toNat % 256,
    ((requestId >>> 8) &&& 0xFF) % 256,
    (requestId &&& 0xFF) % 256,
    ((contentLen >>> 8) &&& 0xFF) % 256,
    (contentLen &&& 0xFF) % 256,
    0 % 256,
    0 % 256 ] ++ content

/-- Source `FastCgiClient::encodeNameValueParams` (lines 203-244). -/
def encodeNameValueParams (name value : Bytes) : Bytes :=
  if !name.isEmpty && !value.isEmpty then
    let nameLen := name.length
    let valueLen := value.length
    let ostr₁ : Bytes :=
      if nameLen < 128 then
        [nameLen % 256]
      else
        [ ((nameLen >>> 24) ||| 0x80) % 256,
          ((nameLen >>> 16) &&& 0xFF) % 256,
          ((nameLen >>> 8) &&& 0xFF) % 256,
          (nameLen &&& 0xFF) % 256 ]
    let ostr₂ : Bytes :=
      if valueLen < 128 then
        ostr₁ ++ [valueLen % 256]
      else
        ostr₁ ++
        [ ((valueLen >>> 24) ||| 0x80) % 256,
          ((valueLen >>> 16) &&& 0xFF) % 256,
          ((valueLen >>> 8) &&& 0xFF) % 256,
          (valueLen &&& 0xFF) % 256 ]
    ostr₂ ++ name ++ value
  else
    []

/-- The value of `buf[i]` for a `std::string buf`: the byte at `i` read as a
signed `char` (bytes `0x80 .. 0xFF` are negative).  Out of range reads give 0. -/
def charAt (buf : Bytes) (i : Nat) : Int :=
  let b := buf.getD i 0 % 256
  if b < 128 then (b : Int) else (b : Int) - 256

/-- The C expression `x & 0xFF` on an `int`: the low eight bits of the two's
complement representation, a value in `0 .. 255`. -/
def maskFF (x : Int) : Int := x % 256

/-- The mapped integer type of `NameTagPairs`.  The alias is declared in
`Common.h`, which is not among the sources, so the embedding is parametric in
it: an unsigned or a two's complement signed integer type of the given width. -/
inductive TagType
  | unsignedInt (bits : Nat)
  | signedInt (bits : Nat)
  deriving DecidableEq, Repr

/-- The tag type can hold every `uint16_t` value. -/
def TagType.holdsU16 : TagType → Bool
  | .unsignedInt w => decide (16 ≤ w)
  | .signedInt w => decide (17 ≤ w)

/-- Integral conversion of a value to the tag type. -/
def TagType.conv : TagType → Int → Int
  | .unsignedInt w, v => v % (2 : Int) ^ w
  | .signedInt w, v => (v + (2 : Int) ^ (w - 1)) % (2 : Int) ^ w - (2 : Int) ^ (w - 1)

/-- The five keys used in the header map (`VER_TOKEN` .. `PADDING_LEN_TOKEN`). -/
inductive Token
  | VER_TOKEN
  | TYPE_TOKEN
  | REQ_ID_TOKEN
  | CONT_LEN_TOKEN
  | PADDING_LEN_TOKEN
  deriving DecidableEq, Repr

open Token

/-- The header map `NameTagPairs`: key/value pairs, tag values by integer value. -/
abbrev NameTagPairs := List (Token × Int)

/-- The call `pairs.insert` of a key/value pair: no effect when the key is already present. -/
def NameTagPairs.insert (pairs : NameTagPairs) (key : Token) (v : Int) : NameTagPairs :=
  if pairs.any (fun p => p.1 == key) then pairs else pairs ++ [(key, v)]

/-- The lookup `pairs[key]`: the mapped value, a value-initialised 0 when the key is absent. -/
def NameTagPairs.at (pairs : NameTagPairs) (key : Token) : Int :=
  match pairs.find? (fun p => p.1 == key) with
  | some p => p.2
  | none => 0

/-- Source `FastCgiClient::decodeFastCgiHeader` (lines 246-261).  The incoming map is
cleared first, so the result does not depend on it.  The function always
returns `true`; only the map is kept. -/
def decodeFastCgiHeader (T : TagType) (buf : Bytes) : NameTagPairs :=
  let pairs : NameTagPairs := []
  let pairs := pairs.insert VER_TOKEN (T.conv (charAt buf 0))
  let pairs := pairs.insert TYPE_TOKEN (T.conv (charAt buf 1))
  let requestId : Int :=
    (maskFF (charAt buf 2) * 2 ^ 8 + maskFF (charAt buf 3)) % 2 ^ 16
  let pairs := pairs.insert REQ_ID_TOKEN (T.conv requestId)
  let len : Int :=
    (maskFF (charAt buf 4) * 2 ^ 8 + maskFF (charAt buf 5)) % 2 ^ 16
  let pairs := pairs.insert CONT_LEN_TOKEN (T.conv len)
  let pairs := pairs.insert PADDING_LEN_TOKEN (T.conv (charAt buf 6))
  pairs

/-- The enumerators of `ReturnCode` that the reader and the client use.  The
enumeration is declared in `Common.h`, which is not among the sources. -/
inductive ReturnCode
  | OK
  | IO_ERROR
  | CLOSED
  | TIMEOUT
  deriving DecidableEq, Repr

/-- The classes of `asio::error_code` the handlers tell apart. -/
inductive ErrorCode
  | success
  | operation_aborted
  | eof
  | fault
  deriving DecidableEq, Repr

/-- The one-shot slot `m_result`: `none` until `set_value` is called. -/
abbrev Promise := Option ReturnCode

/-- Source `std::promise::set_value`, as the effect on the slot: an empty slot
takes the value; on a slot that already holds a value the call throws
`std::future_error` and the value set first stays. -/
def Promise.set_value (m_result : Promise) (rc : ReturnCode) : Promise :=
  if m_result.isSome then m_result else some rc

/-- Source `StreamReader::readHandler` (StreamReaderImpl.h, lines 167-193), as the
effect on the result slot `m_result`. -/
def readHandler (ec : ErrorCode) (m_result : Promise) : Promise :=
  if ec = ErrorCode.operation_aborted then
    -- read operation was cancelled
    m_result
  else if ec ≠ ErrorCode.success then
    Promise.set_value m_result
      (if ec = ErrorCode.eof then ReturnCode.CLOSED else ReturnCode.IO_ERROR)
  else
    Promise.set_value m_result ReturnCode.OK

/-- Source `StreamReader::timeoutHandler` (lines 195-205), as the effect on the
result slot `m_result`. -/
def timeoutHandler (ec : ErrorCode) (m_result : Promise) : Promise :=
  if ec = ErrorCode.operation_aborted then
    -- read operation was cancelled
    m_result
  else
    Promise.set_value m_result ReturnCode.TIMEOUT

/-- How the environment completes one `asio::async_read`: the error code its
handler receives and the time, in milliseconds, until the handler would run. -/
structure ReadOutcome where
  ec : ErrorCode := ErrorCode.success
  elapsed : Nat := 0
  deriving DecidableEq, Repr

/-- The reader together with the part of the world it talks to.

* `sockOpen` is `m_sock.is_open()`;
* `wire` holds the bytes the peer sends that no read has consumed yet;
* `schedule` lists how the upcoming reads complete (a read past the end of
  the schedule completes at once when its bytes are on the wire);
* `clock` is `steady_clock::now()` in milliseconds;
* `sent` logs the buffers handed to `asio::write`, `writeEcs` the error codes
  the upcoming `asio::write` calls report;
* the three counters log `m_sock.cancel`, `m_responseTimer.cancel` and
  `m_sock.close`. -/
structure StreamReader where
  sockOpen : Bool := true
  wire : Bytes := []
  schedule : List ReadOutcome := []
  clock : Nat := 0
  sent : List Bytes := []
  writeEcs : List ErrorCode := []
  sockCancels : Nat := 0
  timerCancels : Nat := 0
  sockCloses : Nat := 0
  deriving DecidableEq, Repr

/-- Source `StreamReader::isOpen` (lines 161-165). -/
def StreamReader.isOpen (s : StreamReader) : Bool := s.sockOpen

/-- Source `StreamReader::write` (lines 68-87). -/
def StreamReader.write (s : StreamReader) (data : Bytes) : ReturnCode × StreamReader :=
  if !s.sockOpen then
    (ReturnCode.CLOSED, s)
  else
    let ec := s.writeEcs.headD ErrorCode.success
    let s := { s with sent := s.sent ++ [data], writeEcs := s.writeEcs.tail }
    if ec ≠ ErrorCode.success then (ReturnCode.IO_ERROR, s) else (ReturnCode.OK, s)

/-- What a `read` call leaves behind: the return code, the caller's buffer and the reader. -/
structure ReadResult where
  rc : ReturnCode
  buf : Bytes
  reader : StreamReader
  deriving DecidableEq, Repr

/-- Source `StreamReader::read` (lines 89-144) for a non-zero `expire` (milliseconds),
which is what every call of the client passes.

The slot is reset, the timer and the asynchronous read are started, and the
first handler that sets the slot decides the return code.  The read handler
runs first when the scheduled completion comes before the timer; a successful
completion needs `len` bytes on the wire.  Otherwise the timer expires after
`expire`.

Scope of the model: one call at a time, with an empty slot at its start.
Bytes of a read that does not complete stay on the wire, where
`asio::async_read` has moved the bytes received so far into the caller's
buffer.  The clock moves only inside a read.  What the operation that this
call leaves pending does afterwards (a timer still armed after CLOSED or
IO_ERROR) is not part of the reader's state; it is followed by
`secondCompletion` and `PromiseLog.deliver`.  With `expire = 0` the source
arms no timer; here such a read times out at once, a case no call of the
client reaches. -/
def StreamReader.read (s : StreamReader) (len : Nat) (expire : Nat) : ReadResult :=
  let o := s.schedule.headD {}
  let s := { s with schedule := s.schedule.tail }
  let m_result : Promise := none
  let readFirst : Bool :=
    decide (o.elapsed < expire) && (o.ec != ErrorCode.success || decide (len ≤ s.wire.length))
  let m_result := if readFirst then readHandler o.ec m_result else m_result
  let byRead := m_result.isSome
  let m_result := if byRead then m_result else timeoutHandler ErrorCode.success m_result
  let s := { s with clock := s.clock + (if byRead then o.elapsed else expire) }
  match m_result with
  | some ReturnCode.OK =>
      { rc := ReturnCode.OK, buf := s.wire.take len,
        reader := { s with wire := s.wire.drop len, timerCancels := s.timerCancels + 1 } }
  | some ReturnCode.TIMEOUT =>
      { rc := ReturnCode.TIMEOUT, buf := [],
        reader := { s with sockCancels := s.sockCancels + 1 } }
  | some rc => { rc := rc, buf := [], reader := s }
  | none => { rc := ReturnCode.TIMEOUT, buf := [], reader := s }

/-- The outputs of `decodeFastCgiRecord`: its return value, the three
reference parameters and the reader. -/
structure DecodeResult where
  ok : Bool
  type : Int
  requestId : Nat
  content : Bytes
  reader : StreamReader
  deriving DecidableEq, Repr

/-- The per-operation timeout `ns` of `decodeFastCgiRecord`, four seconds in milliseconds. -/
def ns : Nat := 4 * 1000

/-- Source `FastCgiClient::decodeFastCgiRecord` (lines 263-315).  `type`,
`requestId` and `content` are the values the reference parameters hold on
entry.  The decoded `type` is kept as the integer value of the type tag, which
need not be one of the enumerators. -/
def decodeFastCgiRecord (T : TagType) (m_reader : StreamReader)
    (type : Int) (requestId : Nat) (content : Bytes) : DecodeResult :=
  let r := m_reader.read FCGI_HEADER_SIZE ns
  if r.rc ≠ ReturnCode.OK then
    { ok := false, type := type, requestId := requestId, content := content, reader := r.reader }
  else
    let hdr := r.buf
    let hdrPairs := decodeFastCgiHeader T hdr
    let requestId := ((hdrPairs.at REQ_ID_TOKEN) % 2 ^ 16).toNat
    let type := hdrPairs.at TYPE_TOKEN
    let contentLen := hdrPairs.at CONT_LEN_TOKEN
    let paddingLen := hdrPairs.at PADDING_LEN_TOKEN
    let m_reader := r.reader
    if contentLen > 0 then
      let rc := m_reader.read contentLen.toNat ns
      if rc.rc ≠ ReturnCode.OK then
        { ok := false, type := type, requestId := requestId, content := content,
          reader := rc.reader }
      else
        let content := rc.buf
        let m_reader := rc.reader
        if paddingLen > 0 then
          let rp := m_reader.read paddingLen.toNat ns
          if rp.rc ≠ ReturnCode.OK then
            { ok := false, type := type, requestId := requestId, content := content,
              reader := rp.reader }
          else
            { ok := true, type := type, requestId := requestId, content := content,
              reader := rp.reader }
        else
          { ok := true, type := type, requestId := requestId, content := content,
            reader := m_reader }
    else
      if paddingLen > 0 then
        let rp := m_reader.read paddingLen.toNat ns
        if rp.rc ≠ ReturnCode.OK then
          { ok := false, type := type, requestId := requestId, content := content,
            reader := rp.reader }
        else
          { ok := true, type := type, requestId := requestId, content := content,
            reader := rp.reader }
      else
        { ok := true, type := type, requestId := requestId, content := content,
          reader := m_reader }

/-- The locals of `waitForResponse` that live across loop iterations, the
caller's `response`, and the reader.  `seen` is a ghost log of the records
that were fully decoded, oldest first, each as the values of `type`,
`rcvdReqId` and `content` right after the decode. -/
structure LoopState where
  type : Int := 0
  rcvdReqId : Nat := 0
  content : Bytes := []
  ret : Bool := false
  response : Bytes := []
  reader : StreamReader := {}
  seen : List (Int × Nat × Bytes) := []
  deriving DecidableEq, Repr

/-- One pass through the body of the `while (true)` loop of `waitForResponse`
(lines 332-366).  The second component tells whether the loop is left
(`break`) at the end of this pass. -/
def waitForResponseIter (T : TagType) (requestId : Nat) (expire : Nat)
    (st : LoopState) : LoopState × Bool :=
  let d := decodeFastCgiRecord T st.reader st.type st.rcvdReqId st.content
  let st := { st with type := d.type, rcvdReqId := d.requestId, content := d.content,
                      reader := d.reader }
  if !d.ok then
    -- WARN("recv fcgi record failed")
    (st, decide (st.reader.clock > expire))
  else
    let st := { st with seen := st.seen ++ [(st.type, st.rcvdReqId, st.content)] }
    let st :=
      if st.type = (FCGI_TYPE_STDOUT.toNat : Int) ∨ st.type = (FCGI_TYPE_STDERR.toNat : Int) then
        if st.rcvdReqId ≠ requestId then
          st
        else
          let st := { st with response := st.content }
          if st.type = (FCGI_TYPE_STDOUT.toNat : Int) then { st with ret := true } else st
      else
        st
    if st.type = (FCGI_TYPE_END.toNat : Int) ∧ st.rcvdReqId = requestId then
      (st, true)
    else
      (st, decide (st.reader.clock > expire))

/-- The `while (true)` loop of `waitForResponse`, with a bound on the number
of passes; `none` when the bound is used up before the loop is left. -/
def waitForResponseLoop (T : TagType) (requestId : Nat) (expire : Nat) :
    Nat → LoopState → Option LoopState
  | 0, _ => none
  | fuel + 1, st =>
    match waitForResponseIter T requestId expire st with
    | (st, true) => some st
    | (st, false) => waitForResponseLoop T requestId expire fuel st

/-- A number of passes that `waitForResponseLoop` cannot use up: each pass
that does not leave the loop uses a scheduled outcome, consumes bytes from
the wire, or moves the clock towards `expire`. -/
def loopBound (expire : Nat) (r : StreamReader) : Nat :=
  r.schedule.length + r.wire.length + (expire + 1 - r.clock) + 1

/-- The outputs of `waitForResponse` and of `sendRequest`: the return value,
the caller's `response`, the reader, and the ghost log of decoded records. -/
structure Outcome where
  ret : Bool
  response : Bytes
  reader : StreamReader
  seen : List (Int × Nat × Bytes) := []
  deriving DecidableEq, Repr

/-- Source `FastCgiClient::waitForResponse` (lines 317-370); `timeout` is in seconds.
`type` and `rcvdReqId` start uninitialised in the source and are written
before they are read; they start at 0 here. -/
def waitForResponse (T : TagType) (m_reader : StreamReader) (requestId : Nat)
    (response : Bytes) (timeout : Nat) : Option Outcome :=
  let expire := m_reader.clock + timeout * 1000
  let st : LoopState := { response := response, reader := m_reader }
  (waitForResponseLoop T requestId expire (loopBound expire m_reader) st).map
    fun st => { ret := st.ret, response := st.response, reader := st.reader, seen := st.seen }

/-- The caller's parameter list `KeyValuePairs` (declared in `Common.h`, used
as a sequence of pairs of strings): an ordered sequence of (name, value) pairs. -/
abbrev KeyValuePairs := List (Bytes × Bytes)

/-- The local `paramsRecord` of `sendRequest` after the `for_each` of lines 141-143. -/
def paramsRecord (pairs : KeyValuePairs) : Bytes :=
  pairs.foldl (fun acc pair => acc ++ encodeNameValueParams pair.1 pair.2) []

/-- The local `request` of `sendRequest` when it is handed to `m_reader.write`
(lines 135-160). -/
def buildRequest (requestId : Nat) (pairs : KeyValuePairs) (body : Bytes) : Bytes :=
  let request := encodeFastCgiRecord FCGI_TYPE_BEGIN FCGI_HDR_STR requestId
  let request :=
    if !pairs.isEmpty then
      let paramsRecord := paramsRecord pairs
      if !paramsRecord.isEmpty then
        request ++ encodeFastCgiRecord FCGI_TYPE_PARAMS paramsRecord requestId
      else
        request
    else
      request
  -- mark the end of params
  let request := request ++ encodeFastCgiRecord FCGI_TYPE_PARAMS EMPTY_MARK requestId
  let request :=
    if !body.isEmpty then
      request ++ encodeFastCgiRecord FCGI_TYPE_STDIN body requestId
    else
      request
  -- mark the end of content
  request ++ encodeFastCgiRecord FCGI_TYPE_STDIN EMPTY_MARK requestId

/-- Source `FastCgiClient::sendRequest` (lines 118-169).  `rand` is the value that
`std::rand()` returns, `timeout` is in seconds. -/
def sendRequest (T : TagType) (m_reader : StreamReader) (rand : Nat)
    (pairs : KeyValuePairs) (body : Bytes) (response : Bytes) (timeout : Nat) :
    Option Outcome :=
  if !m_reader.isOpen then
    some { ret := false, response := response, reader := m_reader }
  else
    let requestId := (rand &&& 0x7fff) % 2 ^ 16
    let request := buildRequest requestId pairs body
    let w := m_reader.write request
    if w.1 ≠ ReturnCode.OK then
      some { ret := false, response := response, reader := w.2 }
    else
      waitForResponse T w.2 requestId response timeout

/-- Spec side of the name/value length prefix: one byte below 128, otherwise
four bytes, big-endian, with the top bit of the first byte set. -/
def specLengthPrefix (n : Nat) : Bytes :=
  if n < 128 then [n]
  else [0x80 ||| (n >>> 24), (n >>> 16) &&& 0xFF, (n >>> 8) &&& 0xFF, n &&& 0xFF]

/-- Spec side of reading a four byte length prefix back: clear the top bit of
the first byte and read the four bytes big-endian. -/
def specReadLength4 (p : Bytes) : Nat :=
  (p.getD 0 0 &&& 0x7F) * 2 ^ 24 + p.getD 1 0 * 2 ^ 16 + p.getD 2 0 * 2 ^ 8 + p.getD 3 0

/-- Progress measure of the response loop: what is left of the schedule and
of the wire, and the time left until `expire` is passed. -/
def loopMeasure (expire : Nat) (r : StreamReader) : Nat :=
  r.schedule.length + r.wire.length + (expire + 1 - r.clock)

/-- The reader `r'` can be reached from `r` by reads: schedule and wire only
shrink, the clock only moves forward, the write side is untouched. -/
def ReaderLe (r' r : StreamReader) : Prop :=
  r'.schedule.length ≤ r.schedule.length ∧ r'.wire.length ≤ r.wire.length ∧
  r.clock ≤ r'.clock ∧ r'.sent = r.sent ∧ r'.sockOpen = r.sockOpen ∧ r'.writeEcs = r.writeEcs

/-- Spec side of the parameter payload: the encodings of the pairs, in list
order, concatenated. -/
def specParamsPayload (pairs : KeyValuePairs) : Bytes :=
  (pairs.map fun p => encodeNameValueParams p.1 p.2).flatten

/-- Spec side of the wire request for a given payload: BEGIN_REQUEST, a PARAMS
record when the payload is non-empty, the empty PARAMS record, a STDIN record
when the body is non-empty, the empty STDIN record. -/
def specRequest (requestId : Nat) (payload body : Bytes) : Bytes :=
  encodeFastCgiRecord FCGI_TYPE_BEGIN FCGI_HDR_STR requestId ++
  (if payload = [] then [] else encodeFastCgiRecord FCGI_TYPE_PARAMS payload requestId) ++
  encodeFastCgiRecord FCGI_TYPE_PARAMS [] requestId ++
  (if body = [] then [] else encodeFastCgiRecord FCGI_TYPE_STDIN body requestId) ++
  encodeFastCgiRecord FCGI_TYPE_STDIN [] requestId

/-- Spec side: read a byte string as a sequence of records, each an 8-byte
header followed by the header's contentLength bytes, as (type, requestId,
content); reading stops where fewer than 8 bytes are left.  The first argument
bounds the number of records. -/
def specParseRecords : Nat → Bytes → List (Nat × Nat × Bytes)
  | 0, _ => []
  | fuel + 1, bs =>
    if bs.length < 8 then []
    else
      let len := bs.getD 4 0 * 256 + bs.getD 5 0
      (bs.getD 1 0, bs.getD 2 0 * 256 + bs.getD 3 0, (bs.drop 8).take len) ::
        specParseRecords fuel (bs.drop (8 + len))

/-- Spec side: the records of a byte string (a record takes at least 8 bytes,
so the length bounds their number). -/
def specRecords (bs : Bytes) : List (Nat × Nat × Bytes) :=
  specParseRecords bs.length bs

/-- Spec side: the records of the given type. -/
def recordsOfType (t : Nat) (recs : List (Nat × Nat × Bytes)) : List (Nat × Nat × Bytes) :=
  recs.filter fun r => decide (r.1 = t)

/-- Spec side: the records of the given type that have no content. -/
def emptyRecordsOfType (t : Nat) (recs : List (Nat × Nat × Bytes)) :
    List (Nat × Nat × Bytes) :=
  recs.filter fun r => decide (r.1 = t) && r.2.2.isEmpty

/-- A run of 65528 zero bytes. -/
def zeroBytes : Bytes := List.replicate 65528 0

/-- A body of 65536 bytes: eight bytes that read as an empty STDIN header for
request id 0, then zeros. -/
def longBody : Bytes := [1, 5, 0, 0, 0, 0, 0, 0] ++ zeroBytes

/-- Spec side of what the claim says about the prefix of a length `n`: four
bytes exactly when `n >= 128` and one byte otherwise; every element a byte;
the one byte form is `n` itself; the four byte form has the top bit of its
first byte set and reads back to `n`. -/
def LengthPrefixSpec (n : Nat) : Prop :=
  ((specLengthPrefix n).length = 4 ↔ 128 ≤ n) ∧
  ((specLengthPrefix n).length = 1 ↔ n < 128) ∧
  IsBytes (specLengthPrefix n) ∧
  (n < 128 → specLengthPrefix n = [n]) ∧
  (128 ≤ n → 128 ≤ (specLengthPrefix n).getD 0 0 ∧ specReadLength4 (specLengthPrefix n) = n)

/-- The five bytes of "hello". -/
def hello : Bytes := [104, 101, 108, 108, 111]

/-- Source `StreamReader::close` (lines 146-159).  A failure of
`m_sock.cancel` is only logged. -/
def StreamReader.close (s : StreamReader) : StreamReader :=
  if !s.sockOpen then
    s
  else
    let s := { s with sockCancels := s.sockCancels + 1 }
    { s with sockOpen := false, sockCloses := s.sockCloses + 1 }

/-- Spec side: a logged record is a STDOUT record for the given request id. -/
def IsMatchingStdout (requestId : Nat) (r : Int × Nat × Bytes) : Prop :=
  r.1 = (FCGI_TYPE_STDOUT.toNat : Int) ∧ r.2.1 = requestId

/-- Spec side: a logged record is an END_REQUEST record for the given request id. -/
def IsMatchingEnd (requestId : Nat) (r : Int × Nat × Bytes) : Prop :=
  r.1 = (FCGI_TYPE_END.toNat : Int) ∧ r.2.1 = requestId

/-- Spec side: the content logged with the last STDOUT or STDERR record of the
given request id in a log of records, if there is one. -/
def lastMatchingData (requestId : Nat) (seen : List (Int × Nat × Bytes)) : Option Bytes :=
  seen.foldl
    (fun acc r =>
      if (r.1 = (FCGI_TYPE_STDOUT.toNat : Int) ∨ r.1 = (FCGI_TYPE_STDERR.toNat : Int)) ∧
          r.2.1 = requestId then some r.2.2 else acc)
    none

/-- Spec side: the content delivered for the last logged STDOUT record with
the given request id, if there is one. -/
def lastMatchingStdout (requestId : Nat) (seen : List (Int × Nat × Bytes)) : Option Bytes :=
  seen.foldl
    (fun acc r =>
      if r.1 = (FCGI_TYPE_STDOUT.toNat : Int) ∧ r.2.1 = requestId then some r.2.2 else acc)
    none

/-- Spec side: the content that the record at the head of `wire` carries: the
bytes that follow the 8 byte header, as many as bytes 4 and 5 of the header
(contentLengthB1, contentLengthB0) declare. -/
def specRecordContent (wire : Bytes) : Bytes :=
  (wire.drop FCGI_HEADER_SIZE).take (wire.getD 4 0 % 256 * 256 + wire.getD 5 0 % 256)

/-- Ghost view of the loop of `waitForResponse` over the given number of
passes: the records that the passes decode, oldest first.  Each pass replays
the call of `decodeFastCgiRecord` that `waitForResponseIter` makes and, when
the decode succeeds, logs the decoded type, the decoded request id and the
content that the record carries on the wire (`specRecordContent` of the wire
the decode starts from), not the value of the `content` variable. -/
def decodedRecords (T : TagType) (requestId : Nat) (expire : Nat) :
    Nat → LoopState → List (Int × Nat × Bytes)
  | 0, _ => []
  | fuel + 1, st =>
    let d := decodeFastCgiRecord T st.reader st.type st.rcvdReqId st.content
    let here : List (Int × Nat × Bytes) :=
      if d.ok then [(d.type, d.requestId, specRecordContent st.reader.wire)] else []
    match waitForResponseIter T requestId expire st with
    | (_, true) => here
    | (st, false) => here ++ decodedRecords T requestId expire fuel st

/-- Ghost view of `waitForResponse`: the records its loop decodes, each with
the content it carries on the wire. -/
def waitForResponseRecords (T : TagType) (m_reader : StreamReader) (requestId : Nat)
    (response : Bytes) (timeout : Nat) : List (Int × Nat × Bytes) :=
  let expire := m_reader.clock + timeout * 1000
  let st : LoopState := { response := response, reader := m_reader }
  decodedRecords T requestId expire (loopBound expire m_reader) st

/-- Ghost view of `sendRequest`: the records decoded while it waits for the
response, each with the content it carries on the wire; none when the
transport is not open or the write fails. -/
def sendRequestRecords (T : TagType) (m_reader : StreamReader) (rand : Nat)
    (pairs : KeyValuePairs) (body : Bytes) (response : Bytes) (timeout : Nat) :
    List (Int × Nat × Bytes) :=
  if !m_reader.isOpen then
    []
  else
    let requestId := (rand &&& 0x7fff) % 2 ^ 16
    let request := buildRequest requestId pairs body
    let w := m_reader.write request
    if w.1 ≠ ReturnCode.OK then
      []
    else
      waitForResponseRecords T w.2 requestId response timeout

/-- A run of 128 padding bytes. -/
def padding128 : Bytes := List.replicate 128 0

/-- The four bytes of "evil". -/
def evil : Bytes := [101, 118, 105, 108]

/-- The four bytes of "good". -/
def good : Bytes := [103, 111, 111, 100]

/-- An END_REQUEST body: application status 0, protocol status 0, three reserved bytes. -/
def endBody : Bytes := [0, 0, 0, 0, 0, 0, 0, 0]

/-- The promise behind `m_result`, with a count of the `set_value` calls made
on it.  The stored value is the first one set: `set_value` on a promise that
already holds a value throws and stores nothing. -/
structure PromiseLog where
  value : Promise := none
  setCalls : Nat := 0
  deriving DecidableEq, Repr

/-- One call of `m_result->set_value(rc)`. -/
def PromiseLog.set_value (p : PromiseLog) (rc : ReturnCode) : PromiseLog :=
  { value := if p.value.isSome then p.value else some rc, setCalls := p.setCalls + 1 }

/-- The two completion events of one `read` call, each with the error code
its handler receives. -/
inductive Completion
  | readCompletion (ec : ErrorCode)
  | timerExpiry (ec : ErrorCode)
  deriving DecidableEq, Repr

/-- Delivery of a completion event: the bound handler runs.  A handler run on
an empty slot returns the value it passes to `set_value`, or leaves the slot
empty when it returns without setting. -/
def PromiseLog.deliver (p : PromiseLog) : Completion → PromiseLog
  | .readCompletion ec =>
    match readHandler ec none with
    | some rc => p.set_value rc
    | none => p
  | .timerExpiry ec =>
    match timeoutHandler ec none with
    | some rc => p.set_value rc
    | none => p

/-- The pending operation that `read` cancels once `f.get()` has returned
(the `switch` of lines 121-141): the timer on OK, the socket operation on
TIMEOUT, nothing otherwise. -/
inductive Cancelled
  | timer
  | socket
  | nothing
  deriving DecidableEq, Repr

/-- The `switch (rc)` of `StreamReader::read` (lines 121-141). -/
def readCancels : ReturnCode → Cancelled
  | ReturnCode.OK => Cancelled.timer
  | ReturnCode.TIMEOUT => Cancelled.socket
  | _ => Cancelled.nothing

/-- The event that follows the first, non-aborted one within a single `read`
call: a cancelled operation completes with `operation_aborted`, a timer that
is not cancelled expires, and a socket operation that is not cancelled
completes with the given `late` error code. -/
def secondCompletion (first : Completion) (late : ErrorCode) : Completion :=
  match first with
  | .readCompletion ec =>
    match (readHandler ec none).map readCancels with
    | some Cancelled.timer => .timerExpiry ErrorCode.operation_aborted
    | _ => .timerExpiry ErrorCode.success
  | .timerExpiry ec =>
    match (timeoutHandler ec none).map readCancels with
    | some Cancelled.socket => .readCompletion ErrorCode.operation_aborted
    | _ => .readCompletion late

/-- The severity levels `ILogger::Level` (ILogger.h, lines 46-53). -/
inductive Level
  | INFO_LEVEL
  | DEBUG_LEVEL
  | WARN_LEVEL
  | ERROR_LEVEL
  | FATAL_LEVEL
  deriving DecidableEq, Repr

/-- The default logger: its configured level `m_level` and, as a log, the
levels of the lines it has written to the output, oldest first. -/
structure DefaultLogger where
  m_level : Level := Level.INFO_LEVEL
  written : List Level := []
  deriving DecidableEq, Repr

/-- Source `DefaultLogger::setLogLevel` (DefaultLogger.cpp, lines 95-99). -/
def DefaultLogger.setLogLevel (l : DefaultLogger) (logLevel : Level) : DefaultLogger :=
  { l with m_level := logLevel }

/-- Source `DefaultLogger::isLoggable` (lines 166-199).  The `switch` is on the
parameter `logLevel`, the level of the message; the member `m_level` is not
read. -/
def DefaultLogger.isLoggable (_l : DefaultLogger) (logLevel : Level) : Bool :=
  match logLevel with
  | Level.INFO_LEVEL => logLevel != Level.DEBUG_LEVEL
  | Level.DEBUG_LEVEL => logLevel != Level.INFO_LEVEL
  | Level.WARN_LEVEL => logLevel != Level.INFO_LEVEL && logLevel != Level.DEBUG_LEVEL
  | Level.ERROR_LEVEL => logLevel == Level.ERROR_LEVEL || logLevel == Level.FATAL_LEVEL
  | Level.FATAL_LEVEL => logLevel == Level.FATAL_LEVEL

/-- The body shared by `info`, `debug`, `warn`, `error` and `fatal` (lines
101-164): the line is written when `isLoggable` says so. -/
def DefaultLogger.logAt (l : DefaultLogger) (logLevel : Level) : DefaultLogger :=
  if l.isLoggable logLevel then { l with written := l.written ++ [logLevel] } else l

/-- Source `DefaultLogger::info` (lines 101-112). -/
def DefaultLogger.info (l : DefaultLogger) : DefaultLogger := l.logAt Level.INFO_LEVEL

/-- Source `DefaultLogger::debug` (lines 114-125). -/
def DefaultLogger.debug (l : DefaultLogger) : DefaultLogger := l.logAt Level.DEBUG_LEVEL

/-- Source `DefaultLogger::warn` (lines 127-138). -/
def DefaultLogger.warn (l : DefaultLogger) : DefaultLogger := l.logAt Level.WARN_LEVEL

/-- Source `DefaultLogger::error` (lines 140-151). -/
def DefaultLogger.error (l : DefaultLogger) : DefaultLogger := l.logAt Level.ERROR_LEVEL

/-- Source `DefaultLogger::fatal` (lines 153-164). -/
def DefaultLogger.fatal (l : DefaultLogger) : DefaultLogger := l.logAt Level.FATAL_LEVEL

/-- Spec side, reference name/value decoder: one length, a single byte when the
first byte is below 128 and otherwise four bytes big-endian with the top bit
cleared; returns the length and the bytes after it. -/
def specReadLength : Bytes → Option (Nat × Bytes)
  | [] => none
  | b :: rest =>
    if b < 128 then some (b, rest)
    else
      match rest with
      | b1 :: b2 :: b3 :: rest' =>
        some ((b &&& 0x7F) * 2 ^ 24 + b1 * 2 ^ 16 + b2 * 2 ^ 8 + b3, rest')
      | _ => none

/-- Spec side, reference name/value decoder: name length, value length, then
that many bytes each, repeated until the payload is used up; `none` when
the payload is cut short.  The first argument bounds the number of pairs. -/
def specDecodePairs : Nat → Bytes → Option (List (Bytes × Bytes))
  | _, [] => some []
  | 0, _ :: _ => none
  | fuel + 1, b :: bs =>
    match specReadLength (b :: bs) with
    | none => none
    | some (nameLen, r1) =>
      match specReadLength r1 with
      | none => none
      | some (valueLen, r2) =>
        if r2.length < nameLen + valueLen then none
        else
          match specDecodePairs fuel (r2.drop (nameLen + valueLen)) with
          | none => none
          | some pairs => some ((r2.take nameLen, (r2.drop nameLen).take valueLen) :: pairs)

/-- Spec side: one of the reads of a record attempt fails: the header read, or
the content read (made when the decoded contentLength is positive), or the
padding read (made when the decoded paddingLength is positive). -/
def ReadFailed (T : TagType) (r : StreamReader) : Prop :=
  let rh := r.read FCGI_HEADER_SIZE ns
  let hdrPairs := decodeFastCgiHeader T rh.buf
  let contentLen := hdrPairs.at CONT_LEN_TOKEN
  let paddingLen := hdrPairs.at PADDING_LEN_TOKEN
  let rc := rh.reader.read contentLen.toNat ns
  let afterContent := if contentLen > 0 then rc.reader else rh.reader
  rh.rc ≠ ReturnCode.OK ∨
  (rh.rc = ReturnCode.OK ∧ contentLen > 0 ∧ rc.rc ≠ ReturnCode.OK) ∨
  (rh.rc = ReturnCode.OK ∧ (contentLen > 0 → rc.rc = ReturnCode.OK) ∧ paddingLen > 0 ∧
    (afterContent.read paddingLen.toNat ns).rc ≠ ReturnCode.OK)

/-! ## Arithmetic of the bit operations -/

theorem and_FF (x : Nat) : x &&& 0xFF = x % 256 := by
  have := Nat.and_pow_two_sub_one_eq_mod x 8
  simpa using this

theorem and_7F (x : Nat) : x &&& 0x7F = x % 128 := by
  have := Nat.and_pow_two_sub_one_eq_mod x 7
  simpa using this

theorem shr8 (x : Nat) : x >>> 8 = x / 256 := by
  simp [Nat.shiftRight_eq_div_pow]

theorem shr16 (x : Nat) : x >>> 16 = x / 65536 := by
  simp [Nat.shiftRight_eq_div_pow]

theorem shr24 (x : Nat) : x >>> 24 = x / 16777216 := by
  simp [Nat.shiftRight_eq_div_pow]

theorem or_80 (x : Nat) (h : x < 128) : x ||| 0x80 = 128 + x := by
  have := Nat.mul_add_lt_is_or (i := 7) (b := x) (by simpa using h) 1
  simp at this
  rw [Nat.lor_comm]
  exact this.symm

/-! ## The record header -/

theorem encodeFastCgiRecord_eq (recType : FcgiRecordType) (content : Bytes) (requestId : Nat) :
    encodeFastCgiRecord recType content requestId =
      [1, recType.toNat % 256, requestId / 256 % 256, requestId % 256,
       content.length / 256 % 256, content.length % 256, 0, 0] ++ content := by
  simp [encodeFastCgiRecord, FCGI_VERSION, and_FF, shr8]

theorem FcgiRecordType.toNat_pos (t : FcgiRecordType) : 1 ≤ t.toNat := by
  cases t <;> decide

theorem FcgiRecordType.toNat_le (t : FcgiRecordType) : t.toNat ≤ 11 := by
  cases t <;> decide

theorem maskFF_charAt (buf : Bytes) (i : Nat) :
    maskFF (charAt buf i) = ((buf.getD i 0 % 256 : Nat) : Int) := by
  have h : buf.getD i 0 % 256 < 256 := Nat.mod_lt _ (by decide)
  simp only [maskFF, charAt]
  split <;> omega

theorem charAt_small (buf : Bytes) (i : Nat) (h : buf.getD i 0 < 128) :
    charAt buf i = (buf.getD i 0 : Int) := by
  have h1 : buf.getD i 0 % 256 = buf.getD i 0 := Nat.mod_eq_of_lt (by omega)
  simp only [charAt, h1]
  rw [if_pos h]

theorem TagType.conv_id (T : TagType) (hT : T.holdsU16 = true) (v : Int)
    (h0 : 0 ≤ v) (h1 : v < 65536) : T.conv v = v := by
  cases T with
  | unsignedInt w =>
    simp only [TagType.holdsU16, decide_eq_true_eq] at hT
    have hp : (2 : Int) ^ 16 ≤ 2 ^ w := pow_le_pow_right₀ (by norm_num) hT
    simp only [TagType.conv]
    exact Int.emod_eq_of_lt h0 (by omega)
  | signedInt w =>
    simp only [TagType.holdsU16, decide_eq_true_eq] at hT
    obtain ⟨k, rfl⟩ : ∃ k, w = k + 1 := ⟨w - 1, by omega⟩
    have hp : (2 : Int) ^ 16 ≤ 2 ^ k := pow_le_pow_right₀ (by norm_num) (by omega)
    simp only [TagType.conv, Nat.add_sub_cancel, pow_succ]
    rw [Int.emod_eq_of_lt (by omega) (by omega)]
    omega

theorem decodeFastCgiHeader_at (T : TagType) (buf : Bytes) :
    (decodeFastCgiHeader T buf).at VER_TOKEN = T.conv (charAt buf 0) ∧
    (decodeFastCgiHeader T buf).at TYPE_TOKEN = T.conv (charAt buf 1) ∧
    (decodeFastCgiHeader T buf).at REQ_ID_TOKEN =
      T.conv ((maskFF (charAt buf 2) * 2 ^ 8 + maskFF (charAt buf 3)) % 2 ^ 16) ∧
    (decodeFastCgiHeader T buf).at CONT_LEN_TOKEN =
      T.conv ((maskFF (charAt buf 4) * 2 ^ 8 + maskFF (charAt buf 5)) % 2 ^ 16) ∧
    (decodeFastCgiHeader T buf).at PADDING_LEN_TOKEN = T.conv (charAt buf 6) :=
  ⟨rfl, rfl, rfl, rfl, rfl⟩

theorem decodeFastCgiHeader_header_bytes (T : TagType) (hT : T.holdsU16 = true)
    (recType : FcgiRecordType) (len requestId : Nat)
    (hid : requestId ≤ 65535) (hlen : len ≤ 65535) :
    (decodeFastCgiHeader T [1, recType.toNat % 256, requestId / 256 % 256, requestId % 256,
       len / 256 % 256, len % 256, 0, 0]).at VER_TOKEN = 1 ∧
    (decodeFastCgiHeader T [1, recType.toNat % 256, requestId / 256 % 256, requestId % 256,
       len / 256 % 256, len % 256, 0, 0]).at TYPE_TOKEN = recType.toNat ∧
    (decodeFastCgiHeader T [1, recType.toNat % 256, requestId / 256 % 256, requestId % 256,
       len / 256 % 256, len % 256, 0, 0]).at REQ_ID_TOKEN = requestId ∧
    (decodeFastCgiHeader T [1, recType.toNat % 256, requestId / 256 % 256, requestId % 256,
       len / 256 % 256, len % 256, 0, 0]).at CONT_LEN_TOKEN = len ∧
    (decodeFastCgiHeader T [1, recType.toNat % 256, requestId / 256 % 256, requestId % 256,
       len / 256 % 256, len % 256, 0, 0]).at PADDING_LEN_TOKEN = 0 := by
  have ht1 := FcgiRecordType.toNat_pos recType
  have ht2 := FcgiRecordType.toNat_le recType
  obtain ⟨hv, hty, hrid, hcl, hpl⟩ := decodeFastCgiHeader_at T
    [1, recType.toNat % 256, requestId / 256 % 256, requestId % 256,
       len / 256 % 256, len % 256, 0, 0]
  rw [hv, hty, hrid, hcl, hpl]
  simp only [maskFF_charAt]
  have htm : recType.toNat % 256 = recType.toNat := Nat.mod_eq_of_lt (by omega)
  refine ⟨?_, ?_, ?_, ?_, ?_⟩
  · rw [charAt_small _ _ (by simp)]
    simpa using T.conv_id hT 1 (by norm_num) (by norm_num)
  · rw [charAt_small _ _ (by simp; omega)]
    simp only [List.getD_cons_succ, List.getD_cons_zero, htm]
    exact T.conv_id hT _ (by omega) (by omega)
  · simp only [List.getD_cons_succ, List.getD_cons_zero]
    have e : (((requestId / 256 % 256 % 256 : Nat) : Int) * 2 ^ 8 +
        ((requestId % 256 % 256 : Nat) : Int)) % 2 ^ 16 = (requestId : Int) := by omega
    rw [e]
    exact T.conv_id hT _ (by omega) (by omega)
  · simp only [List.getD_cons_succ, List.getD_cons_zero]
    have e : (((len / 256 % 256 % 256 : Nat) : Int) * 2 ^ 8 +
        ((len % 256 % 256 : Nat) : Int)) % 2 ^ 16 = (len : Int) := by omega
    rw [e]
    exact T.conv_id hT _ (by omega) (by omega)
  · rw [charAt_small _ _ (by simp)]
    simpa using T.conv_id hT 0 (by norm_num) (by norm_num)

/-- C1: for every record type, every requestId in 0..65535 and every content of
at most 65535 bytes, decoding the first 8 bytes of the encoded record gives
version 1, the given type, the given requestId, contentLength = len(content)
and paddingLength 0 (for a tag type that holds every 16 bit value). -/
theorem decodeFastCgiHeader_encodeFastCgiRecord (T : TagType) (hT : T.holdsU16 = true)
    (recType : FcgiRecordType) (content : Bytes) (requestId : Nat)
    (hid : requestId ≤ 65535) (hlen : content.length ≤ 65535) :
    (decodeFastCgiHeader T ((encodeFastCgiRecord recType content requestId).take 8)).at
        VER_TOKEN = 1 ∧
    (decodeFastCgiHeader T ((encodeFastCgiRecord recType content requestId).take 8)).at
        TYPE_TOKEN = recType.toNat ∧
    (decodeFastCgiHeader T ((encodeFastCgiRecord recType content requestId).take 8)).at
        REQ_ID_TOKEN = requestId ∧
    (decodeFastCgiHeader T ((encodeFastCgiRecord recType content requestId).take 8)).at
        CONT_LEN_TOKEN = content.length ∧
    (decodeFastCgiHeader T ((encodeFastCgiRecord recType content requestId).take 8)).at
        PADDING_LEN_TOKEN = 0 := by
  have htake : (encodeFastCgiRecord recType content requestId).take 8 =
      [1, recType.toNat % 256, requestId / 256 % 256, requestId % 256,
       content.length / 256 % 256, content.length % 256, 0, 0] := by
    rw [encodeFastCgiRecord_eq]; simp
  rw [htake]
  exact decodeFastCgiHeader_header_bytes T hT recType content.length requestId hid hlen

theorem encodeFastCgiRecord_of_le (recType : FcgiRecordType) (content : Bytes)
    (requestId : Nat) (hid : requestId ≤ 65535) (hlen : content.length ≤ 65535) :
    encodeFastCgiRecord recType content requestId =
      [1, recType.toNat, requestId >>> 8, requestId &&& 0xFF,
       content.length >>> 8, content.length &&& 0xFF, 0, 0] ++ content := by
  have ht2 := FcgiRecordType.toNat_le recType
  have htm : recType.toNat % 256 = recType.toNat := Nat.mod_eq_of_lt (by omega)
  have h1 : requestId / 256 % 256 = requestId / 256 := Nat.mod_eq_of_lt (by omega)
  have h2 : content.length / 256 % 256 = content.length / 256 := Nat.mod_eq_of_lt (by omega)
  rw [encodeFastCgiRecord_eq, and_FF, and_FF, shr8, shr8, htm, h1, h2]

theorem encodeNameValueParams_nil_of_or (name value : Bytes) (h : name = [] ∨ value = []) :
    encodeNameValueParams name value = [] := by
  unfold encodeNameValueParams
  rcases h with h | h <;> subst h <;> simp

/-- Witness for C1: a STDOUT record with two content bytes and requestId 0x1234. -/
theorem decodeFastCgiHeader_encodeFastCgiRecord_witness :
    (decodeFastCgiHeader (.signedInt 32)
        ((encodeFastCgiRecord FCGI_TYPE_STDOUT [104, 105] 0x1234).take 8)).at VER_TOKEN = 1 ∧
    (decodeFastCgiHeader (.signedInt 32)
        ((encodeFastCgiRecord FCGI_TYPE_STDOUT [104, 105] 0x1234).take 8)).at TYPE_TOKEN =
      FCGI_TYPE_STDOUT.toNat ∧
    (decodeFastCgiHeader (.signedInt 32)
        ((encodeFastCgiRecord FCGI_TYPE_STDOUT [104, 105] 0x1234).take 8)).at REQ_ID_TOKEN =
      (0x1234 : Nat) ∧
    (decodeFastCgiHeader (.signedInt 32)
        ((encodeFastCgiRecord FCGI_TYPE_STDOUT [104, 105] 0x1234).take 8)).at CONT_LEN_TOKEN =
      ([104, 105] : Bytes).length ∧
    (decodeFastCgiHeader (.signedInt 32)
        ((encodeFastCgiRecord FCGI_TYPE_STDOUT [104, 105] 0x1234).take 8)).at
        PADDING_LEN_TOKEN = 0 :=
  decodeFastCgiHeader_encodeFastCgiRecord (.signedInt 32) (by decide) FCGI_TYPE_STDOUT
    [104, 105] 0x1234 (by decide) (by decide)

/-- C2: for every type, every 16 bit requestId and every content of at most
65535 bytes, the encoded record is the 8 header bytes
[1, type, requestId >> 8, requestId & 0xFF, len >> 8, len & 0xFF, 0, 0], each a
byte, followed by the content verbatim; its length is 8 + len(content). -/
theorem encodeFastCgiRecord_layout (recType : FcgiRecordType) (content : Bytes)
    (requestId : Nat) (hid : requestId ≤ 65535) (hlen : content.length ≤ 65535) :
    encodeFastCgiRecord recType content requestId =
      [1, recType.toNat, requestId >>> 8, requestId &&& 0xFF,
       content.length >>> 8, content.length &&& 0xFF, 0, 0] ++ content ∧
    (encodeFastCgiRecord recType content requestId).length = 8 + content.length ∧
    IsBytes [1, recType.toNat, requestId >>> 8, requestId &&& 0xFF,
       content.length >>> 8, content.length &&& 0xFF, 0, 0] := by
  have ht2 := FcgiRecordType.toNat_le recType
  refine ⟨encodeFastCgiRecord_of_le recType content requestId hid hlen, ?_, ?_⟩
  · rw [encodeFastCgiRecord_eq]
    simp only [List.length_append, List.length_cons, List.length_nil]
  · intro b hb
    simp only [List.mem_cons, List.mem_singleton, and_FF, shr8, List.mem_nil_iff,
      or_false] at hb
    omega

/-- Witness for C2: a PARAMS record with three content bytes and requestId 513. -/
theorem encodeFastCgiRecord_layout_witness :
    encodeFastCgiRecord FCGI_TYPE_PARAMS [7, 8, 9] 513 =
      [1, FCGI_TYPE_PARAMS.toNat, 513 >>> 8, 513 &&& 0xFF,
       ([7, 8, 9] : Bytes).length >>> 8, ([7, 8, 9] : Bytes).length &&& 0xFF, 0, 0] ++
        [7, 8, 9] ∧
    (encodeFastCgiRecord FCGI_TYPE_PARAMS [7, 8, 9] 513).length =
      8 + ([7, 8, 9] : Bytes).length ∧
    IsBytes [1, FCGI_TYPE_PARAMS.toNat, 513 >>> 8, 513 &&& 0xFF,
       ([7, 8, 9] : Bytes).length >>> 8, ([7, 8, 9] : Bytes).length &&& 0xFF, 0, 0] :=
  encodeFastCgiRecord_layout FCGI_TYPE_PARAMS [7, 8, 9] 513 (by decide) (by decide)

/-! ## Name/value pairs -/

theorem specLengthPrefix_eq (n : Nat) (h : n < 2 ^ 31) :
    specLengthPrefix n =
      if n < 128 then [n]
      else [128 + n / 16777216, n / 65536 % 256, n / 256 % 256, n % 256] := by
  unfold specLengthPrefix
  split
  · rfl
  · have h24 : n / 16777216 < 128 := by omega
    rw [Nat.lor_comm, shr24, or_80 _ h24, and_FF, and_FF, and_FF, shr16, shr8]

theorem encodeNameValueParams_eq (name value : Bytes) (hn : name ≠ []) (hv : value ≠ []) :
    encodeNameValueParams name value =
      (if name.length < 128 then [name.length % 256]
       else [((name.length >>> 24) ||| 0x80) % 256, ((name.length >>> 16) &&& 0xFF) % 256,
             ((name.length >>> 8) &&& 0xFF) % 256, (name.length &&& 0xFF) % 256]) ++
      (if value.length < 128 then [value.length % 256]
       else [((value.length >>> 24) ||| 0x80) % 256, ((value.length >>> 16) &&& 0xFF) % 256,
             ((value.length >>> 8) &&& 0xFF) % 256, (value.length &&& 0xFF) % 256]) ++
      name ++ value := by
  unfold encodeNameValueParams
  have h1 : name.isEmpty = false := by cases name <;> simp_all
  have h2 : value.isEmpty = false := by cases value <;> simp_all
  simp only [h1, h2, Bool.not_false, Bool.and_self, if_true]
  split <;> rfl

theorem codeLengthPrefix_eq_spec (n : Nat) (h : n < 2 ^ 31) :
    (if n < 128 then [n % 256]
     else [((n >>> 24) ||| 0x80) % 256, ((n >>> 16) &&& 0xFF) % 256,
           ((n >>> 8) &&& 0xFF) % 256, (n &&& 0xFF) % 256]) = specLengthPrefix n := by
  rw [specLengthPrefix_eq n h]
  split
  · rw [Nat.mod_eq_of_lt (by omega)]
  · have h24 : n / 16777216 < 128 := by omega
    rw [shr24, or_80 _ h24, and_FF, and_FF, and_FF, shr16, shr8]
    congr 1
    · omega
    · congr 1
      · omega
      · congr 1
        · omega
        · congr 1
          omega

theorem lengthPrefixSpec_of_lt (n : Nat) (h : n < 2 ^ 31) : LengthPrefixSpec n := by
  unfold LengthPrefixSpec
  rw [specLengthPrefix_eq n h]
  by_cases hlt : n < 128
  · rw [if_pos hlt]
    refine ⟨⟨fun h' => ?_, fun h' => ?_⟩, ⟨fun _ => hlt, fun _ => rfl⟩, ?_, fun _ => rfl,
      fun h' => ?_⟩
    · simp at h'
    · omega
    · intro b hb
      simp only [List.mem_singleton] at hb
      omega
    · omega
  · rw [if_neg hlt]
    refine ⟨⟨fun _ => by omega, fun _ => rfl⟩, ⟨fun h' => ?_, fun h' => ?_⟩, ?_,
      fun h' => ?_, fun _ => ⟨?_, ?_⟩⟩
    · simp at h'
    · omega
    · intro b hb
      simp only [List.mem_cons, List.mem_singleton, List.mem_nil_iff, or_false] at hb
      omega
    · omega
    · simp
    · simp only [specReadLength4, List.getD_cons_zero, List.getD_cons_succ, and_7F]
      omega

/-- C3: for non-empty name and value with lengths below 2^31 the encoding is
prefix(len name) ++ prefix(len value) ++ name ++ value, where the prefix of
each of the two lengths n has four bytes exactly when n >= 128 and one byte
(n itself) otherwise, all its elements are bytes, the four byte form has the
top bit of its first byte set, and clearing that bit and reading the four
bytes big-endian gives n. -/
theorem encodeNameValueParams_nonempty (name value : Bytes)
    (hn : name ≠ []) (hv : value ≠ [])
    (hnl : name.length < 2 ^ 31) (hvl : value.length < 2 ^ 31) :
    encodeNameValueParams name value =
      specLengthPrefix name.length ++ specLengthPrefix value.length ++ name ++ value ∧
    LengthPrefixSpec name.length ∧ LengthPrefixSpec value.length := by
  refine ⟨?_, lengthPrefixSpec_of_lt _ hnl, lengthPrefixSpec_of_lt _ hvl⟩
  rw [encodeNameValueParams_eq name value hn hv, codeLengthPrefix_eq_spec _ hnl,
    codeLengthPrefix_eq_spec _ hvl]

/-- Witness for C3: a one byte name with a value of 130 bytes, which takes the
four byte prefix. -/
theorem encodeNameValueParams_nonempty_witness :
    encodeNameValueParams [65] (List.replicate 130 66) =
      specLengthPrefix ([65] : Bytes).length ++
        specLengthPrefix (List.replicate 130 66 : Bytes).length ++
        [65] ++ List.replicate 130 66 ∧
    LengthPrefixSpec ([65] : Bytes).length ∧
    LengthPrefixSpec (List.replicate 130 66 : Bytes).length :=
  encodeNameValueParams_nonempty [65] (List.replicate 130 66) (by decide) (by simp)
    (by decide) (by simp)

/-- C4: when the name or the value is empty, the encoding is the empty byte string. -/
theorem encodeNameValueParams_empty (name value : Bytes) (h : name = [] ∨ value = []) :
    encodeNameValueParams name value = [] :=
  encodeNameValueParams_nil_of_or name value h

/-- Witness for C4: an empty value. -/
theorem encodeNameValueParams_empty_witness :
    encodeNameValueParams [65, 66] [] = [] :=
  encodeNameValueParams_empty [65, 66] [] (Or.inr rfl)

/-! ## Header fields that are not masked -/

theorem unsigned_conv_clash (m : Int) (hm : 0 < m) (h1 : (256 : Int) % m = 256)
    (h2 : (-128 : Int) % m = 128) : False := by
  have hlt : (256 : Int) % m < m := Int.emod_lt_of_pos _ hm
  have hq := Int.emod_add_ediv (-128) m
  rw [h2] at hq
  have hq' : m * (-128 / m) = -256 := by omega
  have hneg : (-128 : Int) / m ≤ -1 := by
    by_contra hc
    have h0 : 0 ≤ (-128 : Int) / m := by omega
    have := mul_nonneg hm.le h0
    omega
  nlinarith

theorem signed_conv_clash (h : Int) (hh : 0 < h) (h1 : (256 + h) % (h * 2) - h = 256)
    (h2 : (-128 + h) % (h * 2) - h = 128) : False := by
  have hlt : (256 + h) % (h * 2) < h * 2 := Int.emod_lt_of_pos _ (by omega)
  have hbig : 256 < h := by omega
  rw [Int.emod_eq_of_lt (by omega) (by omega)] at h2
  omega

theorem decodeFastCgiHeader_pad128 (T : TagType) :
    (decodeFastCgiHeader T [1, 6, 1, 0, 0, 0, 0x80, 0]).at REQ_ID_TOKEN = T.conv 256 ∧
    (decodeFastCgiHeader T [1, 6, 1, 0, 0, 0, 0x80, 0]).at PADDING_LEN_TOKEN =
      T.conv (-128) := by
  obtain ⟨-, -, hrid, -, hpl⟩ := decodeFastCgiHeader_at T [1, 6, 1, 0, 0, 0, 0x80, 0]
  rw [hrid, hpl]
  constructor <;> rfl

theorem TagType.conv_neg (T : TagType) (hT : T.holdsU16 = true) (v : Int)
    (h0 : -128 ≤ v) (h1 : v < 0) : T.conv v < 0 ∨ 65408 ≤ T.conv v := by
  cases T with
  | unsignedInt w =>
    simp only [TagType.holdsU16, decide_eq_true_eq] at hT
    have hp : (2 : Int) ^ 16 ≤ 2 ^ w := pow_le_pow_right₀ (by norm_num) hT
    right
    simp only [TagType.conv]
    have e : v % 2 ^ w = (v + 2 ^ w) % 2 ^ w := by simp
    rw [e, Int.emod_eq_of_lt (by omega) (by omega)]
    omega
  | signedInt w =>
    simp only [TagType.holdsU16, decide_eq_true_eq] at hT
    obtain ⟨k, rfl⟩ : ∃ k, w = k + 1 := ⟨w - 1, by omega⟩
    have hp : (2 : Int) ^ 16 ≤ 2 ^ k := pow_le_pow_right₀ (by norm_num) (by omega)
    left
    simp only [TagType.conv, Nat.add_sub_cancel, pow_succ]
    rw [Int.emod_eq_of_lt (by omega) (by omega)]
    omega

/-- C5, evaluation at the failing input: the header 01 06 01 00 00 00 80 00
declares requestId 256 and paddingLength 128.  For no tag type does the
decoder return both values, and for every tag type that holds all 16 bit
values the paddingLength it returns is negative or at least 65408: the padding
byte is widened from a signed char without a mask.  With a 32 bit signed tag
the paddingLength is -128, with a 16 bit unsigned tag it is 65408. -/
theorem decodeFastCgiHeader_padding_not_wire_value :
    (∀ T : TagType,
      ¬ ((decodeFastCgiHeader T [1, 6, 1, 0, 0, 0, 0x80, 0]).at REQ_ID_TOKEN = 256 ∧
         (decodeFastCgiHeader T [1, 6, 1, 0, 0, 0, 0x80, 0]).at PADDING_LEN_TOKEN = 128)) ∧
    (∀ T : TagType, T.holdsU16 = true →
      (decodeFastCgiHeader T [1, 6, 1, 0, 0, 0, 0x80, 0]).at PADDING_LEN_TOKEN < 0 ∨
      65408 ≤ (decodeFastCgiHeader T [1, 6, 1, 0, 0, 0, 0x80, 0]).at PADDING_LEN_TOKEN) ∧
    (decodeFastCgiHeader (.signedInt 32) [1, 6, 1, 0, 0, 0, 0x80, 0]).at PADDING_LEN_TOKEN
      = -128 ∧
    (decodeFastCgiHeader (.unsignedInt 16) [1, 6, 1, 0, 0, 0, 0x80, 0]).at PADDING_LEN_TOKEN
      = 65408 ∧
    (decodeFastCgiHeader (.signedInt 32) [1, 6, 1, 0, 0, 0, 0x80, 0]).at REQ_ID_TOKEN
      = 256 ∧
    (decodeFastCgiHeader (.unsignedInt 16) [1, 6, 1, 0, 0, 0, 0x80, 0]).at REQ_ID_TOKEN
      = 256 := by
  refine ⟨?_, ?_, by decide, by decide, by decide, by decide⟩
  · intro T
    obtain ⟨hrid, hpl⟩ := decodeFastCgiHeader_pad128 T
    rw [hrid, hpl]
    rintro ⟨h1, h2⟩
    cases T with
    | unsignedInt w =>
      simp only [TagType.conv] at h1 h2
      exact unsigned_conv_clash ((2 : Int) ^ w) (by positivity) h1 h2
    | signedInt w =>
      cases w with
      | zero =>
        simp [TagType.conv] at h1
      | succ k =>
        simp only [TagType.conv, Nat.add_sub_cancel, pow_succ] at h1 h2
        exact signed_conv_clash ((2 : Int) ^ k) (by positivity) h1 h2
  · intro T hT
    rw [(decodeFastCgiHeader_pad128 T).2]
    exact T.conv_neg hT (-128) (by norm_num) (by norm_num)

/-! ## Reads, and termination of the response loop -/

/-- Characterisation of `read` by cases. -/
theorem StreamReader.read_cases (s : StreamReader) (len expire : Nat) :
    let o := s.schedule.headD {}
    ((s.read len expire).rc = ReturnCode.OK ∧ len ≤ s.wire.length ∧ o.elapsed < expire ∧
      (s.read len expire).buf = s.wire.take len ∧
      (s.read len expire).reader =
        { s with schedule := s.schedule.tail, clock := s.clock + o.elapsed,
                 wire := s.wire.drop len, timerCancels := s.timerCancels + 1 }) ∨
    ((s.read len expire).rc = ReturnCode.TIMEOUT ∧
      (s.read len expire).buf = [] ∧
      (s.read len expire).reader =
        { s with schedule := s.schedule.tail, clock := s.clock + expire,
                 sockCancels := s.sockCancels + 1 }) ∨
    (((s.read len expire).rc = ReturnCode.CLOSED ∨ (s.read len expire).rc = ReturnCode.IO_ERROR) ∧
      s.schedule ≠ [] ∧
      (s.read len expire).buf = [] ∧
      (s.read len expire).reader =
        { s with schedule := s.schedule.tail, clock := s.clock + o.elapsed }) := by
  intro o
  unfold StreamReader.read
  rcases hs : s.schedule with _ | ⟨⟨ec, el⟩, rest⟩
  · by_cases h1 : 0 < expire <;> by_cases h2 : len ≤ s.wire.length <;>
      simp [o, hs, readHandler, timeoutHandler, Promise.set_value, h1, h2]
  · by_cases h1 : el < expire <;> by_cases h2 : len ≤ s.wire.length <;> cases ec <;>
      simp [o, hs, readHandler, timeoutHandler, Promise.set_value, h1, h2]

theorem ReaderLe.refl (r : StreamReader) : ReaderLe r r :=
  ⟨le_rfl, le_rfl, le_rfl, rfl, rfl, rfl⟩

theorem ReaderLe.trans {a b c : StreamReader} (h1 : ReaderLe a b) (h2 : ReaderLe b c) :
    ReaderLe a c := by
  obtain ⟨a1, a2, a3, a4, a5, a6⟩ := h1
  obtain ⟨b1, b2, b3, b4, b5, b6⟩ := h2
  exact ⟨a1.trans b1, a2.trans b2, b3.trans a3, a4.trans b4, a5.trans b5, a6.trans b6⟩

theorem StreamReader.read_le (s : StreamReader) (len expire : Nat) :
    ReaderLe (s.read len expire).reader s := by
  rcases s.read_cases len expire with ⟨-, -, -, -, h⟩ | ⟨-, -, h⟩ | ⟨-, -, -, h⟩ <;>
    rw [h] <;> simp [ReaderLe]

theorem StreamReader.read_progress (s : StreamReader) (len expire X : Nat)
    (hlen : 0 < len) (hexp : 0 < expire) (hX : (s.read len expire).reader.clock ≤ X) :
    loopMeasure X (s.read len expire).reader < loopMeasure X s := by
  rcases s.read_cases len expire with ⟨-, h1, -, -, h⟩ | ⟨-, -, h⟩ | ⟨-, h1, -, h⟩ <;>
    rw [h] at hX ⊢ <;> simp only [loopMeasure, List.length_tail, List.length_drop] at hX ⊢
  · omega
  · omega
  · have : 0 < s.schedule.length := List.length_pos.mpr h1
    omega

theorem loopMeasure_mono {a b : StreamReader} (h : ReaderLe a b) (X : Nat) :
    loopMeasure X a ≤ loopMeasure X b := by
  obtain ⟨a1, a2, a3, -⟩ := h
  simp only [loopMeasure]
  omega

theorem decodeFastCgiRecord_reader (T : TagType) (r : StreamReader) (ty : Int) (id : Nat)
    (c : Bytes) :
    ReaderLe (decodeFastCgiRecord T r ty id c).reader (r.read FCGI_HEADER_SIZE ns).reader := by
  unfold decodeFastCgiRecord
  simp only []
  split_ifs <;>
    first
    | exact ReaderLe.refl _
    | exact StreamReader.read_le _ _ _
    | exact (StreamReader.read_le _ _ _).trans (StreamReader.read_le _ _ _)

theorem decodeFastCgiRecord_progress (T : TagType) (r : StreamReader) (ty : Int) (id : Nat)
    (c : Bytes) (X : Nat) (hX : (decodeFastCgiRecord T r ty id c).reader.clock ≤ X) :
    loopMeasure X (decodeFastCgiRecord T r ty id c).reader < loopMeasure X r := by
  have hle := decodeFastCgiRecord_reader T r ty id c
  have h1 : (r.read FCGI_HEADER_SIZE ns).reader.clock ≤ X := le_trans hle.2.2.1 hX
  exact lt_of_le_of_lt (loopMeasure_mono hle X)
    (r.read_progress FCGI_HEADER_SIZE ns X (by decide) (by decide) h1)

theorem waitForResponseIter_reader (T : TagType) (requestId expire : Nat) (st : LoopState) :
    (waitForResponseIter T requestId expire st).1.reader =
      (decodeFastCgiRecord T st.reader st.type st.rcvdReqId st.content).reader := by
  unfold waitForResponseIter
  simp only []
  split_ifs <;> rfl

theorem waitForResponseIter_continue (T : TagType) (requestId expire : Nat) (st : LoopState)
    (h : (waitForResponseIter T requestId expire st).2 = false) :
    (waitForResponseIter T requestId expire st).1.reader.clock ≤ expire := by
  unfold waitForResponseIter at h ⊢
  simp only [] at h ⊢
  split_ifs at h ⊢ <;> simp_all

theorem waitForResponseLoop_total (T : TagType) (requestId expire : Nat) :
    ∀ (fuel : Nat) (st : LoopState), loopMeasure expire st.reader < fuel →
      ∃ st', waitForResponseLoop T requestId expire fuel st = some st' := by
  intro fuel
  induction fuel with
  | zero => intro st h; omega
  | succ n ih =>
    intro st h
    rw [waitForResponseLoop]
    rcases hit : waitForResponseIter T requestId expire st with ⟨st1, b⟩
    cases b with
    | true => exact ⟨st1, rfl⟩
    | false =>
      simp only []
      apply ih
      have hc := waitForResponseIter_continue T requestId expire st (by rw [hit])
      have hr := waitForResponseIter_reader T requestId expire st
      rw [hit] at hc hr
      simp only [] at hc hr
      have hp := decodeFastCgiRecord_progress T st.reader st.type st.rcvdReqId st.content
        expire (by rw [← hr]; exact hc)
      rw [hr]
      omega

/-- An invariant of the loop body holds of the state the loop ends in. -/
theorem waitForResponseLoop_invariant (T : TagType) (requestId expire : Nat)
    (P : LoopState → Prop)
    (hstep : ∀ st, P st → P (waitForResponseIter T requestId expire st).1) :
    ∀ (fuel : Nat) (st st' : LoopState), P st →
      waitForResponseLoop T requestId expire fuel st = some st' → P st' := by
  intro fuel
  induction fuel with
  | zero => intro st st' _ h; simp [waitForResponseLoop] at h
  | succ n ih =>
    intro st st' hP h
    rw [waitForResponseLoop] at h
    have hs := hstep st hP
    rcases hit : waitForResponseIter T requestId expire st with ⟨st1, b⟩
    rw [hit] at h hs
    cases b with
    | true =>
      simp only [Option.some.injEq] at h
      exact h ▸ hs
    | false => exact ih st1 st' hs h

theorem waitForResponse_total (T : TagType) (r : StreamReader) (requestId : Nat)
    (response : Bytes) (timeout : Nat) :
    ∃ out, waitForResponse T r requestId response timeout = some out ∧ ReaderLe out.reader r := by
  obtain ⟨st', hst'⟩ := waitForResponseLoop_total T requestId (r.clock + timeout * 1000)
    (loopBound (r.clock + timeout * 1000) r) { response := response, reader := r }
    (by simp [loopBound, loopMeasure])
  refine ⟨_, by simp only [waitForResponse, hst', Option.map_some']; rfl, ?_⟩
  refine waitForResponseLoop_invariant T requestId (r.clock + timeout * 1000)
    (fun st => ReaderLe st.reader r) ?_ _ _ st' (ReaderLe.refl r) hst'
  intro st hst
  rw [waitForResponseIter_reader]
  exact ((decodeFastCgiRecord_reader T _ _ _ _).trans (StreamReader.read_le _ _ _)).trans hst

/-! ## The request that `sendRequest` writes -/

theorem foldl_append_eq (f : Bytes × Bytes → Bytes) (pairs : KeyValuePairs) :
    ∀ init : Bytes,
      pairs.foldl (fun acc pair => acc ++ f pair) init = init ++ (pairs.map f).flatten := by
  induction pairs with
  | nil => intro init; simp
  | cons p ps ih => intro init; simp [ih, List.append_assoc]

theorem paramsRecord_eq (pairs : KeyValuePairs) : paramsRecord pairs = specParamsPayload pairs := by
  unfold paramsRecord specParamsPayload
  rw [foldl_append_eq (fun p => encodeNameValueParams p.1 p.2)]
  simp

theorem buildRequest_eq (requestId : Nat) (pairs : KeyValuePairs) (body : Bytes) :
    buildRequest requestId pairs body = specRequest requestId (specParamsPayload pairs) body := by
  unfold buildRequest specRequest
  rw [paramsRecord_eq]
  cases pairs with
  | nil => cases body <;> simp [specParamsPayload, EMPTY_MARK]
  | cons p ps =>
    cases body <;> by_cases h : specParamsPayload (p :: ps) = [] <;>
      simp [h, EMPTY_MARK, List.isEmpty_iff]

theorem requestId_mask (rand : Nat) :
    (rand &&& 0x7fff) % 2 ^ 16 = rand &&& 0x7fff ∧ (rand &&& 0x7fff) = rand % 32768 := by
  have h := Nat.and_pow_two_sub_one_eq_mod rand 15
  have h' : rand &&& 0x7fff = rand % 32768 := by simpa using h
  rw [h']
  omega

theorem StreamReader.write_sent (r : StreamReader) (data : Bytes) (hopen : r.sockOpen = true) :
    (r.write data).2.sent = r.sent ++ [data] := by
  unfold StreamReader.write
  rw [hopen]
  simp only [Bool.not_true, Bool.false_eq_true, if_false]
  split_ifs <;> rfl

/-- What an open reader has been handed once `sendRequest` returns. -/
theorem sendRequest_sent (T : TagType) (r : StreamReader) (rand : Nat) (pairs : KeyValuePairs)
    (body response : Bytes) (timeout : Nat) (hopen : r.sockOpen = true) :
    ∃ out, sendRequest T r rand pairs body response timeout = some out ∧
      out.reader.sent = r.sent ++ [buildRequest (rand &&& 0x7fff) pairs body] := by
  unfold sendRequest
  simp only [StreamReader.isOpen, hopen, Bool.not_true, Bool.false_eq_true, if_false,
    (requestId_mask rand).1]
  by_cases hw : (r.write (buildRequest (rand &&& 0x7fff) pairs body)).1 ≠ ReturnCode.OK
  · rw [if_pos hw]
    exact ⟨_, rfl, r.write_sent _ hopen⟩
  · rw [if_neg hw]
    obtain ⟨out, hout, hle⟩ := waitForResponse_total T
      (r.write (buildRequest (rand &&& 0x7fff) pairs body)).2 (rand &&& 0x7fff) response timeout
    refine ⟨out, hout, ?_⟩
    rw [hle.2.2.2.1]
    exact r.write_sent _ hopen

/-- C6: with the reader open, `sendRequest` returns, and the one buffer it
hands to the transport's write is: the BEGIN_REQUEST record, a PARAMS record
with the concatenated parameter payload exactly when that payload is
non-empty, the empty PARAMS record, a STDIN record with the body exactly when
the body is non-empty, the empty STDIN record, all encoded with the request id
rand & 0x7fff. -/
theorem sendRequest_writes_request (T : TagType) (r : StreamReader) (rand : Nat)
    (pairs : KeyValuePairs) (body response : Bytes) (timeout : Nat)
    (hopen : r.sockOpen = true) :
    ∃ out, sendRequest T r rand pairs body response timeout = some out ∧
      out.reader.sent = r.sent ++
        [ encodeFastCgiRecord FCGI_TYPE_BEGIN FCGI_HDR_STR (rand &&& 0x7fff) ++
          (if (pairs.map fun p => encodeNameValueParams p.1 p.2).flatten = [] then []
           else encodeFastCgiRecord FCGI_TYPE_PARAMS
             (pairs.map fun p => encodeNameValueParams p.1 p.2).flatten (rand &&& 0x7fff)) ++
          encodeFastCgiRecord FCGI_TYPE_PARAMS [] (rand &&& 0x7fff) ++
          (if body = [] then []
           else encodeFastCgiRecord FCGI_TYPE_STDIN body (rand &&& 0x7fff)) ++
          encodeFastCgiRecord FCGI_TYPE_STDIN [] (rand &&& 0x7fff) ] := by
  obtain ⟨out, hout, hsent⟩ := sendRequest_sent T r rand pairs body response timeout hopen
  refine ⟨out, hout, ?_⟩
  rw [hsent, buildRequest_eq]
  rfl

/-- Witness for C6: one parameter and a one byte body on a fresh open reader. -/
theorem sendRequest_writes_request_witness :
    ∃ out, sendRequest (.signedInt 32) {} 5 [([65], [66])] [1] [] 0 = some out ∧
      out.reader.sent = ({} : StreamReader).sent ++
        [ encodeFastCgiRecord FCGI_TYPE_BEGIN FCGI_HDR_STR (5 &&& 0x7fff) ++
          (if (([([65], [66])] : KeyValuePairs).map
                fun p => encodeNameValueParams p.1 p.2).flatten = [] then []
           else encodeFastCgiRecord FCGI_TYPE_PARAMS
             (([([65], [66])] : KeyValuePairs).map
                fun p => encodeNameValueParams p.1 p.2).flatten (5 &&& 0x7fff)) ++
          encodeFastCgiRecord FCGI_TYPE_PARAMS [] (5 &&& 0x7fff) ++
          (if ([1] : Bytes) = [] then []
           else encodeFastCgiRecord FCGI_TYPE_STDIN [1] (5 &&& 0x7fff)) ++
          encodeFastCgiRecord FCGI_TYPE_STDIN [] (5 &&& 0x7fff) ] :=
  sendRequest_writes_request (.signedInt 32) {} 5 [([65], [66])] [1] [] 0 rfl

/-! ## Reading the written request back as records -/

theorem specParseRecords_cons (fuel v t a b c d p q : Nat) (content rest : Bytes)
    (hlen : content.length = c * 256 + d) :
    specParseRecords (fuel + 1) ([v, t, a, b, c, d, p, q] ++ content ++ rest) =
      (t, a * 256 + b, content) :: specParseRecords fuel rest := by
  rw [specParseRecords]
  have h8 : ¬ ([v, t, a, b, c, d, p, q] ++ content ++ rest).length < 8 := by
    simp only [List.length_append, List.length_cons, List.length_nil]; omega
  rw [if_neg h8]
  have hd : ([v, t, a, b, c, d, p, q] ++ content ++ rest).drop 8 = content ++ rest := by
    rw [List.append_assoc]; exact List.drop_left' rfl
  have hd2 : ([v, t, a, b, c, d, p, q] ++ content ++ rest).drop (8 + (c * 256 + d)) = rest := by
    apply List.drop_left'
    simp only [List.length_append, List.length_cons, List.length_nil, hlen]
  have hg : ∀ i x, i < 8 → ([v, t, a, b, c, d, p, q] : Bytes).getD i 0 = x →
      ([v, t, a, b, c, d, p, q] ++ content ++ rest).getD i 0 = x := by
    intro i x hi hx
    rw [List.append_assoc, List.getD_append _ _ _ _ (by simpa using hi)]
    exact hx
  rw [hg 1 t (by omega) rfl, hg 2 a (by omega) rfl, hg 3 b (by omega) rfl,
    hg 4 c (by omega) rfl, hg 5 d (by omega) rfl]
  simp only [hd, hd2]
  rw [List.take_left' hlen]

theorem specParseRecords_encode (fuel : Nat) (t : FcgiRecordType) (content : Bytes)
    (requestId : Nat) (rest : Bytes) (hid : requestId ≤ 65535) (hlen : content.length ≤ 65535) :
    specParseRecords (fuel + 1) (encodeFastCgiRecord t content requestId ++ rest) =
      (t.toNat, requestId, content) :: specParseRecords fuel rest := by
  have ht2 := FcgiRecordType.toNat_le t
  rw [encodeFastCgiRecord_eq,
    specParseRecords_cons fuel 1 _ _ _ _ _ 0 0 content rest (by omega)]
  congr 2
  · omega
  · congr 1
    omega

theorem specRecords_specRequest (requestId : Nat) (payload body : Bytes)
    (hid : requestId ≤ 65535) (hp : payload.length ≤ 65535) (hb : body.length ≤ 65535) :
    specRecords (specRequest requestId payload body) =
      [(1, requestId, FCGI_HDR_STR)] ++
      (if payload = [] then [] else [(4, requestId, payload)]) ++
      [(4, requestId, [])] ++
      (if body = [] then [] else [(5, requestId, body)]) ++
      [(5, requestId, [])] := by
  have key : ∀ fuel, 5 ≤ fuel →
      specParseRecords fuel (specRequest requestId payload body) =
        [(1, requestId, FCGI_HDR_STR)] ++
        (if payload = [] then [] else [(4, requestId, payload)]) ++
        [(4, requestId, [])] ++
        (if body = [] then [] else [(5, requestId, body)]) ++
        [(5, requestId, [])] := by
    intro fuel hf
    obtain ⟨f, rfl⟩ : ∃ f, fuel = f + 5 := ⟨fuel - 5, by omega⟩
    have hnil : ∀ n, specParseRecords n [] = [] := by
      intro n; cases n <;> simp [specParseRecords]
    have hE : ∀ (n : Nat) (t : FcgiRecordType) (c : Bytes), c.length ≤ 65535 →
        specParseRecords (n + 1) (encodeFastCgiRecord t c requestId) =
          [(t.toNat, requestId, c)] := by
      intro n t c hc
      have := specParseRecords_encode n t c requestId [] hid hc
      rw [List.append_nil, hnil] at this
      exact this
    unfold specRequest
    by_cases h1 : payload = [] <;> by_cases h2 : body = []
    · subst h1; subst h2
      simp only [if_true, List.append_nil, List.append_assoc]
      rw [specParseRecords_encode _ _ _ _ _ hid (by decide),
        specParseRecords_encode _ _ _ _ _ hid (by decide), hE _ _ _ (by decide)]
      rfl
    · subst h1
      simp only [if_true, h2, if_false, List.append_nil, List.append_assoc]
      rw [specParseRecords_encode _ _ _ _ _ hid (by decide),
        specParseRecords_encode _ _ _ _ _ hid (by decide),
        specParseRecords_encode _ _ _ _ _ hid hb, hE _ _ _ (by decide)]
      rfl
    · subst h2
      simp only [if_true, h1, if_false, List.append_nil, List.append_assoc]
      rw [specParseRecords_encode _ _ _ _ _ hid (by decide),
        specParseRecords_encode _ _ _ _ _ hid hp,
        specParseRecords_encode _ _ _ _ _ hid (by decide), hE _ _ _ (by decide)]
      rfl
    · simp only [h1, h2, if_false, List.append_assoc]
      rw [specParseRecords_encode _ _ _ _ _ hid (by decide),
        specParseRecords_encode _ _ _ _ _ hid hp,
        specParseRecords_encode _ _ _ _ _ hid (by decide),
        specParseRecords_encode _ _ _ _ _ hid hb, hE _ _ _ (by decide)]
      rfl
  apply key
  unfold specRequest
  simp only [encodeFastCgiRecord_eq, List.length_append, List.length_cons, List.length_nil]
  omega

theorem specParseRecords_hdr (fuel v t a b p q : Nat) (rest : Bytes) :
    specParseRecords (fuel + 1) ([v, t, a, b, 0, 0, p, q] ++ rest) =
      (t, a * 256 + b, []) :: specParseRecords fuel rest := by
  have := specParseRecords_cons fuel v t a b 0 0 p q [] rest rfl
  simpa using this

theorem zeroBytes_length : zeroBytes.length = 65528 :=
  List.length_replicate _ _

theorem longBody_length : longBody.length = 65536 := by
  unfold longBody
  rw [List.length_append, zeroBytes_length]
  rfl

theorem specRequest_longBody :
    specRequest 0 [] longBody =
      encodeFastCgiRecord FCGI_TYPE_BEGIN FCGI_HDR_STR 0 ++
      (encodeFastCgiRecord FCGI_TYPE_PARAMS [] 0 ++
      ([1, 5, 0, 0, 0, 0, 0, 0] ++
      ([1, 5, 0, 0, 0, 0, 0, 0] ++
      (zeroBytes ++ encodeFastCgiRecord FCGI_TYPE_STDIN [] 0)))) := by
  have hne : longBody ≠ [] := by
    intro h
    have := longBody_length
    rw [h] at this
    exact absurd this (by decide)
  unfold specRequest
  rw [if_pos rfl, if_neg hne, encodeFastCgiRecord_eq FCGI_TYPE_STDIN longBody, longBody_length]
  simp only [longBody, FcgiRecordType.toNat, List.nil_append, List.append_assoc]

theorem specParseRecords_longBody (fuel : Nat) :
    2 ≤ (emptyRecordsOfType 5
      (specParseRecords (fuel + 4) (specRequest 0 [] longBody))).length := by
  rw [specRequest_longBody,
    specParseRecords_encode _ _ _ _ _ (by decide) (by decide),
    specParseRecords_encode _ _ _ _ _ (by decide) (by decide),
    specParseRecords_hdr, specParseRecords_hdr]
  simp [emptyRecordsOfType, List.filter_cons, FcgiRecordType.toNat]


theorem encodeFastCgiRecord_length (t : FcgiRecordType) (c : Bytes) (id : Nat) :
    (encodeFastCgiRecord t c id).length = 8 + c.length := by
  rw [encodeFastCgiRecord_eq]
  simp only [List.length_append, List.length_cons, List.length_nil]

theorem specRequest_length_ge (id : Nat) (payload body : Bytes) :
    5 ≤ (specRequest id payload body).length := by
  unfold specRequest
  simp only [List.length_append, encodeFastCgiRecord_length]
  omega

theorem specRecords_longBody : 2 ≤ (emptyRecordsOfType 5 (specRecords (specRequest 0 [] longBody))).length := by
  unfold specRecords
  have hl := specRequest_length_ge 0 [] longBody
  obtain ⟨f, hf⟩ : ∃ f, (specRequest 0 [] longBody).length = f + 4 :=
    ⟨(specRequest 0 [] longBody).length - 4, by omega⟩
  rw [hf]
  exact specParseRecords_longBody f

/-- C7, counterexample: with a body of 65536 bytes the 16 bit contentLength of
the STDIN record wraps to 0, and the written request, read as records, holds
at least two empty-content STDIN records instead of exactly one. -/
theorem sendRequest_long_body_two_empty_stdin :
    ∃ out req, sendRequest (.signedInt 32) {} 0 [] longBody [] 0 = some out ∧
      out.reader.sent = [req] ∧
      2 ≤ (emptyRecordsOfType 5 (specRecords req)).length := by
  obtain ⟨out, hout, hsent⟩ := sendRequest_sent (.signedInt 32) {} 0 [] longBody [] 0 rfl
  refine ⟨out, _, hout, hsent, ?_⟩
  rw [buildRequest_eq]
  have h0 : (0 &&& 0x7fff) = 0 := by decide
  have hP : specParamsPayload [] = [] := rfl
  rw [h0, hP]
  exact specRecords_longBody

/-- C7, amended: when the parameter payload and the body have at most 65535
bytes each, the written request, read as records, is BEGIN_REQUEST, the
non-empty PARAMS record if any, the empty PARAMS record, the non-empty STDIN
record if any, the empty STDIN record, all with the request id; so there is
exactly one empty PARAMS and exactly one empty STDIN record, each the last
record of its type. -/
theorem sendRequest_end_markers (T : TagType) (r : StreamReader) (rand : Nat)
    (pairs : KeyValuePairs) (body response : Bytes) (timeout : Nat)
    (hopen : r.sockOpen = true)
    (hp : (specParamsPayload pairs).length ≤ 65535) (hb : body.length ≤ 65535) :
    ∃ out req, sendRequest T r rand pairs body response timeout = some out ∧
      out.reader.sent = r.sent ++ [req] ∧
      specRecords req =
        [(1, rand &&& 0x7fff, FCGI_HDR_STR)] ++
        (if specParamsPayload pairs = [] then []
         else [(4, rand &&& 0x7fff, specParamsPayload pairs)]) ++
        [(4, rand &&& 0x7fff, [])] ++
        (if body = [] then [] else [(5, rand &&& 0x7fff, body)]) ++
        [(5, rand &&& 0x7fff, [])] ∧
      emptyRecordsOfType 4 (specRecords req) = [(4, rand &&& 0x7fff, [])] ∧
      emptyRecordsOfType 5 (specRecords req) = [(5, rand &&& 0x7fff, [])] ∧
      recordsOfType 4 (specRecords req) =
        (if specParamsPayload pairs = [] then []
         else [(4, rand &&& 0x7fff, specParamsPayload pairs)]) ++
        [(4, rand &&& 0x7fff, [])] ∧
      recordsOfType 5 (specRecords req) =
        (if body = [] then [] else [(5, rand &&& 0x7fff, body)]) ++
        [(5, rand &&& 0x7fff, [])] := by
  obtain ⟨out, hout, hsent⟩ := sendRequest_sent T r rand pairs body response timeout hopen
  have hid : rand &&& 0x7fff ≤ 65535 := by
    rw [(requestId_mask rand).2]; omega
  have hrec := specRecords_specRequest (rand &&& 0x7fff) (specParamsPayload pairs) body hid hp hb
  refine ⟨out, _, hout, hsent, ?_, ?_, ?_, ?_, ?_⟩ <;> rw [buildRequest_eq, hrec]
  · by_cases h1 : specParamsPayload pairs = [] <;> by_cases h2 : body = [] <;>
      simp [emptyRecordsOfType, List.filter_cons, h1, h2, FCGI_HDR_STR, List.isEmpty_iff]
  · by_cases h1 : specParamsPayload pairs = [] <;> by_cases h2 : body = [] <;>
      simp [emptyRecordsOfType, List.filter_cons, h1, h2, FCGI_HDR_STR, List.isEmpty_iff]
  · by_cases h1 : specParamsPayload pairs = [] <;> by_cases h2 : body = [] <;>
      simp [recordsOfType, List.filter_cons, h1, h2]
  · by_cases h1 : specParamsPayload pairs = [] <;> by_cases h2 : body = [] <;>
      simp [recordsOfType, List.filter_cons, h1, h2]

/-- Witness for C7, amended: two parameters, one of them skipped, and a two byte body. -/
theorem sendRequest_end_markers_witness :
    ∃ out req, sendRequest (.signedInt 32) {} 7 [([65], [66]), ([], [67])] [1, 2] [] 0 =
        some out ∧
      out.reader.sent = ({} : StreamReader).sent ++ [req] ∧
      specRecords req =
        [(1, 7 &&& 0x7fff, FCGI_HDR_STR)] ++
        (if specParamsPayload [([65], [66]), ([], [67])] = [] then []
         else [(4, 7 &&& 0x7fff, specParamsPayload [([65], [66]), ([], [67])])]) ++
        [(4, 7 &&& 0x7fff, [])] ++
        (if ([1, 2] : Bytes) = [] then [] else [(5, 7 &&& 0x7fff, [1, 2])]) ++
        [(5, 7 &&& 0x7fff, [])] ∧
      emptyRecordsOfType 4 (specRecords req) = [(4, 7 &&& 0x7fff, [])] ∧
      emptyRecordsOfType 5 (specRecords req) = [(5, 7 &&& 0x7fff, [])] ∧
      recordsOfType 4 (specRecords req) =
        (if specParamsPayload [([65], [66]), ([], [67])] = [] then []
         else [(4, 7 &&& 0x7fff, specParamsPayload [([65], [66]), ([], [67])])]) ++
        [(4, 7 &&& 0x7fff, [])] ∧
      recordsOfType 5 (specRecords req) =
        (if ([1, 2] : Bytes) = [] then [] else [(5, 7 &&& 0x7fff, [1, 2])]) ++
        [(5, 7 &&& 0x7fff, [])] :=
  sendRequest_end_markers (.signedInt 32) {} 7 [([65], [66]), ([], [67])] [1, 2] [] 0 rfl
    (by decide) (by decide)

/-- C8: with the reader open, the written request starts with the header of a
BEGIN_REQUEST record (type 1, contentLength 8, the request id) followed by the
body 00 01 01 00 00 00 00 00, whatever the parameters and the body. -/
theorem sendRequest_begin_record (T : TagType) (r : StreamReader) (rand : Nat)
    (pairs : KeyValuePairs) (body response : Bytes) (timeout : Nat)
    (hopen : r.sockOpen = true) :
    ∃ out req, sendRequest T r rand pairs body response timeout = some out ∧
      out.reader.sent = r.sent ++ [req] ∧
      req.take 8 = [1, 1, (rand &&& 0x7fff) >>> 8, (rand &&& 0x7fff) &&& 0xFF, 0, 8, 0, 0] ∧
      (req.drop 8).take 8 = [0x00, 0x01, 0x01, 0x00, 0x00, 0x00, 0x00, 0x00] ∧
      (specRecords req).head? = some (1, rand &&& 0x7fff, [0, 1, 1, 0, 0, 0, 0, 0]) := by
  obtain ⟨out, hout, hsent⟩ := sendRequest_sent T r rand pairs body response timeout hopen
  have hid : rand &&& 0x7fff ≤ 65535 := by
    rw [(requestId_mask rand).2]; omega
  have hreq : ∃ rest, buildRequest (rand &&& 0x7fff) pairs body =
      encodeFastCgiRecord FCGI_TYPE_BEGIN FCGI_HDR_STR (rand &&& 0x7fff) ++ rest := by
    rw [buildRequest_eq]
    unfold specRequest
    exact ⟨_, by simp only [List.append_assoc]; rfl⟩
  obtain ⟨rest, hrest⟩ := hreq
  have hlay := encodeFastCgiRecord_of_le FCGI_TYPE_BEGIN FCGI_HDR_STR (rand &&& 0x7fff) hid
    (by decide)
  refine ⟨out, _, hout, hsent, ?_, ?_, ?_⟩
  · rw [hrest, hlay, List.append_assoc]
    exact List.take_left' rfl
  · rw [hrest, hlay, List.append_assoc]
    have hd : ∀ (a b c d e f g h : Nat) (t : Bytes),
        List.drop 8 ([a, b, c, d, e, f, g, h] ++ t) = t := fun _ _ _ _ _ _ _ _ _ => rfl
    rw [hd]
    exact List.take_left' rfl
  · have hl := specRequest_length_ge (rand &&& 0x7fff) (specParamsPayload pairs) body
    rw [← buildRequest_eq] at hl
    obtain ⟨f, hf⟩ : ∃ f, (buildRequest (rand &&& 0x7fff) pairs body).length = f + 1 :=
      ⟨(buildRequest (rand &&& 0x7fff) pairs body).length - 1, by omega⟩
    unfold specRecords
    rw [hf, hrest, specParseRecords_encode _ _ _ _ _ hid (by decide)]
    rfl

/-- Witness for C8: one parameter and an empty body on a fresh open reader. -/
theorem sendRequest_begin_record_witness :
    ∃ out req, sendRequest (.signedInt 32) {} 9 [([65], [66])] [] [] 0 = some out ∧
      out.reader.sent = ({} : StreamReader).sent ++ [req] ∧
      req.take 8 = [1, 1, (9 &&& 0x7fff) >>> 8, (9 &&& 0x7fff) &&& 0xFF, 0, 8, 0, 0] ∧
      (req.drop 8).take 8 = [0x00, 0x01, 0x01, 0x00, 0x00, 0x00, 0x00, 0x00] ∧
      (specRecords req).head? = some (1, 9 &&& 0x7fff, [0, 1, 1, 0, 0, 0, 0, 0]) :=
  sendRequest_begin_record (.signedInt 32) {} 9 [([65], [66])] [] [] 0 rfl

/-! ## The parameter payload -/

theorem specParamsPayload_filter (pairs : KeyValuePairs) :
    specParamsPayload pairs =
      ((pairs.filter fun p => !p.1.isEmpty && !p.2.isEmpty).map
        fun p => encodeNameValueParams p.1 p.2).flatten := by
  unfold specParamsPayload
  induction pairs with
  | nil => rfl
  | cons p ps ih =>
    rw [List.map_cons, List.flatten_cons, ih, List.filter_cons]
    by_cases h : (!p.1.isEmpty && !p.2.isEmpty) = true
    · rw [if_pos h, List.map_cons, List.flatten_cons]
    · rw [if_neg h]
      have he : encodeNameValueParams p.1 p.2 = [] := by
        unfold encodeNameValueParams
        rw [if_neg h]
      rw [he, List.nil_append]

theorem specParamsPayload_skipped (pairs : KeyValuePairs)
    (h : ∀ p ∈ pairs, p.1 = [] ∨ p.2 = []) : specParamsPayload pairs = [] := by
  unfold specParamsPayload
  induction pairs with
  | nil => rfl
  | cons p ps ih =>
    rw [List.map_cons, List.flatten_cons,
      encodeNameValueParams_nil_of_or p.1 p.2 (h p (List.mem_cons_self _ _)),
      ih (fun q hq => h q (List.mem_cons_of_mem _ hq)), List.append_nil]

/-- C9: with the reader open, the PARAMS payload `sendRequest` builds is the
concatenation, in list order, of the encodings of exactly the pairs whose name
and value are both non-empty; the written request is formed with that payload;
and when every pair has an empty name or an empty value, the request carries no
non-empty PARAMS record. -/
theorem sendRequest_params_payload (T : TagType) (r : StreamReader) (rand : Nat)
    (pairs : KeyValuePairs) (body response : Bytes) (timeout : Nat)
    (hopen : r.sockOpen = true) :
    paramsRecord pairs =
      ((pairs.filter fun p => !p.1.isEmpty && !p.2.isEmpty).map
        fun p => encodeNameValueParams p.1 p.2).flatten ∧
    ∃ out, sendRequest T r rand pairs body response timeout = some out ∧
      out.reader.sent = r.sent ++
        [specRequest (rand &&& 0x7fff)
          ((pairs.filter fun p => !p.1.isEmpty && !p.2.isEmpty).map
            fun p => encodeNameValueParams p.1 p.2).flatten body] ∧
      ((∀ p ∈ pairs, p.1 = [] ∨ p.2 = []) →
        paramsRecord pairs = [] ∧
        out.reader.sent = r.sent ++
          [ encodeFastCgiRecord FCGI_TYPE_BEGIN FCGI_HDR_STR (rand &&& 0x7fff) ++
            encodeFastCgiRecord FCGI_TYPE_PARAMS [] (rand &&& 0x7fff) ++
            (if body = [] then []
             else encodeFastCgiRecord FCGI_TYPE_STDIN body (rand &&& 0x7fff)) ++
            encodeFastCgiRecord FCGI_TYPE_STDIN [] (rand &&& 0x7fff) ]) := by
  obtain ⟨out, hout, hsent⟩ := sendRequest_sent T r rand pairs body response timeout hopen
  refine ⟨by rw [paramsRecord_eq, specParamsPayload_filter], out, hout, ?_, ?_⟩
  · rw [hsent, buildRequest_eq, specParamsPayload_filter]
  · intro hskip
    have h0 := specParamsPayload_skipped pairs hskip
    refine ⟨by rw [paramsRecord_eq, h0], ?_⟩
    rw [hsent, buildRequest_eq, h0]
    unfold specRequest
    rw [if_pos rfl, List.append_nil]

/-- Witness for C9: a kept pair between two skipped ones, and a list in which
every pair is skipped. -/
theorem sendRequest_params_payload_witness :
    (paramsRecord [([], [1]), ([65], [66]), ([67], [])] = [1, 1, 65, 66] ∧
      ∃ out, sendRequest (.signedInt 32) {} 3 [([], [1]), ([65], [66]), ([67], [])] [] [] 0 =
          some out ∧
        out.reader.sent = [specRequest 3 [1, 1, 65, 66] []]) ∧
    (paramsRecord [([], [1]), ([67], [])] = [] ∧
      ∃ out, sendRequest (.signedInt 32) {} 3 [([], [1]), ([67], [])] [9] [] 0 = some out ∧
        out.reader.sent =
          [ encodeFastCgiRecord FCGI_TYPE_BEGIN FCGI_HDR_STR 3 ++
            encodeFastCgiRecord FCGI_TYPE_PARAMS [] 3 ++
            encodeFastCgiRecord FCGI_TYPE_STDIN [9] 3 ++
            encodeFastCgiRecord FCGI_TYPE_STDIN [] 3 ]) := by
  constructor
  · obtain ⟨h1, out, h2, h3, -⟩ := sendRequest_params_payload (.signedInt 32) {} 3
      [([], [1]), ([65], [66]), ([67], [])] [] [] 0 rfl
    exact ⟨h1, out, h2, h3⟩
  · obtain ⟨-, out, h2, -, h4⟩ := sendRequest_params_payload (.signedInt 32) {} 3
      [([], [1]), ([67], [])] [9] [] 0 rfl
    obtain ⟨h5, h6⟩ := h4 (by decide)
    exact ⟨h5, out, h2, h6⟩

/-! ## Decoding a record that the peer sent unpadded -/

theorem StreamReader.read_of_empty (s : StreamReader) (len expire : Nat)
    (hs : s.schedule = []) (hlen : len ≤ s.wire.length) (he : 0 < expire) :
    s.read len expire =
      { rc := ReturnCode.OK, buf := s.wire.take len,
        reader := { s with wire := s.wire.drop len, timerCancels := s.timerCancels + 1 } } := by
  cases s with
  | mk sockOpen wire schedule clock sent writeEcs sockCancels timerCancels sockCloses =>
    simp only at hs hlen
    subst hs
    simp [StreamReader.read, readHandler, Promise.set_value, he, hlen]

/-- Decoding, on a reader with an empty schedule, a record that was encoded
without padding. -/
theorem decodeFastCgiRecord_encode (T : TagType) (hT : T.holdsU16 = true)
    (t : FcgiRecordType) (c : Bytes) (id : Nat) (rest : Bytes) (r : StreamReader)
    (hid : id ≤ 65535) (hlen : c.length ≤ 65535)
    (hs : r.schedule = []) (hw : r.wire = encodeFastCgiRecord t c id ++ rest)
    (ty0 : Int) (id0 : Nat) (c0 : Bytes) :
    decodeFastCgiRecord T r ty0 id0 c0 =
      { ok := true, type := t.toNat, requestId := id,
        content := if c = [] then c0 else c,
        reader := { r with wire := rest,
                           timerCancels := r.timerCancels + (if c = [] then 1 else 2) } } := by
  have hw' : r.wire = [1, t.toNat % 256, id / 256 % 256, id % 256,
       c.length / 256 % 256, c.length % 256, 0, 0] ++ (c ++ rest) := by
    rw [hw, encodeFastCgiRecord_eq, List.append_assoc]
  have h8 : FCGI_HEADER_SIZE ≤ r.wire.length := by
    rw [hw']; simp [FCGI_HEADER_SIZE]
  have htake : r.wire.take FCGI_HEADER_SIZE = [1, t.toNat % 256, id / 256 % 256, id % 256,
       c.length / 256 % 256, c.length % 256, 0, 0] := by
    rw [hw']; exact List.take_left' rfl
  have hdrop : r.wire.drop FCGI_HEADER_SIZE = c ++ rest := by
    rw [hw']; exact List.drop_left' rfl
  obtain ⟨-, hty, hrid, hcl, hpl⟩ := decodeFastCgiHeader_header_bytes T hT t c.length id hid hlen
  unfold decodeFastCgiRecord
  simp only [r.read_of_empty _ _ hs h8 (by decide : 0 < ns), htake, hdrop, hty, hrid, hcl, hpl,
    ne_eq, not_true_eq_false, if_false, lt_self_iff_false, gt_iff_lt]
  by_cases hc : c = []
  · subst hc
    simp
    omega
  · have hpos : (0 : Int) < (c.length : Int) := by
      have := List.length_pos.mpr hc
      omega
    have hr2 : ({ r with wire := c ++ rest, timerCancels := r.timerCancels + 1 } :
        StreamReader).read c.length ns =
        { rc := ReturnCode.OK, buf := c,
          reader := { r with wire := rest, timerCancels := r.timerCancels + 1 + 1 } } := by
      have h := StreamReader.read_of_empty
        ({ r with wire := c ++ rest, timerCancels := r.timerCancels + 1 } : StreamReader)
        c.length ns hs (by simp) (by decide : 0 < ns)
      simpa using h
    simp [hpos, hc, hr2]
    omega

/-! ## The success flag of the response loop -/

theorem waitForResponseIter_ret_iff (T : TagType) (requestId expire : Nat) (st : LoopState)
    (h : st.ret = true ↔
      ∃ rec ∈ st.seen, rec.1 = (FCGI_TYPE_STDOUT.toNat : Int) ∧ rec.2.1 = requestId) :
    (waitForResponseIter T requestId expire st).1.ret = true ↔
      ∃ rec ∈ (waitForResponseIter T requestId expire st).1.seen,
        rec.1 = (FCGI_TYPE_STDOUT.toNat : Int) ∧ rec.2.1 = requestId := by
  unfold waitForResponseIter
  simp only []
  split_ifs <;> simp_all [FcgiRecordType.toNat]
  all_goals
    constructor
    · rintro ⟨x, hx⟩
      exact ⟨x, Or.inl hx⟩
    · rintro ⟨x, hx | ⟨h1, h2, -⟩⟩
      · exact ⟨x, hx⟩
      · exfalso
        simp_all

theorem waitForResponseIter_end (T : TagType) (hT : T.holdsU16 = true) (requestId expire : Nat)
    (st : LoopState) (c rest : Bytes) (hid : requestId ≤ 65535) (hlen : c.length ≤ 65535)
    (hs : st.reader.schedule = [])
    (hw : st.reader.wire = encodeFastCgiRecord FCGI_TYPE_END c requestId ++ rest) :
    (waitForResponseIter T requestId expire st).2 = true ∧
    (waitForResponseIter T requestId expire st).1.ret = st.ret ∧
    (waitForResponseIter T requestId expire st).1.response = st.response := by
  unfold waitForResponseIter
  rw [decodeFastCgiRecord_encode T hT FCGI_TYPE_END c requestId rest st.reader hid hlen hs hw]
  simp [FcgiRecordType.toNat]

theorem waitForResponseIter_stdout (T : TagType) (hT : T.holdsU16 = true)
    (requestId expire : Nat)
    (st : LoopState) (c rest : Bytes) (hid : requestId ≤ 65535) (hlen : c.length ≤ 65535)
    (hc : c ≠ []) (hs : st.reader.schedule = [])
    (hw : st.reader.wire = encodeFastCgiRecord FCGI_TYPE_STDOUT c requestId ++ rest) :
    (waitForResponseIter T requestId expire st).2 = decide (st.reader.clock > expire) ∧
    (waitForResponseIter T requestId expire st).1.ret = true ∧
    (waitForResponseIter T requestId expire st).1.response = c ∧
    (waitForResponseIter T requestId expire st).1.reader.schedule = [] ∧
    (waitForResponseIter T requestId expire st).1.reader.wire = rest := by
  unfold waitForResponseIter
  rw [decodeFastCgiRecord_encode T hT FCGI_TYPE_STDOUT c requestId rest st.reader hid hlen hs hw]
  simp [FcgiRecordType.toNat, hc, hs]

/-- C10: `waitForResponse` returns, and it returns true exactly when a fully
decoded record with type STDOUT and the outstanding request id was observed.
On a reader without scheduled faults (tag type wide enough for 16 bit values)
a stream of one matching END_REQUEST record gives (false, ""), and a stream of
a matching STDOUT record with content "hello" followed by a matching
END_REQUEST record gives (true, "hello"). -/
theorem waitForResponse_true_iff_stdout (T : TagType) (m_reader : StreamReader)
    (requestId : Nat) (response : Bytes) (timeout : Nat) :
    ∃ out, waitForResponse T m_reader requestId response timeout = some out ∧
      (out.ret = true ↔
        ∃ rec ∈ out.seen, rec.1 = (FCGI_TYPE_STDOUT.toNat : Int) ∧ rec.2.1 = requestId) ∧
      (T.holdsU16 = true → requestId ≤ 65535 → m_reader.schedule = [] → response = [] →
        ∀ e : Bytes, e.length ≤ 65535 →
          (m_reader.wire = encodeFastCgiRecord FCGI_TYPE_END e requestId →
            out.ret = false ∧ out.response = []) ∧
          (m_reader.wire = encodeFastCgiRecord FCGI_TYPE_STDOUT hello requestId ++
              encodeFastCgiRecord FCGI_TYPE_END e requestId →
            out.ret = true ∧ out.response = hello)) := by
  obtain ⟨st', hst'⟩ := waitForResponseLoop_total T requestId (m_reader.clock + timeout * 1000)
    (loopBound (m_reader.clock + timeout * 1000) m_reader)
    { response := response, reader := m_reader } (by simp [loopBound, loopMeasure])
  refine ⟨_, by simp only [waitForResponse, hst', Option.map_some']; rfl, ?_, ?_⟩
  · exact waitForResponseLoop_invariant T requestId (m_reader.clock + timeout * 1000)
      (fun st => st.ret = true ↔
        ∃ rec ∈ st.seen, rec.1 = (FCGI_TYPE_STDOUT.toNat : Int) ∧ rec.2.1 = requestId)
      (fun st h => waitForResponseIter_ret_iff T requestId _ st h) _ _ st' (by simp) hst'
  · intro hT hid hs hresp e he
    subst hresp
    simp only []
    constructor
    · intro hw
      have hE := waitForResponseIter_end T hT requestId (m_reader.clock + timeout * 1000)
        { response := [], reader := m_reader } e [] hid he hs (by simpa using hw)
      rw [loopBound, waitForResponseLoop] at hst'
      rcases hit : waitForResponseIter T requestId (m_reader.clock + timeout * 1000)
        { response := [], reader := m_reader } with ⟨st1, b⟩
      rw [hit] at hst' hE
      obtain ⟨hb, hret, hrsp⟩ := hE
      simp only [] at hb hret hrsp
      subst hb
      simp only [Option.some.injEq] at hst'
      subst hst'
      exact ⟨hret, hrsp⟩
    · intro hw
      have hS := waitForResponseIter_stdout T hT requestId (m_reader.clock + timeout * 1000)
        { response := [], reader := m_reader } hello
        (encodeFastCgiRecord FCGI_TYPE_END e requestId) hid (by decide) (by decide) hs hw
      have hfuel : ∃ f, loopBound (m_reader.clock + timeout * 1000) m_reader = f + 2 := by
        refine ⟨m_reader.schedule.length + m_reader.wire.length +
          (m_reader.clock + timeout * 1000 + 1 - m_reader.clock) - 1, ?_⟩
        have : 8 ≤ m_reader.wire.length := by
          rw [hw]; simp only [List.length_append, encodeFastCgiRecord_length]; omega
        simp only [loopBound]
        omega
      obtain ⟨f, hf⟩ := hfuel
      rw [hf, waitForResponseLoop] at hst'
      rcases hit : waitForResponseIter T requestId (m_reader.clock + timeout * 1000)
        { response := [], reader := m_reader } with ⟨st1, b⟩
      rw [hit] at hst' hS
      obtain ⟨hb, hret, hrsp, hs1, hw1⟩ := hS
      simp only [] at hb hret hrsp hs1 hw1
      have hb' : b = false := by
        rw [hb]; simp
      subst hb'
      simp only [] at hst'
      have hE := waitForResponseIter_end T hT requestId (m_reader.clock + timeout * 1000)
        st1 e [] hid he hs1 (by simpa using hw1)
      rw [waitForResponseLoop] at hst'
      rcases hit2 : waitForResponseIter T requestId (m_reader.clock + timeout * 1000) st1
        with ⟨st2, b2⟩
      rw [hit2] at hst' hE
      obtain ⟨hb2, hret2, hrsp2⟩ := hE
      simp only [] at hb2 hret2 hrsp2
      subst hb2
      simp only [Option.some.injEq] at hst'
      subst hst'
      exact ⟨hret2.trans hret, hrsp2.trans hrsp⟩

/-- Witness for C10: the two streams of the claim for request id 1, with an
END_REQUEST body of eight zero bytes. -/
theorem waitForResponse_true_iff_stdout_witness :
    (∃ out, waitForResponse (.signedInt 32)
        { wire := encodeFastCgiRecord FCGI_TYPE_END [0, 0, 0, 0, 0, 0, 0, 0] 1 } 1 [] 300 =
          some out ∧ out.ret = false ∧ out.response = []) ∧
    (∃ out, waitForResponse (.signedInt 32)
        { wire := encodeFastCgiRecord FCGI_TYPE_STDOUT hello 1 ++
                  encodeFastCgiRecord FCGI_TYPE_END [0, 0, 0, 0, 0, 0, 0, 0] 1 } 1 [] 300 =
          some out ∧ out.ret = true ∧ out.response = hello) := by
  constructor
  · obtain ⟨out, h1, -, h3⟩ := waitForResponse_true_iff_stdout (.signedInt 32)
      { wire := encodeFastCgiRecord FCGI_TYPE_END [0, 0, 0, 0, 0, 0, 0, 0] 1 } 1 [] 300
    exact ⟨out, h1, (h3 rfl (by decide) rfl rfl [0, 0, 0, 0, 0, 0, 0, 0] (by decide)).1 rfl⟩
  · obtain ⟨out, h1, -, h3⟩ := waitForResponse_true_iff_stdout (.signedInt 32)
      { wire := encodeFastCgiRecord FCGI_TYPE_STDOUT hello 1 ++
                encodeFastCgiRecord FCGI_TYPE_END [0, 0, 0, 0, 0, 0, 0, 0] 1 } 1 [] 300
    exact ⟨out, h1, (h3 rfl (by decide) rfl rfl [0, 0, 0, 0, 0, 0, 0, 0] (by decide)).2 rfl⟩

/-! ## Failing fast: closed transport and failed write -/

/-- C15: when the transport is not open, `sendRequest` returns false, the
caller's response is unchanged, and the reader is exactly as before: nothing
was written, nothing was read, the clock did not move. -/
theorem sendRequest_not_open (T : TagType) (m_reader : StreamReader) (rand : Nat)
    (pairs : KeyValuePairs) (body response : Bytes) (timeout : Nat)
    (hclosed : m_reader.isOpen = false) :
    sendRequest T m_reader rand pairs body response timeout =
      some { ret := false, response := response, reader := m_reader, seen := [] } := by
  unfold sendRequest
  rw [hclosed]
  rfl

/-- Witness for C15: a closed reader with bytes on the wire and a pending write log. -/
theorem sendRequest_not_open_witness :
    sendRequest (.signedInt 32) { sockOpen := false, wire := [1, 2, 3], sent := [[9]] } 5
        [([65], [66])] [1] [7, 7] 300 =
      some { ret := false, response := [7, 7],
             reader := { sockOpen := false, wire := [1, 2, 3], sent := [[9]] }, seen := [] } :=
  sendRequest_not_open (.signedInt 32) { sockOpen := false, wire := [1, 2, 3], sent := [[9]] } 5
    [([65], [66])] [1] [7, 7] 300 rfl

theorem StreamReader.write_cases (s : StreamReader) (data : Bytes) :
    (s.sockOpen = false ∧ s.write data = (ReturnCode.CLOSED, s)) ∨
    (s.sockOpen = true ∧ s.writeEcs.headD ErrorCode.success ≠ ErrorCode.success ∧
      s.write data =
        (ReturnCode.IO_ERROR, { s with sent := s.sent ++ [data], writeEcs := s.writeEcs.tail })) ∨
    (s.sockOpen = true ∧ s.writeEcs.headD ErrorCode.success = ErrorCode.success ∧
      s.write data =
        (ReturnCode.OK, { s with sent := s.sent ++ [data], writeEcs := s.writeEcs.tail })) := by
  unfold StreamReader.write
  cases hopen : s.sockOpen
  · left
    exact ⟨rfl, rfl⟩
  · right
    by_cases hec : s.writeEcs.headD ErrorCode.success = ErrorCode.success
    · right
      refine ⟨rfl, hec, ?_⟩
      simp only [Bool.not_true, Bool.false_eq_true, if_false, ne_eq, hec, not_true_eq_false]
    · left
      refine ⟨rfl, hec, ?_⟩
      simp only [Bool.not_true, Bool.false_eq_true, if_false, ne_eq, hec, not_false_eq_true,
        if_true]

/-- C16: when the write of the built request returns anything other than OK,
`sendRequest` returns false with the caller's response unchanged; the reader
it leaves is the one the single write call left, so the write was not retried
(at most one buffer was added to the write log) and nothing was read (wire,
schedule, clock and the cancel counters are as before). -/
theorem sendRequest_write_failed (T : TagType) (m_reader : StreamReader) (rand : Nat)
    (pairs : KeyValuePairs) (body response : Bytes) (timeout : Nat)
    (hw : (m_reader.write (buildRequest (rand &&& 0x7fff) pairs body)).1 ≠ ReturnCode.OK) :
    ∃ out, sendRequest T m_reader rand pairs body response timeout = some out ∧
      out.ret = false ∧ out.response = response ∧ out.seen = [] ∧
      out.reader = (m_reader.write (buildRequest (rand &&& 0x7fff) pairs body)).2 ∧
      (out.reader.sent = m_reader.sent ∨
        out.reader.sent = m_reader.sent ++ [buildRequest (rand &&& 0x7fff) pairs body]) ∧
      out.reader.wire = m_reader.wire ∧ out.reader.schedule = m_reader.schedule ∧
      out.reader.clock = m_reader.clock ∧ out.reader.sockCancels = m_reader.sockCancels ∧
      out.reader.timerCancels = m_reader.timerCancels := by
  have hcases := m_reader.write_cases (buildRequest (rand &&& 0x7fff) pairs body)
  unfold sendRequest
  simp only [(requestId_mask rand).1]
  rcases hcases with ⟨hopen, hwr⟩ | ⟨hopen, -, hwr⟩ | ⟨-, -, hwr⟩
  · simp only [StreamReader.isOpen, hopen, Bool.not_false, if_true]
    rw [hwr]
    exact ⟨_, rfl, rfl, rfl, rfl, rfl, Or.inl rfl, rfl, rfl, rfl, rfl, rfl⟩
  · simp only [StreamReader.isOpen, hopen, Bool.not_true, Bool.false_eq_true, if_false]
    rw [if_pos hw, hwr]
    exact ⟨_, rfl, rfl, rfl, rfl, rfl, Or.inr rfl, rfl, rfl, rfl, rfl, rfl⟩
  · rw [hwr] at hw
    exact absurd rfl hw

/-- Witness for C16: an open reader whose next write reports an error. -/
theorem sendRequest_write_failed_witness :
    ∃ out, sendRequest (.signedInt 32) { writeEcs := [ErrorCode.fault], wire := [1, 2, 3] } 5
        [] [] [7] 300 = some out ∧
      out.ret = false ∧ out.response = [7] ∧ out.seen = [] ∧
      out.reader = (({ writeEcs := [ErrorCode.fault], wire := [1, 2, 3] } : StreamReader).write
        (buildRequest (5 &&& 0x7fff) [] [])).2 ∧
      (out.reader.sent = ({ writeEcs := [ErrorCode.fault], wire := [1, 2, 3] } : StreamReader).sent ∨
        out.reader.sent =
          ({ writeEcs := [ErrorCode.fault], wire := [1, 2, 3] } : StreamReader).sent ++
            [buildRequest (5 &&& 0x7fff) [] []]) ∧
      out.reader.wire = ({ writeEcs := [ErrorCode.fault], wire := [1, 2, 3] } : StreamReader).wire ∧
      out.reader.schedule =
        ({ writeEcs := [ErrorCode.fault], wire := [1, 2, 3] } : StreamReader).schedule ∧
      out.reader.clock =
        ({ writeEcs := [ErrorCode.fault], wire := [1, 2, 3] } : StreamReader).clock ∧
      out.reader.sockCancels =
        ({ writeEcs := [ErrorCode.fault], wire := [1, 2, 3] } : StreamReader).sockCancels ∧
      out.reader.timerCancels =
        ({ writeEcs := [ErrorCode.fault], wire := [1, 2, 3] } : StreamReader).timerCancels :=
  sendRequest_write_failed (.signedInt 32) { writeEcs := [ErrorCode.fault], wire := [1, 2, 3] } 5
    [] [] [7] 300 (by decide)

/-! ## The request id -/

/-- C17: the request id is the random value masked with 0x7FFF, so it is
`rand % 32768` and lies in 0..32767; with the reader open the written request
is built from records that all carry this id, and when the write succeeds the
result of `sendRequest` is that of `waitForResponse` matching against the same
id. -/
theorem sendRequest_requestId (T : TagType) (m_reader : StreamReader) (rand : Nat)
    (pairs : KeyValuePairs) (body response : Bytes) (timeout : Nat)
    (hopen : m_reader.isOpen = true) :
    (rand &&& 0x7fff) % 2 ^ 16 = rand &&& 0x7fff ∧
    rand &&& 0x7fff = rand % 32768 ∧ rand &&& 0x7fff ≤ 32767 ∧
    (∃ out, sendRequest T m_reader rand pairs body response timeout = some out ∧
      out.reader.sent = m_reader.sent ++
        [ encodeFastCgiRecord FCGI_TYPE_BEGIN FCGI_HDR_STR (rand &&& 0x7fff) ++
          (if paramsRecord pairs = [] then []
           else encodeFastCgiRecord FCGI_TYPE_PARAMS (paramsRecord pairs) (rand &&& 0x7fff)) ++
          encodeFastCgiRecord FCGI_TYPE_PARAMS [] (rand &&& 0x7fff) ++
          (if body = [] then []
           else encodeFastCgiRecord FCGI_TYPE_STDIN body (rand &&& 0x7fff)) ++
          encodeFastCgiRecord FCGI_TYPE_STDIN [] (rand &&& 0x7fff) ]) ∧
    ((m_reader.write (buildRequest (rand &&& 0x7fff) pairs body)).1 = ReturnCode.OK →
      sendRequest T m_reader rand pairs body response timeout =
        waitForResponse T (m_reader.write (buildRequest (rand &&& 0x7fff) pairs body)).2
          (rand &&& 0x7fff) response timeout) := by
  have hm := requestId_mask rand
  refine ⟨hm.1, hm.2, by rw [hm.2]; omega, ?_, ?_⟩
  · obtain ⟨out, hout, hsent⟩ :=
      sendRequest_sent T m_reader rand pairs body response timeout hopen
    refine ⟨out, hout, ?_⟩
    rw [hsent, buildRequest_eq, paramsRecord_eq]
    rfl
  · intro hw
    unfold sendRequest
    simp only [hopen, Bool.not_true, Bool.false_eq_true, if_false, hm.1, hw, ne_eq,
      not_true_eq_false]

/-- Witness for C17: the random value 0x12345 gives the request id 0x2345. -/
theorem sendRequest_requestId_witness :
    (0x12345 &&& 0x7fff) % 2 ^ 16 = 0x12345 &&& 0x7fff ∧
    0x12345 &&& 0x7fff = 0x12345 % 32768 ∧ 0x12345 &&& 0x7fff ≤ 32767 ∧
    (∃ out, sendRequest (.signedInt 32) {} 0x12345 [([65], [66])] [1] [] 1 = some out ∧
      out.reader.sent = ({} : StreamReader).sent ++
        [ encodeFastCgiRecord FCGI_TYPE_BEGIN FCGI_HDR_STR (0x12345 &&& 0x7fff) ++
          (if paramsRecord [([65], [66])] = [] then []
           else encodeFastCgiRecord FCGI_TYPE_PARAMS (paramsRecord [([65], [66])])
             (0x12345 &&& 0x7fff)) ++
          encodeFastCgiRecord FCGI_TYPE_PARAMS [] (0x12345 &&& 0x7fff) ++
          (if ([1] : Bytes) = [] then []
           else encodeFastCgiRecord FCGI_TYPE_STDIN [1] (0x12345 &&& 0x7fff)) ++
          encodeFastCgiRecord FCGI_TYPE_STDIN [] (0x12345 &&& 0x7fff) ]) ∧
    ((({} : StreamReader).write (buildRequest (0x12345 &&& 0x7fff) [([65], [66])] [1])).1 =
        ReturnCode.OK →
      sendRequest (.signedInt 32) {} 0x12345 [([65], [66])] [1] [] 1 =
        waitForResponse (.signedInt 32)
          (({} : StreamReader).write (buildRequest (0x12345 &&& 0x7fff) [([65], [66])] [1])).2
          (0x12345 &&& 0x7fff) [] 1) :=
  sendRequest_requestId (.signedInt 32) {} 0x12345 [([65], [66])] [1] [] 1 rfl

/-! ## The transport: write and close -/

/-- C18: `write` on a socket that is not open returns CLOSED and leaves the
reader, its write log included, unchanged; on an open socket it hands the
buffer to the underlying write once and returns IO_ERROR when that write
reports an error and OK when it reports none. -/
theorem StreamReader.write_result (s : StreamReader) (data : Bytes) :
    (s.isOpen = false → s.write data = (ReturnCode.CLOSED, s)) ∧
    (s.isOpen = true →
      (s.write data).2.sent = s.sent ++ [data] ∧
      (s.writeEcs.headD ErrorCode.success ≠ ErrorCode.success →
        (s.write data).1 = ReturnCode.IO_ERROR) ∧
      (s.writeEcs.headD ErrorCode.success = ErrorCode.success →
        (s.write data).1 = ReturnCode.OK)) := by
  rcases s.write_cases data with ⟨hopen, hwr⟩ | ⟨hopen, hec, hwr⟩ | ⟨hopen, hec, hwr⟩
  · refine ⟨fun _ => hwr, fun h => ?_⟩
    rw [StreamReader.isOpen, hopen] at h
    exact absurd h (by decide)
  · refine ⟨fun h => ?_, fun _ => ?_⟩
    · rw [StreamReader.isOpen, hopen] at h
      exact absurd h (by decide)
    · rw [hwr]
      exact ⟨rfl, fun _ => rfl, fun h => absurd h hec⟩
  · refine ⟨fun h => ?_, fun _ => ?_⟩
    · rw [StreamReader.isOpen, hopen] at h
      exact absurd h (by decide)
    · rw [hwr]
      exact ⟨rfl, fun h => absurd hec h, fun _ => rfl⟩

/-- Witness for C18: a closed socket, an open socket whose write fails with
end-of-stream, and an open socket whose write succeeds. -/
theorem StreamReader.write_result_witness :
    ({ sockOpen := false, sent := [[1]] } : StreamReader).write [2, 3] =
      (ReturnCode.CLOSED, { sockOpen := false, sent := [[1]] }) ∧
    (({ writeEcs := [ErrorCode.eof] } : StreamReader).write [2, 3]).1 = ReturnCode.IO_ERROR ∧
    (({} : StreamReader).write [2, 3]).1 = ReturnCode.OK ∧
    (({} : StreamReader).write [2, 3]).2.sent = [[2, 3]] :=
  ⟨(StreamReader.write_result { sockOpen := false, sent := [[1]] } [2, 3]).1 rfl,
   ((StreamReader.write_result { writeEcs := [ErrorCode.eof] } [2, 3]).2 rfl).2.1 (by decide),
   ((StreamReader.write_result {} [2, 3]).2 rfl).2.2 rfl,
   ((StreamReader.write_result {} [2, 3]).2 rfl).1⟩

/-- C19: `close` on a socket that is already closed changes nothing (no cancel,
no close); closing twice leaves the same state as closing once; after `close`
the reader is not open. -/
theorem StreamReader.close_idempotent (s : StreamReader) :
    (s.isOpen = false → s.close = s) ∧
    s.close.close = s.close ∧
    s.close.isOpen = false ∧
    (s.isOpen = true →
      s.close.sockCancels = s.sockCancels + 1 ∧ s.close.sockCloses = s.sockCloses + 1) := by
  unfold StreamReader.close StreamReader.isOpen
  cases hopen : s.sockOpen <;> simp [hopen]

/-- Witness for C19: closing a closed reader, and closing an open one twice. -/
theorem StreamReader.close_idempotent_witness :
    ({ sockOpen := false, sockCancels := 2 } : StreamReader).close =
      { sockOpen := false, sockCancels := 2 } ∧
    ({} : StreamReader).close.close = ({} : StreamReader).close ∧
    ({} : StreamReader).close.isOpen = false ∧
    ({} : StreamReader).close.sockCancels = 1 ∧ ({} : StreamReader).close.sockCloses = 1 :=
  ⟨(StreamReader.close_idempotent { sockOpen := false, sockCancels := 2 }).1 rfl,
   (StreamReader.close_idempotent {}).2.1,
   (StreamReader.close_idempotent {}).2.2.1,
   ((StreamReader.close_idempotent {}).2.2.2 rfl).1,
   ((StreamReader.close_idempotent {}).2.2.2 rfl).2⟩

/-! ## What a successful decode takes off the wire -/

theorem StreamReader.read_ok (s : StreamReader) (len expire : Nat)
    (h : (s.read len expire).rc = ReturnCode.OK) :
    len ≤ s.wire.length ∧ (s.read len expire).buf = s.wire.take len ∧
    (s.read len expire).reader.wire = s.wire.drop len := by
  rcases s.read_cases len expire with ⟨-, h1, -, h2, h3⟩ | ⟨h1, -, -⟩ | ⟨h1 | h1, -, -, -⟩
  · exact ⟨h1, h2, by rw [h3]⟩
  · rw [h1] at h; exact absurd h (by decide)
  · rw [h1] at h; exact absurd h (by decide)
  · rw [h1] at h; exact absurd h (by decide)

/-- The wire after a successful `decodeFastCgiRecord`: the header, then as many
content bytes and as many padding bytes as the decoded tags say, a tag that is
not positive counting as zero. -/
theorem decodeFastCgiRecord_ok_wire (T : TagType) (r : StreamReader) (ty : Int) (id : Nat)
    (c : Bytes) (hok : (decodeFastCgiRecord T r ty id c).ok = true) :
    8 + ((decodeFastCgiHeader T (r.wire.take 8)).at CONT_LEN_TOKEN).toNat +
        ((decodeFastCgiHeader T (r.wire.take 8)).at PADDING_LEN_TOKEN).toNat ≤ r.wire.length ∧
    (decodeFastCgiRecord T r ty id c).reader.wire =
      r.wire.drop (8 + ((decodeFastCgiHeader T (r.wire.take 8)).at CONT_LEN_TOKEN).toNat +
        ((decodeFastCgiHeader T (r.wire.take 8)).at PADDING_LEN_TOKEN).toNat) := by
  unfold decodeFastCgiRecord at hok ⊢
  simp only [] at hok ⊢
  by_cases h1 : (r.read FCGI_HEADER_SIZE ns).rc = ReturnCode.OK
  · obtain ⟨hl1, hb1, hw1⟩ := r.read_ok _ _ h1
    simp only [FCGI_HEADER_SIZE] at hl1 hb1 hw1 h1
    simp only [FCGI_HEADER_SIZE, h1, ne_eq, not_true_eq_false, if_false, hb1] at hok ⊢
    generalize hcl : (decodeFastCgiHeader T (r.wire.take 8)).at CONT_LEN_TOKEN = cl at hok ⊢
    generalize hpl : (decodeFastCgiHeader T (r.wire.take 8)).at PADDING_LEN_TOKEN = pl at hok ⊢
    by_cases hc : cl > 0
    · simp only [hc, if_true] at hok ⊢
      by_cases h2 : ((r.read 8 ns).reader.read cl.toNat ns).rc = ReturnCode.OK
      · obtain ⟨hl2, -, hw2⟩ := StreamReader.read_ok _ _ _ h2
        rw [hw1] at hl2 hw2
        simp only [List.length_drop] at hl2
        simp only [h2, ne_eq, not_true_eq_false, if_false] at hok ⊢
        by_cases hp : pl > 0
        · simp only [hp, if_true] at hok ⊢
          by_cases h3 : (((r.read 8 ns).reader.read cl.toNat ns).reader.read pl.toNat ns).rc =
              ReturnCode.OK
          · obtain ⟨hl3, -, hw3⟩ := StreamReader.read_ok _ _ _ h3
            rw [hw2] at hl3 hw3
            simp only [List.length_drop] at hl3
            simp only [h3, ne_eq, not_true_eq_false, if_false]
            rw [hw3, List.drop_drop, List.drop_drop]
            refine ⟨by omega, ?_⟩
            congr 1
            omega
          · simp [h3] at hok
        · simp only [hp, if_false]
          have hz : pl.toNat = 0 := by omega
          rw [hz, hw2, List.drop_drop]
          refine ⟨by omega, ?_⟩
          congr 1
      · simp [h2] at hok
    · simp only [hc, if_false] at hok ⊢
      have hz : cl.toNat = 0 := by omega
      by_cases hp : pl > 0
      · simp only [hp, if_true] at hok ⊢
        by_cases h3 : ((r.read 8 ns).reader.read pl.toNat ns).rc = ReturnCode.OK
        · obtain ⟨hl3, -, hw3⟩ := StreamReader.read_ok _ _ _ h3
          rw [hw1] at hl3 hw3
          simp only [List.length_drop] at hl3
          simp only [h3, ne_eq, not_true_eq_false, if_false]
          rw [hw3, List.drop_drop, hz]
          refine ⟨by omega, ?_⟩
          congr 1
        · simp [h3] at hok
      · simp only [hp, if_false]
        have hz2 : pl.toNat = 0 := by omega
        rw [hz, hz2, hw1]
        exact ⟨by omega, rfl⟩
  · simp [h1] at hok

theorem decodeFastCgiHeader_len1_pad128 (T : TagType) (rest : Bytes) :
    (decodeFastCgiHeader T (([1, 6, 0, 1, 0, 1, 0x80, 0] ++ rest).take 8)).at CONT_LEN_TOKEN =
      T.conv 1 ∧
    (decodeFastCgiHeader T (([1, 6, 0, 1, 0, 1, 0x80, 0] ++ rest).take 8)).at PADDING_LEN_TOKEN =
      T.conv (-128) := by
  have ht : ([1, 6, 0, 1, 0, 1, 0x80, 0] ++ rest).take 8 = [1, 6, 0, 1, 0, 1, 0x80, 0] :=
    List.take_left' rfl
  rw [ht]
  obtain ⟨-, -, -, hcl, hpl⟩ := decodeFastCgiHeader_at T [1, 6, 0, 1, 0, 1, 0x80, 0]
  rw [hcl, hpl]
  constructor <;> rfl

/-- C20, evaluation at the failing input: the peer sends the record
01 06 00 01 00 01 80 00, one content byte, 128 padding bytes (137 bytes on the
wire), followed by an END_REQUEST record.  With a 32 bit signed tag the decode
succeeds after taking 9 bytes, so the 128 padding bytes stay on the wire in
front of the next record.  For every tag type that holds all 16 bit values a
successful decode of a wire that starts with this header never takes 137
bytes. -/
theorem decodeFastCgiRecord_padding_not_consumed :
    ((decodeFastCgiRecord (.signedInt 32)
        { wire := [1, 6, 0, 1, 0, 1, 0x80, 0] ++ [65] ++ padding128 ++
                  encodeFastCgiRecord FCGI_TYPE_END [0, 0, 0, 0, 0, 0, 0, 0] 1 } 0 0 []).ok = true ∧
     (decodeFastCgiRecord (.signedInt 32)
        { wire := [1, 6, 0, 1, 0, 1, 0x80, 0] ++ [65] ++ padding128 ++
                  encodeFastCgiRecord FCGI_TYPE_END [0, 0, 0, 0, 0, 0, 0, 0] 1 } 0 0 []).content =
       [65] ∧
     (decodeFastCgiRecord (.signedInt 32)
        { wire := [1, 6, 0, 1, 0, 1, 0x80, 0] ++ [65] ++ padding128 ++
                  encodeFastCgiRecord FCGI_TYPE_END [0, 0, 0, 0, 0, 0, 0, 0] 1 } 0 0
          []).reader.wire =
       padding128 ++ encodeFastCgiRecord FCGI_TYPE_END [0, 0, 0, 0, 0, 0, 0, 0] 1) ∧
    (∀ (T : TagType) (r : StreamReader) (ty : Int) (id : Nat) (c rest : Bytes),
      T.holdsU16 = true → r.wire = [1, 6, 0, 1, 0, 1, 0x80, 0] ++ rest →
      (decodeFastCgiRecord T r ty id c).ok = true →
      r.wire.length - (decodeFastCgiRecord T r ty id c).reader.wire.length ≠ 8 + 1 + 128) := by
  refine ⟨by set_option maxRecDepth 20000 in decide, ?_⟩
  intro T r ty id c rest hT hw hok
  obtain ⟨hle, hwire⟩ := decodeFastCgiRecord_ok_wire T r ty id c hok
  obtain ⟨hcl, hpl⟩ := decodeFastCgiHeader_len1_pad128 T rest
  rw [hw, hcl, hpl, T.conv_id hT 1 (by norm_num) (by norm_num)] at hle
  rw [hwire, hw, hcl, hpl, T.conv_id hT 1 (by norm_num) (by norm_num), List.length_drop]
  rcases T.conv_neg hT (-128) (by norm_num) (by norm_num) with h | h <;>
    simp only [Int.toNat_one] at hle ⊢ <;> omega

/-! ## Records without content -/

theorem waitForResponseIter_empty_data (T : TagType) (hT : T.holdsU16 = true)
    (requestId expire : Nat) (st : LoopState) (rest : Bytes) (t : FcgiRecordType)
    (ht : t = FCGI_TYPE_STDOUT ∨ t = FCGI_TYPE_STDERR)
    (hid : requestId ≤ 65535) (hs : st.reader.schedule = [])
    (hw : st.reader.wire = encodeFastCgiRecord t [] requestId ++ rest) :
    (waitForResponseIter T requestId expire st).1.response = st.content ∧
    (waitForResponseIter T requestId expire st).1.seen =
      st.seen ++ [((t.toNat : Int), requestId, st.content)] := by
  unfold waitForResponseIter
  rw [decodeFastCgiRecord_encode T hT t [] requestId rest st.reader hid (by decide) hs hw]
  rcases ht with rfl | rfl <;> simp [FcgiRecordType.toNat]

/-- C11, evaluation at the failing input: for request id 1 the peer sends a
STDOUT record with content "hello" and then a STDOUT record with
contentLength 0.  After the second record is processed the response is still
"hello", the bytes of the earlier record, not the empty content of the record
just decoded.  In general, processing a matching STDOUT or STDERR record with
contentLength 0 sets the response to whatever `content` held before, which may
be the content of a record of another request ("evil" below). -/
theorem waitForResponseIter_empty_record_stale_content :
    (waitForResponseIter (.signedInt 32) 1 300000
      { reader := { wire := encodeFastCgiRecord FCGI_TYPE_STDOUT hello 1 ++
                            encodeFastCgiRecord FCGI_TYPE_STDOUT [] 1 } }).1.response = hello ∧
    (waitForResponseIter (.signedInt 32) 1 300000
      { reader := { wire := encodeFastCgiRecord FCGI_TYPE_STDOUT hello 1 ++
                            encodeFastCgiRecord FCGI_TYPE_STDOUT [] 1 } }).1.reader.wire =
      encodeFastCgiRecord FCGI_TYPE_STDOUT [] 1 ∧
    (waitForResponseIter (.signedInt 32) 1 300000
      (waitForResponseIter (.signedInt 32) 1 300000
        { reader := { wire := encodeFastCgiRecord FCGI_TYPE_STDOUT hello 1 ++
                              encodeFastCgiRecord FCGI_TYPE_STDOUT [] 1 } }).1).1.response =
      hello ∧
    (waitForResponseIter (.signedInt 32) 1 300000
      (waitForResponseIter (.signedInt 32) 1 300000
        { reader := { wire := encodeFastCgiRecord FCGI_TYPE_STDOUT hello 1 ++
                              encodeFastCgiRecord FCGI_TYPE_STDOUT [] 1 } }).1).1.reader.wire =
      [] ∧
    (waitForResponseIter (.signedInt 32) 1 300000
      (waitForResponseIter (.signedInt 32) 1 300000
        { reader := { wire := encodeFastCgiRecord FCGI_TYPE_STDOUT evil 2 ++
                              encodeFastCgiRecord FCGI_TYPE_STDERR [] 1 } }).1).1.response =
      evil ∧
    (∀ (T : TagType) (requestId expire : Nat) (st : LoopState) (rest : Bytes)
        (t : FcgiRecordType),
      T.holdsU16 = true → (t = FCGI_TYPE_STDOUT ∨ t = FCGI_TYPE_STDERR) →
      requestId ≤ 65535 → st.reader.schedule = [] →
      st.reader.wire = encodeFastCgiRecord t [] requestId ++ rest →
      (waitForResponseIter T requestId expire st).1.response = st.content) := by
  refine ⟨by decide, by decide, by decide, by decide, by decide, ?_⟩
  intro T requestId expire st rest t hT ht hid hs hw
  exact (waitForResponseIter_empty_data T hT requestId expire st rest t ht hid hs hw).1

/-- C14, evaluation at the failing input: for request id 1 the stream of a
STDOUT record with contentLength 0 followed by END_REQUEST gives (true, "").
Inserting in front a well-formed STDOUT record for the foreign request id 2
with content "evil" gives (true, "evil"), and with content "good" gives
(true, "good"): the foreign content reaches the response, and two streams that
differ only in the content bytes of a foreign record give different
responses. -/
theorem waitForResponse_foreign_content_leaks :
    (waitForResponse (.signedInt 32)
      { wire := encodeFastCgiRecord FCGI_TYPE_STDOUT [] 1 ++
                encodeFastCgiRecord FCGI_TYPE_END endBody 1 } 1 [] 300).map
        (fun o => (o.ret, o.response)) = some (true, []) ∧
    (waitForResponse (.signedInt 32)
      { wire := encodeFastCgiRecord FCGI_TYPE_STDOUT evil 2 ++
                encodeFastCgiRecord FCGI_TYPE_STDOUT [] 1 ++
                encodeFastCgiRecord FCGI_TYPE_END endBody 1 } 1 [] 300).map
        (fun o => (o.ret, o.response)) = some (true, evil) ∧
    (waitForResponse (.signedInt 32)
      { wire := encodeFastCgiRecord FCGI_TYPE_STDOUT good 2 ++
                encodeFastCgiRecord FCGI_TYPE_STDOUT [] 1 ++
                encodeFastCgiRecord FCGI_TYPE_END endBody 1 } 1 [] 300).map
        (fun o => (o.ret, o.response)) = some (true, good) := by
  refine ⟨by decide, by decide, by decide⟩

/-! ## What the returned flag and response say about the decoded records -/

theorem lastMatchingData_append (requestId : Nat) (seen : List (Int × Nat × Bytes))
    (r : Int × Nat × Bytes) :
    lastMatchingData requestId (seen ++ [r]) =
      if (r.1 = (FCGI_TYPE_STDOUT.toNat : Int) ∨ r.1 = (FCGI_TYPE_STDERR.toNat : Int)) ∧
          r.2.1 = requestId then some r.2.2 else lastMatchingData requestId seen := by
  simp [lastMatchingData, List.foldl_append]

theorem waitForResponseIter_break (T : TagType) (requestId expire : Nat) (st : LoopState)
    (h : (waitForResponseIter T requestId expire st).2 = true) :
    (∃ rec ∈ (waitForResponseIter T requestId expire st).1.seen, IsMatchingEnd requestId rec) ∨
      expire < (waitForResponseIter T requestId expire st).1.reader.clock := by
  unfold waitForResponseIter at h ⊢
  simp only [] at h ⊢
  split_ifs at h ⊢ <;> simp_all [IsMatchingEnd, FcgiRecordType.toNat]

theorem waitForResponseLoop_exit (T : TagType) (requestId expire : Nat) :
    ∀ (fuel : Nat) (st st' : LoopState),
      waitForResponseLoop T requestId expire fuel st = some st' →
      (∃ rec ∈ st'.seen, IsMatchingEnd requestId rec) ∨ expire < st'.reader.clock := by
  intro fuel
  induction fuel with
  | zero => intro st st' h; simp [waitForResponseLoop] at h
  | succ n ih =>
    intro st st' h
    rw [waitForResponseLoop] at h
    have hb := waitForResponseIter_break T requestId expire st
    rcases hit : waitForResponseIter T requestId expire st with ⟨st1, b⟩
    rw [hit] at h hb
    cases b with
    | true =>
      simp only [Option.some.injEq] at h
      subst h
      exact hb rfl
    | false => exact ih st1 st' h

/-- The state the loop of `waitForResponse` ends in: it exists, it carries every
invariant of the loop body that holds initially, and the loop was left by a
matching END_REQUEST record or past the deadline. -/
theorem waitForResponse_final (T : TagType) (r : StreamReader) (requestId : Nat)
    (response : Bytes) (timeout : Nat) (P : LoopState → Prop)
    (hstep : ∀ st, P st → P (waitForResponseIter T requestId (r.clock + timeout * 1000) st).1)
    (h0 : P { response := response, reader := r }) :
    ∃ st', waitForResponse T r requestId response timeout =
        some { ret := st'.ret, response := st'.response, reader := st'.reader,
               seen := st'.seen } ∧
      P st' ∧
      ((∃ rec ∈ st'.seen, IsMatchingEnd requestId rec) ∨
        r.clock + timeout * 1000 < st'.reader.clock) := by
  obtain ⟨st', hst'⟩ := waitForResponseLoop_total T requestId (r.clock + timeout * 1000)
    (loopBound (r.clock + timeout * 1000) r) { response := response, reader := r }
    (by simp [loopBound, loopMeasure])
  refine ⟨st', by simp only [waitForResponse, hst', Option.map_some'], ?_, ?_⟩
  · exact waitForResponseLoop_invariant T requestId (r.clock + timeout * 1000) P hstep _ _ st'
      h0 hst'
  · exact waitForResponseLoop_exit T requestId (r.clock + timeout * 1000) _ _ st' hst'

theorem sendRequest_cases (T : TagType) (r : StreamReader) (rand : Nat)
    (pairs : KeyValuePairs) (body response : Bytes) (timeout : Nat) :
    (r.isOpen = false ∧
      sendRequest T r rand pairs body response timeout =
        some { ret := false, response := response, reader := r, seen := [] }) ∨
    (r.isOpen = true ∧
      (r.write (buildRequest (rand &&& 0x7fff) pairs body)).1 ≠ ReturnCode.OK ∧
      sendRequest T r rand pairs body response timeout =
        some { ret := false, response := response,
               reader := (r.write (buildRequest (rand &&& 0x7fff) pairs body)).2, seen := [] }) ∨
    (r.isOpen = true ∧
      (r.write (buildRequest (rand &&& 0x7fff) pairs body)).1 = ReturnCode.OK ∧
      sendRequest T r rand pairs body response timeout =
        waitForResponse T (r.write (buildRequest (rand &&& 0x7fff) pairs body)).2
          (rand &&& 0x7fff) response timeout) := by
  unfold sendRequest
  simp only [(requestId_mask rand).1]
  cases hopen : r.isOpen
  · left
    exact ⟨rfl, rfl⟩
  · right
    by_cases hw : (r.write (buildRequest (rand &&& 0x7fff) pairs body)).1 = ReturnCode.OK
    · right
      refine ⟨rfl, hw, ?_⟩
      simp only [Bool.not_true, Bool.false_eq_true, if_false, hw, ne_eq, not_true_eq_false]
    · left
      refine ⟨rfl, hw, ?_⟩
      simp only [Bool.not_true, Bool.false_eq_true, if_false, hw, ne_eq, not_false_eq_true,
        if_true]

theorem getD_take_of_lt (l : Bytes) (i n : Nat) (h : i < n) :
    (l.take n).getD i 0 = l.getD i 0 := by
  simp [List.getD_eq_getElem?_getD, List.getElem?_take, h]

/-- The contentLength tag of a decoded header is the 16 bit value of bytes 4
and 5 when the tag type holds every 16 bit value. -/
theorem decodeFastCgiHeader_contentLength (T : TagType) (hT : T.holdsU16 = true) (wire : Bytes) :
    (decodeFastCgiHeader T (wire.take 8)).at CONT_LEN_TOKEN =
      ((wire.getD 4 0 % 256 * 256 + wire.getD 5 0 % 256 : Nat) : Int) := by
  obtain ⟨-, -, -, hcl, -⟩ := decodeFastCgiHeader_at T (wire.take 8)
  rw [hcl]
  simp only [maskFF_charAt, getD_take_of_lt wire 4 8 (by decide),
    getD_take_of_lt wire 5 8 (by decide)]
  have h4 : wire.getD 4 0 % 256 < 256 := Nat.mod_lt _ (by decide)
  have h5 : wire.getD 5 0 % 256 < 256 := Nat.mod_lt _ (by decide)
  have hv : ((((wire.getD 4 0 % 256 : Nat) : Int) * 2 ^ 8 + ((wire.getD 5 0 % 256 : Nat) : Int))
      % 2 ^ 16) = ((wire.getD 4 0 % 256 * 256 + wire.getD 5 0 % 256 : Nat) : Int) := by
    push_cast
    omega
  rw [hv]
  exact T.conv_id hT _ (by omega) (by omega)

/-- A successful decode of a record that carries content hands that content
back in `content`. -/
theorem decodeFastCgiRecord_ok_content (T : TagType) (hT : T.holdsU16 = true) (r : StreamReader)
    (ty : Int) (id : Nat) (c : Bytes) (hok : (decodeFastCgiRecord T r ty id c).ok = true)
    (hne : specRecordContent r.wire ≠ []) :
    (decodeFastCgiRecord T r ty id c).content = specRecordContent r.wire := by
  have hcl := decodeFastCgiHeader_contentLength T hT r.wire
  unfold specRecordContent at hne ⊢
  generalize hn : r.wire.getD 4 0 % 256 * 256 + r.wire.getD 5 0 % 256 = n at hcl hne ⊢
  have hpos : 0 < n := by
    rcases Nat.eq_zero_or_pos n with h | h
    · rw [h] at hne; simp at hne
    · exact h
  unfold decodeFastCgiRecord at hok ⊢
  simp only [] at hok ⊢
  by_cases h1 : (r.read FCGI_HEADER_SIZE ns).rc = ReturnCode.OK
  · obtain ⟨hl1, hb1, hw1⟩ := r.read_ok _ _ h1
    simp only [FCGI_HEADER_SIZE] at hl1 hb1 hw1 h1
    simp only [FCGI_HEADER_SIZE, h1, ne_eq, not_true_eq_false, if_false, hb1, hcl] at hok ⊢
    have hc : ((n : Nat) : Int) > 0 := by omega
    simp only [hc, if_true, Int.toNat_ofNat] at hok ⊢
    by_cases h2 : ((r.read 8 ns).reader.read n ns).rc = ReturnCode.OK
    · obtain ⟨-, hb2, -⟩ := StreamReader.read_ok _ _ _ h2
      rw [hw1] at hb2
      simp only [h2, ne_eq, not_true_eq_false, if_false] at hok ⊢
      split_ifs <;> simp_all
    · simp [h2] at hok
  · simp [h1] at hok

theorem lastMatchingData_foldl (requestId : Nat) (recs : List (Int × Nat × Bytes))
    (acc : Option Bytes) :
    recs.foldl
      (fun acc r =>
        if (r.1 = (FCGI_TYPE_STDOUT.toNat : Int) ∨ r.1 = (FCGI_TYPE_STDERR.toNat : Int)) ∧
            r.2.1 = requestId then some r.2.2 else acc)
      acc =
    match lastMatchingData requestId recs with
    | some c => some c
    | none => acc := by
  induction recs using List.reverseRecOn with
  | nil => rfl
  | append_singleton recs x ih =>
    rw [List.foldl_append, lastMatchingData_append, ih]
    simp only [List.foldl_cons, List.foldl_nil]
    split_ifs <;> rfl

theorem lastMatchingData_cons (requestId : Nat) (x : Int × Nat × Bytes)
    (recs : List (Int × Nat × Bytes)) :
    lastMatchingData requestId (x :: recs) =
      match lastMatchingData requestId recs with
      | some c => some c
      | none =>
        if (x.1 = (FCGI_TYPE_STDOUT.toNat : Int) ∨ x.1 = (FCGI_TYPE_STDERR.toNat : Int)) ∧
            x.2.1 = requestId then some x.2.2 else none := by
  have h := lastMatchingData_foldl requestId recs
    (if (x.1 = (FCGI_TYPE_STDOUT.toNat : Int) ∨ x.1 = (FCGI_TYPE_STDERR.toNat : Int)) ∧
        x.2.1 = requestId then some x.2.2 else none)
  rw [← h]
  rfl

/-- What one pass of the loop does with the record it decodes. -/
theorem waitForResponseIter_record (T : TagType) (requestId expire : Nat) (st : LoopState) :
    ((decodeFastCgiRecord T st.reader st.type st.rcvdReqId st.content).ok = false →
      (waitForResponseIter T requestId expire st).1.ret = st.ret ∧
      (waitForResponseIter T requestId expire st).1.response = st.response ∧
      ((waitForResponseIter T requestId expire st).2 = true →
        expire < (waitForResponseIter T requestId expire st).1.reader.clock)) ∧
    ((decodeFastCgiRecord T st.reader st.type st.rcvdReqId st.content).ok = true →
      ((waitForResponseIter T requestId expire st).1.ret = true ↔
        st.ret = true ∨
          ((decodeFastCgiRecord T st.reader st.type st.rcvdReqId st.content).type =
              (FCGI_TYPE_STDOUT.toNat : Int) ∧
            (decodeFastCgiRecord T st.reader st.type st.rcvdReqId st.content).requestId =
              requestId)) ∧
      ((((decodeFastCgiRecord T st.reader st.type st.rcvdReqId st.content).type =
              (FCGI_TYPE_STDOUT.toNat : Int) ∨
            (decodeFastCgiRecord T st.reader st.type st.rcvdReqId st.content).type =
              (FCGI_TYPE_STDERR.toNat : Int)) ∧
          (decodeFastCgiRecord T st.reader st.type st.rcvdReqId st.content).requestId =
            requestId) →
        (waitForResponseIter T requestId expire st).1.response =
          (decodeFastCgiRecord T st.reader st.type st.rcvdReqId st.content).content) ∧
      (¬ (((decodeFastCgiRecord T st.reader st.type st.rcvdReqId st.content).type =
              (FCGI_TYPE_STDOUT.toNat : Int) ∨
            (decodeFastCgiRecord T st.reader st.type st.rcvdReqId st.content).type =
              (FCGI_TYPE_STDERR.toNat : Int)) ∧
          (decodeFastCgiRecord T st.reader st.type st.rcvdReqId st.content).requestId =
            requestId) →
        (waitForResponseIter T requestId expire st).1.response = st.response) ∧
      ((waitForResponseIter T requestId expire st).2 = true →
        ((decodeFastCgiRecord T st.reader st.type st.rcvdReqId st.content).type =
            (FCGI_TYPE_END.toNat : Int) ∧
          (decodeFastCgiRecord T st.reader st.type st.rcvdReqId st.content).requestId =
            requestId) ∨
        expire < (waitForResponseIter T requestId expire st).1.reader.clock)) := by
  unfold waitForResponseIter
  simp only []
  generalize decodeFastCgiRecord T st.reader st.type st.rcvdReqId st.content = d
  constructor
  · intro hd
    simp [hd]
  · intro hd
    simp only [hd, Bool.not_true, Bool.false_eq_true, if_false]
    split_ifs <;> simp_all [FcgiRecordType.toNat]

/-- The flag, the response and the exit of the loop, in terms of the records
the loop decodes and the content each of them carries on the wire. -/
theorem waitForResponseLoop_records (T : TagType) (hT : T.holdsU16 = true)
    (requestId expire : Nat) :
    ∀ (fuel : Nat) (st st' : LoopState),
      waitForResponseLoop T requestId expire fuel st = some st' →
      (st'.ret = true ↔ st.ret = true ∨
        ∃ rec ∈ decodedRecords T requestId expire fuel st, IsMatchingStdout requestId rec) ∧
      (∀ c, lastMatchingData requestId (decodedRecords T requestId expire fuel st) = some c →
        c ≠ [] → st'.response = c) ∧
      (lastMatchingData requestId (decodedRecords T requestId expire fuel st) = none →
        st'.response = st.response) ∧
      ((∃ rec ∈ decodedRecords T requestId expire fuel st, IsMatchingEnd requestId rec) ∨
        expire < st'.reader.clock) := by
  intro fuel
  induction fuel with
  | zero => intro st st' h; simp [waitForResponseLoop] at h
  | succ n ih =>
    intro st st' h
    rw [waitForResponseLoop] at h
    rw [decodedRecords]
    obtain ⟨hfail, hok⟩ := waitForResponseIter_record T requestId expire st
    have hcont := decodeFastCgiRecord_ok_content T hT st.reader st.type st.rcvdReqId st.content
    generalize decodeFastCgiRecord T st.reader st.type st.rcvdReqId st.content = d
      at hfail hok hcont ⊢
    generalize specRecordContent st.reader.wire = own at hcont ⊢
    rcases hit : waitForResponseIter T requestId expire st with ⟨st1, b⟩
    rw [hit] at h hfail hok
    simp only [] at h hfail hok ⊢
    cases hd : d.ok with
    | false =>
      obtain ⟨h1, h2, h3⟩ := hfail hd
      simp only [Bool.false_eq_true, if_false, List.nil_append]
      cases b with
      | true =>
        have h' : st1 = st' := Option.some.inj h
        subst h'
        refine ⟨by simp [h1], ?_, fun _ => h2, Or.inr (h3 rfl)⟩
        intro c hc
        simp [lastMatchingData] at hc
      | false =>
        have h' : waitForResponseLoop T requestId expire n st1 = some st' := h
        obtain ⟨i1, i2, i3, i4⟩ := ih st1 st' h'
        rw [h1] at i1
        rw [h2] at i3
        exact ⟨i1, i2, i3, i4⟩
    | true =>
      obtain ⟨h1, h2, h3, h4⟩ := hok hd
      have hc' := hcont hd
      simp only [if_true]
      cases b with
      | true =>
        have h' : st1 = st' := Option.some.inj h
        subst h'
        simp only [lastMatchingData, List.foldl_cons, List.foldl_nil, List.mem_singleton,
          exists_eq_left, IsMatchingStdout, IsMatchingEnd]
        refine ⟨h1, ?_, ?_, h4 rfl⟩
        · intro c hc hne
          by_cases hm : (d.type = (FCGI_TYPE_STDOUT.toNat : Int) ∨
              d.type = (FCGI_TYPE_STDERR.toNat : Int)) ∧ d.requestId = requestId
          · rw [if_pos hm] at hc
            have hc2 : own = c := Option.some.inj hc
            subst hc2
            rw [h2 hm, hc' hne]
          · rw [if_neg hm] at hc
            exact absurd hc (by simp)
        · intro hc
          by_cases hm : (d.type = (FCGI_TYPE_STDOUT.toNat : Int) ∨
              d.type = (FCGI_TYPE_STDERR.toNat : Int)) ∧ d.requestId = requestId
          · rw [if_pos hm] at hc
            exact absurd hc (by simp)
          · exact h3 hm
      | false =>
        have h' : waitForResponseLoop T requestId expire n st1 = some st' := h
        obtain ⟨i1, i2, i3, i4⟩ := ih st1 st' h'
        simp only [List.singleton_append]
        generalize decodedRecords T requestId expire n st1 = recs at i1 i2 i3 i4 ⊢
        have hmem : (∃ rec ∈ (d.type, d.requestId, own) :: recs,
              IsMatchingStdout requestId rec) ↔
            (d.type = (FCGI_TYPE_STDOUT.toNat : Int) ∧ d.requestId = requestId) ∨
              ∃ rec ∈ recs, IsMatchingStdout requestId rec := by
          simp only [List.mem_cons, exists_eq_or_imp, IsMatchingStdout]
        refine ⟨?_, ?_, ?_, ?_⟩
        · rw [hmem]
          constructor
          · intro hr
            rcases i1.mp hr with a | a
            · rcases h1.mp a with e | e
              · exact Or.inl e
              · exact Or.inr (Or.inl e)
            · exact Or.inr (Or.inr a)
          · intro hr
            rcases hr with a | a | a
            · exact i1.mpr (Or.inl (h1.mpr (Or.inl a)))
            · exact i1.mpr (Or.inl (h1.mpr (Or.inr a)))
            · exact i1.mpr (Or.inr a)
        · intro c hc hne
          rw [lastMatchingData_cons] at hc
          cases hl : lastMatchingData requestId recs with
          | some c1 =>
            rw [hl] at hc
            have hc2 : c1 = c := Option.some.inj hc
            subst hc2
            exact i2 c1 hl hne
          | none =>
            rw [hl] at hc
            simp only [] at hc
            by_cases hm : (d.type = (FCGI_TYPE_STDOUT.toNat : Int) ∨
                d.type = (FCGI_TYPE_STDERR.toNat : Int)) ∧ d.requestId = requestId
            · rw [if_pos hm] at hc
              have hc2 : own = c := Option.some.inj hc
              subst hc2
              rw [i3 hl, h2 hm, hc' hne]
            · rw [if_neg hm] at hc
              exact absurd hc (by simp)
        · intro hc
          rw [lastMatchingData_cons] at hc
          cases hl : lastMatchingData requestId recs with
          | some c1 =>
            rw [hl] at hc
            exact absurd hc (by simp)
          | none =>
            rw [hl] at hc
            simp only [] at hc
            by_cases hm : (d.type = (FCGI_TYPE_STDOUT.toNat : Int) ∨
                d.type = (FCGI_TYPE_STDERR.toNat : Int)) ∧ d.requestId = requestId
            · rw [if_pos hm] at hc
              exact absurd hc (by simp)
            · rw [i3 hl, h3 hm]
        · rcases i4 with ⟨rec, hrec, hm⟩ | h
          · exact Or.inl ⟨rec, List.mem_cons_of_mem _ hrec, hm⟩
          · exact Or.inr h

/-- A record that is decoded is on the wire in full: its content is as long as
bytes 4 and 5 of its header declare. -/
theorem decodeFastCgiRecord_ok_content_length (T : TagType) (hT : T.holdsU16 = true)
    (r : StreamReader) (ty : Int) (id : Nat) (c : Bytes)
    (hok : (decodeFastCgiRecord T r ty id c).ok = true) :
    (specRecordContent r.wire).length = r.wire.getD 4 0 % 256 * 256 + r.wire.getD 5 0 % 256 := by
  obtain ⟨hle, -⟩ := decodeFastCgiRecord_ok_wire T r ty id c hok
  rw [decodeFastCgiHeader_contentLength T hT r.wire, Int.toNat_ofNat] at hle
  simp only [specRecordContent, FCGI_HEADER_SIZE, List.length_take, List.length_drop]
  omega

theorem sendRequestRecords_waiting (T : TagType) (r : StreamReader) (rand : Nat)
    (pairs : KeyValuePairs) (body response : Bytes) (timeout : Nat)
    (hopen : r.isOpen = true)
    (hw : (r.write (buildRequest (rand &&& 0x7fff) pairs body)).1 = ReturnCode.OK) :
    sendRequestRecords T r rand pairs body response timeout =
      waitForResponseRecords T (r.write (buildRequest (rand &&& 0x7fff) pairs body)).2
        (rand &&& 0x7fff) response timeout := by
  unfold sendRequestRecords
  simp only [(requestId_mask rand).1, hopen, Bool.not_true, Bool.false_eq_true, if_false, hw,
    ne_eq, not_true_eq_false]

/-- The outcome of `waitForResponse` in terms of the records its loop decodes. -/
theorem waitForResponse_records (T : TagType) (hT : T.holdsU16 = true) (r : StreamReader)
    (requestId : Nat) (response : Bytes) (timeout : Nat) :
    ∃ out, waitForResponse T r requestId response timeout = some out ∧
      (out.ret = true ↔
        ∃ rec ∈ waitForResponseRecords T r requestId response timeout,
          IsMatchingStdout requestId rec) ∧
      (∀ c, lastMatchingData requestId (waitForResponseRecords T r requestId response timeout) =
          some c → c ≠ [] → out.response = c) ∧
      (lastMatchingData requestId (waitForResponseRecords T r requestId response timeout) =
          none → out.response = response) ∧
      ((∃ rec ∈ waitForResponseRecords T r requestId response timeout,
          IsMatchingEnd requestId rec) ∨
        r.clock + timeout * 1000 < out.reader.clock) := by
  obtain ⟨st', hst'⟩ := waitForResponseLoop_total T requestId (r.clock + timeout * 1000)
    (loopBound (r.clock + timeout * 1000) r) { response := response, reader := r }
    (by simp [loopBound, loopMeasure])
  obtain ⟨h1, h2, h3, h4⟩ := waitForResponseLoop_records T hT requestId
    (r.clock + timeout * 1000) _ _ st' hst'
  refine ⟨{ ret := st'.ret, response := st'.response, reader := st'.reader, seen := st'.seen },
    by simp only [waitForResponse, hst', Option.map_some'], ?_, h2, h3, h4⟩
  simp only [waitForResponseRecords]
  rw [h1]
  simp

/-- C12, counterexample: for request id 1 the stream STDOUT "hello", STDERR
"evil", END_REQUEST makes `sendRequest` return true with the response "evil",
while the content of the last matching STDOUT record is "hello"; and the
stream of a single STDOUT "good" makes it return true after the deadline
although no END_REQUEST record was decoded. -/
theorem sendRequest_true_with_stderr_response :
    (sendRequest (.signedInt 32)
      { wire := encodeFastCgiRecord FCGI_TYPE_STDOUT hello 1 ++
                encodeFastCgiRecord FCGI_TYPE_STDERR evil 1 ++
                encodeFastCgiRecord FCGI_TYPE_END endBody 1 } 1 [] [] [] 300).map
        (fun o => (o.ret, o.response, lastMatchingStdout 1 o.seen)) =
      some (true, evil, some hello) ∧
    (sendRequest (.signedInt 32)
      { wire := encodeFastCgiRecord FCGI_TYPE_STDOUT good 1 } 1 [] [] [] 2).map
        (fun o => (o.ret, o.response, o.seen)) =
      some (true, good, [(6, 1, good)]) := by
  refine ⟨by decide, by decide⟩

/-- C12, amended: whenever `sendRequest` returns true, a STDOUT record with the
request id was decoded before the loop ended, the loop ended by a decoded
END_REQUEST record with the request id or past the overall deadline, and if the
last decoded STDOUT or STDERR record with the request id carries content (its
contentLength is not zero) the returned response is the content of that
record, as it stands on the wire.  Nothing is said about the response when
that record has contentLength 0.  The tag type holds every 16 bit value. -/
theorem sendRequest_true_response (T : TagType) (hT : T.holdsU16 = true) (r : StreamReader)
    (rand : Nat) (pairs : KeyValuePairs) (body response : Bytes) (timeout : Nat) :
    ∃ out, sendRequest T r rand pairs body response timeout = some out ∧
      (out.ret = true →
        (∃ rec ∈ sendRequestRecords T r rand pairs body response timeout,
          IsMatchingStdout (rand &&& 0x7fff) rec) ∧
        (∀ c, lastMatchingData (rand &&& 0x7fff)
            (sendRequestRecords T r rand pairs body response timeout) = some c →
          c ≠ [] → out.response = c) ∧
        ((∃ rec ∈ sendRequestRecords T r rand pairs body response timeout,
            IsMatchingEnd (rand &&& 0x7fff) rec) ∨
          (r.write (buildRequest (rand &&& 0x7fff) pairs body)).2.clock + timeout * 1000 <
            out.reader.clock)) := by
  rcases sendRequest_cases T r rand pairs body response timeout with
    ⟨-, h⟩ | ⟨-, -, h⟩ | ⟨hopen, hw, h⟩
  · exact ⟨_, h, fun hr => by simp at hr⟩
  · exact ⟨_, h, fun hr => by simp at hr⟩
  · obtain ⟨out, hout, h1, h2, -, h4⟩ := waitForResponse_records T hT
      (r.write (buildRequest (rand &&& 0x7fff) pairs body)).2 (rand &&& 0x7fff) response timeout
    rw [hout] at h
    rw [sendRequestRecords_waiting T r rand pairs body response timeout hopen hw]
    exact ⟨out, h, fun hr => ⟨h1.mp hr, h2, h4⟩⟩

/-- Witness for C12, amended: the stream STDOUT "hello", END_REQUEST for request
id 1.  Both records are decoded, the STDOUT record carries "hello", and the
response is "hello". -/
theorem sendRequest_true_response_witness :
    sendRequestRecords (.signedInt 32)
        { wire := encodeFastCgiRecord FCGI_TYPE_STDOUT hello 1 ++
                  encodeFastCgiRecord FCGI_TYPE_END endBody 1 } 1 [] [] [] 300 =
      [(6, 1, hello), (3, 1, endBody)] ∧
    ∃ out, sendRequest (.signedInt 32)
        { wire := encodeFastCgiRecord FCGI_TYPE_STDOUT hello 1 ++
                  encodeFastCgiRecord FCGI_TYPE_END endBody 1 } 1 [] [] [] 300 = some out ∧
      out.ret = true ∧
      out.response = hello ∧
      (∃ rec ∈ sendRequestRecords (.signedInt 32)
          { wire := encodeFastCgiRecord FCGI_TYPE_STDOUT hello 1 ++
                    encodeFastCgiRecord FCGI_TYPE_END endBody 1 } 1 [] [] [] 300,
        IsMatchingStdout (1 &&& 0x7fff) rec) ∧
      ((∃ rec ∈ sendRequestRecords (.signedInt 32)
          { wire := encodeFastCgiRecord FCGI_TYPE_STDOUT hello 1 ++
                    encodeFastCgiRecord FCGI_TYPE_END endBody 1 } 1 [] [] [] 300,
          IsMatchingEnd (1 &&& 0x7fff) rec) ∨
        (({ wire := encodeFastCgiRecord FCGI_TYPE_STDOUT hello 1 ++
                    encodeFastCgiRecord FCGI_TYPE_END endBody 1 } : StreamReader).write
            (buildRequest (1 &&& 0x7fff) [] [])).2.clock + 300 * 1000 < out.reader.clock) := by
  have hrecs : sendRequestRecords (.signedInt 32)
        { wire := encodeFastCgiRecord FCGI_TYPE_STDOUT hello 1 ++
                  encodeFastCgiRecord FCGI_TYPE_END endBody 1 } 1 [] [] [] 300 =
      [(6, 1, hello), (3, 1, endBody)] := by decide
  obtain ⟨out, hout, himp⟩ := sendRequest_true_response (.signedInt 32) (by decide)
    { wire := encodeFastCgiRecord FCGI_TYPE_STDOUT hello 1 ++
              encodeFastCgiRecord FCGI_TYPE_END endBody 1 } 1 [] [] [] 300
  have hret : out.ret = true := by
    have h : (sendRequest (.signedInt 32)
        { wire := encodeFastCgiRecord FCGI_TYPE_STDOUT hello 1 ++
                  encodeFastCgiRecord FCGI_TYPE_END endBody 1 } 1 [] [] [] 300).map
          (fun o => o.ret) = some true := by decide
    rw [hout] at h
    simpa using h
  obtain ⟨h1, h2, h3⟩ := himp hret
  refine ⟨hrecs, out, hout, hret, ?_, h1, h3⟩
  exact h2 hello (by rw [hrecs]; decide) (by decide)

/-- A matching data record without content is decoded but promises nothing
about the response: for request id 1 the stream STDOUT "evil" for request 2,
STDOUT with contentLength 0 for request 1, END_REQUEST for request 1 gives
these decoded records, the last matching data record carrying no content. -/
theorem sendRequestRecords_empty_record :
    sendRequestRecords (.signedInt 32)
        { wire := encodeFastCgiRecord FCGI_TYPE_STDOUT evil 2 ++
                  encodeFastCgiRecord FCGI_TYPE_STDOUT [] 1 ++
                  encodeFastCgiRecord FCGI_TYPE_END endBody 1 } 1 [] [] [] 300 =
      [(6, 2, evil), (6, 1, []), (3, 1, endBody)] ∧
    lastMatchingData 1 [(6, 2, evil), (6, 1, []), (3, 1, endBody)] = some [] := by
  refine ⟨by decide, by decide⟩

/-- C13, counterexample: for request id 1 and a timeout of one second the peer
sends a single STDOUT record with content "hello" and then nothing.  The loop
ends past the deadline (clock 4000 ms against a deadline of 1000 ms), no
END_REQUEST record was decoded, and `sendRequest` returns true. -/
theorem sendRequest_true_at_deadline :
    (sendRequest (.signedInt 32)
      { wire := encodeFastCgiRecord FCGI_TYPE_STDOUT hello 1 } 1 [] [] [] 1).map
        (fun o => (o.ret, o.response)) = some (true, hello) ∧
    (sendRequest (.signedInt 32)
      { wire := encodeFastCgiRecord FCGI_TYPE_STDOUT hello 1 } 1 [] [] [] 1).map
        (fun o => o.seen) = some [(6, 1, hello)] ∧
    (sendRequest (.signedInt 32)
      { wire := encodeFastCgiRecord FCGI_TYPE_STDOUT hello 1 } 1 [] [] [] 1).map
        (fun o => o.reader.clock) = some 4000 := by
  refine ⟨by decide, by decide, by decide⟩

/-- A record decoded after the deadline counts: for request id 1 and a timeout
of one second the single STDOUT record "hello" arrives after 3000 ms, inside
the four seconds of the header read.  The record is decoded at 3000 ms, past
the deadline of 1000 ms; the loop ends after this pass and `sendRequest`
returns true. -/
theorem sendRequest_true_decoded_past_deadline :
    (sendRequest (.signedInt 32)
      { wire := encodeFastCgiRecord FCGI_TYPE_STDOUT hello 1,
        schedule := [{ ec := ErrorCode.success, elapsed := 3000 }] } 1 [] [] [] 1).map
        (fun o => (o.ret, o.response)) = some (true, hello) ∧
    (sendRequest (.signedInt 32)
      { wire := encodeFastCgiRecord FCGI_TYPE_STDOUT hello 1,
        schedule := [{ ec := ErrorCode.success, elapsed := 3000 }] } 1 [] [] [] 1).map
        (fun o => o.seen) = some [(6, 1, hello)] ∧
    (sendRequest (.signedInt 32)
      { wire := encodeFastCgiRecord FCGI_TYPE_STDOUT hello 1,
        schedule := [{ ec := ErrorCode.success, elapsed := 3000 }] } 1 [] [] [] 1).map
        (fun o => o.reader.clock) = some 3000 := by
  refine ⟨by decide, by decide, by decide⟩

/-- C13, amended: when the loop ends without a decoded END_REQUEST record with
the request id, `sendRequest` returns false if and only if no STDOUT record
with the request id was decoded before the loop ended, be it before the
deadline or, in the pass that ends the loop, after it; and in that case, if
the request was written, the loop ended because the clock had passed the
overall deadline. -/
theorem sendRequest_deadline_flag (T : TagType) (r : StreamReader) (rand : Nat)
    (pairs : KeyValuePairs) (body response : Bytes) (timeout : Nat) :
    ∃ out, sendRequest T r rand pairs body response timeout = some out ∧
      ((¬ ∃ rec ∈ out.seen, IsMatchingEnd (rand &&& 0x7fff) rec) →
        (out.ret = false ↔ ¬ ∃ rec ∈ out.seen, IsMatchingStdout (rand &&& 0x7fff) rec) ∧
        (r.isOpen = true →
          (r.write (buildRequest (rand &&& 0x7fff) pairs body)).1 = ReturnCode.OK →
          (r.write (buildRequest (rand &&& 0x7fff) pairs body)).2.clock + timeout * 1000 <
            out.reader.clock)) := by
  rcases sendRequest_cases T r rand pairs body response timeout with
    ⟨hclosed, h⟩ | ⟨-, hne, h⟩ | ⟨-, -, h⟩
  · refine ⟨_, h, fun _ => ⟨by simp, fun ho => ?_⟩⟩
    rw [hclosed] at ho
    exact absurd ho (by decide)
  · exact ⟨_, h, fun _ => ⟨by simp, fun _ hwr => absurd hwr hne⟩⟩
  · obtain ⟨st', hst', hP, hexit⟩ := waitForResponse_final T
      (r.write (buildRequest (rand &&& 0x7fff) pairs body)).2 (rand &&& 0x7fff) response timeout
      (fun st => st.ret = true ↔ ∃ rec ∈ st.seen,
          rec.1 = (FCGI_TYPE_STDOUT.toNat : Int) ∧ rec.2.1 = rand &&& 0x7fff)
      (fun st hst => waitForResponseIter_ret_iff T _ _ st hst)
      (by simp)
    rw [hst'] at h
    refine ⟨_, h, fun hend => ⟨?_, fun _ _ => ?_⟩⟩
    · simp only [IsMatchingStdout]
      rw [← hP]
      simp
    · rcases hexit with he | he
      · exact absurd he hend
      · exact he

/-- Witness for C13, amended: the peer sends nothing at all within a timeout of one second. -/
theorem sendRequest_deadline_flag_witness :
    ∃ out, sendRequest (.signedInt 32) {} 1 [] [] [] 1 = some out ∧
      (¬ ∃ rec ∈ out.seen, IsMatchingEnd (1 &&& 0x7fff) rec) ∧
      (out.ret = false ↔ ¬ ∃ rec ∈ out.seen, IsMatchingStdout (1 &&& 0x7fff) rec) ∧
      (({} : StreamReader).write (buildRequest (1 &&& 0x7fff) [] [])).2.clock + 1 * 1000 <
        out.reader.clock := by
  obtain ⟨out, hout, himp⟩ := sendRequest_deadline_flag (.signedInt 32) {} 1 [] [] [] 1
  have hseen : out.seen = [] := by
    have h : (sendRequest (.signedInt 32) {} 1 [] [] [] 1).map (fun o => o.seen) = some [] := by
      decide
    rw [hout] at h
    simpa using h
  have hend : ¬ ∃ rec ∈ out.seen, IsMatchingEnd (1 &&& 0x7fff) rec := by
    rw [hseen]; simp
  exact ⟨out, hout, hend, (himp hend).1, (himp hend).2 rfl (by decide)⟩

/-! ## The content a decode delivers -/

/-- C21, evaluation at the failing input: the `content` variable holds "hello"
and the peer sends a STDOUT record with contentLength 0.  The decode succeeds
and `content` is still "hello", not empty.  In general a successful decode of
a record with contentLength 0 returns whatever `content` held before the call,
while a record with a positive contentLength returns its own content. -/
theorem decodeFastCgiRecord_zero_length_stale_content :
    (decodeFastCgiRecord (.signedInt 32)
      { wire := encodeFastCgiRecord FCGI_TYPE_STDOUT [] 1 } 0 0 hello).ok = true ∧
    (decodeFastCgiRecord (.signedInt 32)
      { wire := encodeFastCgiRecord FCGI_TYPE_STDOUT [] 1 } 0 0 hello).content = hello ∧
    (decodeFastCgiRecord (.signedInt 32)
      { wire := encodeFastCgiRecord FCGI_TYPE_STDOUT [] 1 } 0 0 hello).reader.wire = [] ∧
    (∀ (T : TagType) (t : FcgiRecordType) (c rest : Bytes) (id : Nat) (r : StreamReader)
        (ty0 : Int) (id0 : Nat) (c0 : Bytes),
      T.holdsU16 = true → id ≤ 65535 → c.length ≤ 65535 → r.schedule = [] →
      r.wire = encodeFastCgiRecord t c id ++ rest →
      (decodeFastCgiRecord T r ty0 id0 c0).ok = true ∧
      (c = [] → (decodeFastCgiRecord T r ty0 id0 c0).content = c0) ∧
      (c ≠ [] → (decodeFastCgiRecord T r ty0 id0 c0).content = c)) := by
  refine ⟨by decide, by decide, by decide, ?_⟩
  intro T t c rest id r ty0 id0 c0 hT hid hlen hs hw
  rw [decodeFastCgiRecord_encode T hT t c id rest r hid hlen hs hw ty0 id0 c0]
  refine ⟨rfl, fun h => ?_, fun h => ?_⟩
  · simp [h]
  · simp [h]

/-! ## One pass of the response loop -/

theorem decodeFastCgiRecord_ok_false_iff (T : TagType) (r : StreamReader) (ty : Int) (id : Nat)
    (c : Bytes) : (decodeFastCgiRecord T r ty id c).ok = false ↔ ReadFailed T r := by
  unfold decodeFastCgiRecord ReadFailed
  simp only []
  by_cases h1 : (r.read FCGI_HEADER_SIZE ns).rc = ReturnCode.OK
  · simp only [h1, ne_eq, not_true_eq_false, if_false, false_or, true_and]
    by_cases hc : (decodeFastCgiHeader T (r.read FCGI_HEADER_SIZE ns).buf).at CONT_LEN_TOKEN > 0
    · simp only [hc, if_true, true_and, forall_const]
      by_cases h2 : ((r.read FCGI_HEADER_SIZE ns).reader.read
          ((decodeFastCgiHeader T (r.read FCGI_HEADER_SIZE ns).buf).at CONT_LEN_TOKEN).toNat
          ns).rc = ReturnCode.OK
      · simp only [h2, not_true_eq_false, if_false, false_or, true_and]
        by_cases hp : (decodeFastCgiHeader T (r.read FCGI_HEADER_SIZE ns).buf).at
            PADDING_LEN_TOKEN > 0
        · simp only [hp, if_true, true_and]
          split_ifs with h3 <;> simp [h3]
        · simp [hp]
      · simp [h2]
    · simp only [hc, if_false, false_and, false_or, false_implies, true_and]
      by_cases hp : (decodeFastCgiHeader T (r.read FCGI_HEADER_SIZE ns).buf).at
          PADDING_LEN_TOKEN > 0
      · simp only [hp, if_true, true_and]
        split_ifs with h3 <;> simp [h3]
      · simp [hp]
  · simp [h1]

theorem waitForResponseLoop_step (T : TagType) (requestId expire fuel : Nat) (st : LoopState) :
    ((waitForResponseIter T requestId expire st).2 = true →
      waitForResponseLoop T requestId expire (fuel + 1) st =
        some (waitForResponseIter T requestId expire st).1) ∧
    ((waitForResponseIter T requestId expire st).2 = false →
      waitForResponseLoop T requestId expire (fuel + 1) st =
        waitForResponseLoop T requestId expire fuel (waitForResponseIter T requestId expire st).1) := by
  rw [waitForResponseLoop]
  rcases hit : waitForResponseIter T requestId expire st with ⟨st1, b⟩
  cases b <;> simp

/-- C22: when the header read, the content read or the padding read of a record
attempt fails, the pass leaves the response, the success flag and the log of
decoded records unchanged, and the loop goes on to another attempt exactly
when the clock does not exceed the overall deadline; otherwise it is left. -/
theorem waitForResponseIter_read_failed (T : TagType) (requestId expire : Nat)
    (st : LoopState) (hfail : ReadFailed T st.reader) :
    (waitForResponseIter T requestId expire st).1.response = st.response ∧
    (waitForResponseIter T requestId expire st).1.ret = st.ret ∧
    (waitForResponseIter T requestId expire st).1.seen = st.seen ∧
    ((waitForResponseIter T requestId expire st).2 = false ↔
      (waitForResponseIter T requestId expire st).1.reader.clock ≤ expire) ∧
    (∀ fuel, (waitForResponseIter T requestId expire st).1.reader.clock ≤ expire →
      waitForResponseLoop T requestId expire (fuel + 1) st =
        waitForResponseLoop T requestId expire fuel
          (waitForResponseIter T requestId expire st).1) ∧
    (∀ fuel, expire < (waitForResponseIter T requestId expire st).1.reader.clock →
      waitForResponseLoop T requestId expire (fuel + 1) st =
        some (waitForResponseIter T requestId expire st).1) := by
  have hok := (decodeFastCgiRecord_ok_false_iff T st.reader st.type st.rcvdReqId st.content).mpr
    hfail
  have hiter : (waitForResponseIter T requestId expire st).1.response = st.response ∧
      (waitForResponseIter T requestId expire st).1.ret = st.ret ∧
      (waitForResponseIter T requestId expire st).1.seen = st.seen ∧
      ((waitForResponseIter T requestId expire st).2 = false ↔
        (waitForResponseIter T requestId expire st).1.reader.clock ≤ expire) := by
    unfold waitForResponseIter
    simp [hok]
  obtain ⟨h1, h2, h3, h4⟩ := hiter
  refine ⟨h1, h2, h3, h4, fun fuel hle => ?_, fun fuel hlt => ?_⟩
  · exact (waitForResponseLoop_step T requestId expire fuel st).2 (h4.mpr hle)
  · refine (waitForResponseLoop_step T requestId expire fuel st).1 ?_
    cases hb : (waitForResponseIter T requestId expire st).2
    · have := h4.mp hb
      omega
    · rfl

theorem charAt_take (buf : Bytes) (i n : Nat) (h : i < n) :
    charAt (buf.take n) i = charAt buf i := by
  have e : (buf.take n).getD i 0 = buf.getD i 0 := by
    simp [List.getD_eq_getElem?_getD, List.getElem?_take, h]
  simp only [charAt, e]

theorem decodeFastCgiRecord_ok_type (T : TagType) (r : StreamReader) (ty : Int) (id : Nat)
    (c : Bytes) (hok : (decodeFastCgiRecord T r ty id c).ok = true) :
    (decodeFastCgiRecord T r ty id c).type = T.conv (charAt r.wire 1) := by
  unfold decodeFastCgiRecord at hok ⊢
  simp only [] at hok ⊢
  by_cases h1 : (r.read FCGI_HEADER_SIZE ns).rc = ReturnCode.OK
  · obtain ⟨-, hb1, -⟩ := r.read_ok _ _ h1
    have hty := (decodeFastCgiHeader_at T (r.read FCGI_HEADER_SIZE ns).buf).2.1
    have hch : charAt (r.read FCGI_HEADER_SIZE ns).buf 1 = charAt r.wire 1 := by
      rw [hb1]
      exact charAt_take _ _ _ (by decide)
    rw [hch] at hty
    rw [← hty]
    simp only [h1, ne_eq, not_true_eq_false, if_false]
    split_ifs <;> rfl
  · simp [h1] at hok

theorem TagType.conv_charAt_ne (T : TagType) (hT : T.holdsU16 = true) (buf : Bytes)
    (b6 : buf.getD 1 0 % 256 ≠ 6) (b7 : buf.getD 1 0 % 256 ≠ 7) (b3 : buf.getD 1 0 % 256 ≠ 3) :
    T.conv (charAt buf 1) ≠ (FCGI_TYPE_STDOUT.toNat : Int) ∧
    T.conv (charAt buf 1) ≠ (FCGI_TYPE_STDERR.toNat : Int) ∧
    T.conv (charAt buf 1) ≠ (FCGI_TYPE_END.toNat : Int) := by
  have hb : buf.getD 1 0 % 256 < 256 := Nat.mod_lt _ (by decide)
  simp only [charAt, FcgiRecordType.toNat]
  by_cases h : buf.getD 1 0 % 256 < 128
  · rw [if_pos h, T.conv_id hT _ (by omega) (by omega)]
    omega
  · rw [if_neg h]
    rcases T.conv_neg hT ((buf.getD 1 0 % 256 : Nat) - 256) (by omega) (by omega) with h' | h' <;>
      omega

/-- Witness for C22: nothing on the wire, so the header read times out after 4
seconds; with a deadline at 1000 ms the loop is left, with one at 5000 ms it
goes on. -/
theorem waitForResponseIter_read_failed_witness :
    ReadFailed (.signedInt 32) ({ response := hello, ret := true } : LoopState).reader ∧
    (waitForResponseIter (.signedInt 32) 1 5000 { response := hello, ret := true }).1.response =
      hello ∧
    (waitForResponseIter (.signedInt 32) 1 5000 { response := hello, ret := true }).1.ret =
      true ∧
    (waitForResponseIter (.signedInt 32) 1 5000 { response := hello, ret := true }).2 = false ∧
    (waitForResponseIter (.signedInt 32) 1 1000 { response := hello, ret := true }).2 = true :=
  ⟨Or.inl (by decide),
   (waitForResponseIter_read_failed (.signedInt 32) 1 5000 { response := hello, ret := true }
      (Or.inl (by decide))).1,
   (waitForResponseIter_read_failed (.signedInt 32) 1 5000 { response := hello, ret := true }
      (Or.inl (by decide))).2.1,
   (waitForResponseIter_read_failed (.signedInt 32) 1 5000 { response := hello, ret := true }
      (Or.inl (by decide))).2.2.2.1.mpr (by decide),
   by decide⟩

/-- C23: a pass leaves the loop exactly when it fully decoded a record with
type END_REQUEST and the outstanding request id, or when the clock after the
pass is strictly greater than the deadline; the deadline of `waitForResponse`
is the clock at entry plus the timeout; the loop is left at once with the
state of that pass, whose reader is the one the decode left, so no read follows
a matching END_REQUEST; in every other case the loop makes another pass; and
the loop always ends. -/
theorem waitForResponseIter_break_iff (T : TagType) (requestId expire : Nat) (st : LoopState) :
    ((waitForResponseIter T requestId expire st).2 = true ↔
      ((decodeFastCgiRecord T st.reader st.type st.rcvdReqId st.content).ok = true ∧
        (decodeFastCgiRecord T st.reader st.type st.rcvdReqId st.content).type =
          (FCGI_TYPE_END.toNat : Int) ∧
        (decodeFastCgiRecord T st.reader st.type st.rcvdReqId st.content).requestId =
          requestId) ∨
      expire < (waitForResponseIter T requestId expire st).1.reader.clock) ∧
    (waitForResponseIter T requestId expire st).1.reader =
      (decodeFastCgiRecord T st.reader st.type st.rcvdReqId st.content).reader ∧
    (∀ fuel, (waitForResponseIter T requestId expire st).2 = true →
      waitForResponseLoop T requestId expire (fuel + 1) st =
        some (waitForResponseIter T requestId expire st).1) ∧
    (∀ fuel, (waitForResponseIter T requestId expire st).2 = false →
      waitForResponseLoop T requestId expire (fuel + 1) st =
        waitForResponseLoop T requestId expire fuel
          (waitForResponseIter T requestId expire st).1) ∧
    (∀ (r : StreamReader) (response : Bytes) (timeout : Nat),
      ∃ st', waitForResponseLoop T requestId (r.clock + timeout * 1000)
          (loopBound (r.clock + timeout * 1000) r) { response := response, reader := r } =
            some st' ∧
        waitForResponse T r requestId response timeout =
          some { ret := st'.ret, response := st'.response, reader := st'.reader,
                 seen := st'.seen }) := by
  refine ⟨?_, waitForResponseIter_reader T requestId expire st,
    fun fuel => (waitForResponseLoop_step T requestId expire fuel st).1,
    fun fuel => (waitForResponseLoop_step T requestId expire fuel st).2, ?_⟩
  · unfold waitForResponseIter
    simp only []
    split_ifs <;> simp_all [FcgiRecordType.toNat]
  · intro r response timeout
    obtain ⟨st', hst'⟩ := waitForResponseLoop_total T requestId (r.clock + timeout * 1000)
      (loopBound (r.clock + timeout * 1000) r) { response := response, reader := r }
      (by simp [loopBound, loopMeasure])
    exact ⟨st', hst', by simp only [waitForResponse, hst', Option.map_some']⟩

/-- C30: a pass that decodes a record whose type is none of STDOUT, STDERR and
END_REQUEST leaves the response and the success flag unchanged, whatever the
request id of the record, and leaves the loop only if the clock has passed the
deadline; with a tag type that holds all 16 bit values this is the case for
every type byte other than 3, 6 and 7, the values 0 and 12..255 included; and
a pass that decodes an END_REQUEST record changes neither the response nor the
flag. -/
theorem waitForResponseIter_other_type (T : TagType) (requestId expire : Nat)
    (st : LoopState)
    (hok : (decodeFastCgiRecord T st.reader st.type st.rcvdReqId st.content).ok = true) :
    (((decodeFastCgiRecord T st.reader st.type st.rcvdReqId st.content).type ≠
          (FCGI_TYPE_STDOUT.toNat : Int) ∧
      (decodeFastCgiRecord T st.reader st.type st.rcvdReqId st.content).type ≠
          (FCGI_TYPE_STDERR.toNat : Int) ∧
      (decodeFastCgiRecord T st.reader st.type st.rcvdReqId st.content).type ≠
          (FCGI_TYPE_END.toNat : Int)) →
      (waitForResponseIter T requestId expire st).1.response = st.response ∧
      (waitForResponseIter T requestId expire st).1.ret = st.ret ∧
      ((waitForResponseIter T requestId expire st).2 = true ↔
        expire < (waitForResponseIter T requestId expire st).1.reader.clock)) ∧
    (T.holdsU16 = true →
      st.reader.wire.getD 1 0 % 256 ≠ 6 → st.reader.wire.getD 1 0 % 256 ≠ 7 →
      st.reader.wire.getD 1 0 % 256 ≠ 3 →
      (decodeFastCgiRecord T st.reader st.type st.rcvdReqId st.content).type ≠
          (FCGI_TYPE_STDOUT.toNat : Int) ∧
      (decodeFastCgiRecord T st.reader st.type st.rcvdReqId st.content).type ≠
          (FCGI_TYPE_STDERR.toNat : Int) ∧
      (decodeFastCgiRecord T st.reader st.type st.rcvdReqId st.content).type ≠
          (FCGI_TYPE_END.toNat : Int)) ∧
    ((decodeFastCgiRecord T st.reader st.type st.rcvdReqId st.content).type =
          (FCGI_TYPE_END.toNat : Int) →
      (waitForResponseIter T requestId expire st).1.response = st.response ∧
      (waitForResponseIter T requestId expire st).1.ret = st.ret) := by
  refine ⟨?_, ?_, ?_⟩
  · rintro ⟨h6, h7, h3⟩
    unfold waitForResponseIter
    simp [hok, h6, h7, h3]
  · intro hT b6 b7 b3
    have hty := decodeFastCgiRecord_ok_type T st.reader st.type st.rcvdReqId st.content hok
    rw [hty]
    exact TagType.conv_charAt_ne T hT st.reader.wire b6 b7 b3
  · intro h3
    unfold waitForResponseIter
    simp only [hok, h3, FcgiRecordType.toNat]
    split_ifs <;> simp_all

/-- Witness for C30: a GET_VALUES record that carries the outstanding request
id 1, decoded while the response is "hello" and the flag is set. -/
theorem waitForResponseIter_other_type_witness :
    (waitForResponseIter (.signedInt 32) 1 5000
      { response := hello, ret := true,
        reader := { wire := encodeFastCgiRecord FCGI_TYPE_GETVALUES [1, 2] 1 } }).1.response =
      hello ∧
    (waitForResponseIter (.signedInt 32) 1 5000
      { response := hello, ret := true,
        reader := { wire := encodeFastCgiRecord FCGI_TYPE_GETVALUES [1, 2] 1 } }).1.ret = true ∧
    ((waitForResponseIter (.signedInt 32) 1 5000
      { response := hello, ret := true,
        reader := { wire := encodeFastCgiRecord FCGI_TYPE_GETVALUES [1, 2] 1 } }).2 = true ↔
      5000 < (waitForResponseIter (.signedInt 32) 1 5000
        { response := hello, ret := true,
          reader := { wire := encodeFastCgiRecord FCGI_TYPE_GETVALUES [1, 2] 1 } }).1.reader.clock) :=
  (waitForResponseIter_other_type (.signedInt 32) 1 5000
    { response := hello, ret := true,
      reader := { wire := encodeFastCgiRecord FCGI_TYPE_GETVALUES [1, 2] 1 } } (by decide)).1
    ⟨by decide, by decide, by decide⟩

/-! ## How late the response loop can return -/

/-- C25, evaluation at the failing input: the read completes with end-of-stream
before the timer, so `read` returns CLOSED; its `switch` cancels the timer only
for OK (no timer or socket cancel is logged), so the timer expires later with
no error and `timeoutHandler` calls `set_value` on the slot a second time.
Whenever neither event is aborted the slot is set twice, in either order; a
handler invoked with `operation_aborted` sets nothing, and the value stored is
that of the first non-aborted event. -/
theorem PromiseLog.set_twice_after_closed :
    (({ schedule := [{ ec := ErrorCode.eof, elapsed := 10 }] } : StreamReader).read 8 ns).rc =
      ReturnCode.CLOSED ∧
    (({ schedule := [{ ec := ErrorCode.eof, elapsed := 10 }] } : StreamReader).read 8
      ns).reader.timerCancels = 0 ∧
    (({ schedule := [{ ec := ErrorCode.eof, elapsed := 10 }] } : StreamReader).read 8
      ns).reader.sockCancels = 0 ∧
    readCancels ReturnCode.CLOSED = Cancelled.nothing ∧
    readCancels ReturnCode.IO_ERROR = Cancelled.nothing ∧
    secondCompletion (.readCompletion ErrorCode.eof) ErrorCode.success =
      .timerExpiry ErrorCode.success ∧
    ((({} : PromiseLog).deliver (.readCompletion ErrorCode.eof)).deliver
      (secondCompletion (.readCompletion ErrorCode.eof) ErrorCode.success)).setCalls = 2 ∧
    ((({} : PromiseLog).deliver (.readCompletion ErrorCode.eof)).deliver
      (secondCompletion (.readCompletion ErrorCode.eof) ErrorCode.success)).value =
        some ReturnCode.CLOSED ∧
    (∀ ecRead ecTimer : ErrorCode,
      ecRead ≠ ErrorCode.operation_aborted → ecTimer ≠ ErrorCode.operation_aborted →
      ((({} : PromiseLog).deliver (.readCompletion ecRead)).deliver
        (.timerExpiry ecTimer)).setCalls = 2 ∧
      ((({} : PromiseLog).deliver (.timerExpiry ecTimer)).deliver
        (.readCompletion ecRead)).setCalls = 2) ∧
    (∀ (p : PromiseLog),
      p.deliver (.readCompletion ErrorCode.operation_aborted) = p ∧
      p.deliver (.timerExpiry ErrorCode.operation_aborted) = p) ∧
    (∀ ecRead ecTimer : ErrorCode,
      (ecRead = ErrorCode.operation_aborted ∨ ecTimer = ErrorCode.operation_aborted) →
      ((({} : PromiseLog).deliver (.readCompletion ecRead)).deliver
        (.timerExpiry ecTimer)).setCalls ≤ 1 ∧
      ((({} : PromiseLog).deliver (.timerExpiry ecTimer)).deliver
        (.readCompletion ecRead)).setCalls ≤ 1) := by
  refine ⟨by decide, by decide, by decide, rfl, rfl, by decide, by decide, by decide, ?_, ?_, ?_⟩
  · intro ecRead ecTimer h1 h2
    cases ecRead <;> cases ecTimer <;> first | exact absurd rfl h1 | exact absurd rfl h2 | decide
  · intro p
    exact ⟨rfl, rfl⟩
  · intro ecRead ecTimer h
    cases ecRead <;> cases ecTimer <;> first | decide | (exfalso; rcases h with h | h <;> cases h)

/-- C26: for every error code and every state of the slot, `readHandler` calls
`set_value` with OK when there is no error, with CLOSED on end-of-stream, with
IO_ERROR on any other error except `operation_aborted`, and returns without a
call on `operation_aborted`; `timeoutHandler` calls `set_value` with TIMEOUT on
an expiry that is not aborted and returns without a call on
`operation_aborted`.  A call on an empty slot stores its value, a call on a
slot that already holds a value leaves the first value in place; so on the
empty slot that `read` starts with the handlers store OK, CLOSED, IO_ERROR and
TIMEOUT.  On the promise with its call count every non-aborted delivery is one
more `set_value` call and an aborted delivery is none. -/
theorem readHandler_timeoutHandler_results (m_result : Promise) (p : PromiseLog) :
    (readHandler ErrorCode.success m_result = Promise.set_value m_result ReturnCode.OK ∧
     readHandler ErrorCode.eof m_result = Promise.set_value m_result ReturnCode.CLOSED ∧
     (∀ ec : ErrorCode, ec ≠ ErrorCode.success → ec ≠ ErrorCode.eof →
       ec ≠ ErrorCode.operation_aborted →
       readHandler ec m_result = Promise.set_value m_result ReturnCode.IO_ERROR) ∧
     readHandler ErrorCode.operation_aborted m_result = m_result ∧
     (∀ ec : ErrorCode, ec ≠ ErrorCode.operation_aborted →
       timeoutHandler ec m_result = Promise.set_value m_result ReturnCode.TIMEOUT) ∧
     timeoutHandler ErrorCode.operation_aborted m_result = m_result) ∧
    ((∀ rc : ReturnCode, Promise.set_value none rc = some rc) ∧
     (∀ first rc : ReturnCode, Promise.set_value (some first) rc = some first)) ∧
    (readHandler ErrorCode.success none = some ReturnCode.OK ∧
     readHandler ErrorCode.eof none = some ReturnCode.CLOSED ∧
     (∀ ec : ErrorCode, ec ≠ ErrorCode.success → ec ≠ ErrorCode.eof →
       ec ≠ ErrorCode.operation_aborted →
       readHandler ec none = some ReturnCode.IO_ERROR) ∧
     readHandler ErrorCode.operation_aborted none = none ∧
     (∀ ec : ErrorCode, ec ≠ ErrorCode.operation_aborted →
       timeoutHandler ec none = some ReturnCode.TIMEOUT) ∧
     timeoutHandler ErrorCode.operation_aborted none = none) ∧
    (p.deliver (.readCompletion ErrorCode.success) = p.set_value ReturnCode.OK ∧
     p.deliver (.readCompletion ErrorCode.eof) = p.set_value ReturnCode.CLOSED ∧
     (∀ ec : ErrorCode, ec ≠ ErrorCode.success → ec ≠ ErrorCode.eof →
       ec ≠ ErrorCode.operation_aborted →
       p.deliver (.readCompletion ec) = p.set_value ReturnCode.IO_ERROR) ∧
     p.deliver (.readCompletion ErrorCode.operation_aborted) = p ∧
     (∀ ec : ErrorCode, ec ≠ ErrorCode.operation_aborted →
       p.deliver (.timerExpiry ec) = p.set_value ReturnCode.TIMEOUT) ∧
     p.deliver (.timerExpiry ErrorCode.operation_aborted) = p) := by
  refine ⟨⟨rfl, rfl, ?_, rfl, ?_, rfl⟩, ⟨fun _ => rfl, fun _ _ => rfl⟩,
    ⟨rfl, rfl, ?_, rfl, ?_, rfl⟩, ⟨rfl, rfl, ?_, rfl, ?_, rfl⟩⟩
  · intro ec h1 h2 h3
    cases ec
    · exact absurd rfl h1
    · exact absurd rfl h3
    · exact absurd rfl h2
    · rfl
  · intro ec h
    cases ec
    · rfl
    · exact absurd rfl h
    · rfl
    · rfl
  · intro ec h1 h2 h3
    cases ec
    · exact absurd rfl h1
    · exact absurd rfl h3
    · exact absurd rfl h2
    · rfl
  · intro ec h
    cases ec
    · rfl
    · exact absurd rfl h
    · rfl
    · rfl
  · intro ec h1 h2 h3
    cases ec
    · exact absurd rfl h1
    · exact absurd rfl h3
    · exact absurd rfl h2
    · rfl
  · intro ec h
    cases ec
    · rfl
    · exact absurd rfl h
    · rfl
    · rfl

/-- Witness for C26: a read error that is neither end-of-stream nor an abort on
the empty slot, and a timer expiry without error on a slot that already holds
CLOSED, with the promise that has counted the one call that stored CLOSED. -/
theorem readHandler_timeoutHandler_results_witness :
    readHandler ErrorCode.fault none = some ReturnCode.IO_ERROR ∧
    timeoutHandler ErrorCode.success (some ReturnCode.CLOSED) = some ReturnCode.CLOSED ∧
    ({ value := some ReturnCode.CLOSED, setCalls := 1 } : PromiseLog).deliver
        (.timerExpiry ErrorCode.success) =
      { value := some ReturnCode.CLOSED, setCalls := 2 } :=
  ⟨(readHandler_timeoutHandler_results (some ReturnCode.CLOSED)
      { value := some ReturnCode.CLOSED, setCalls := 1 }).2.2.1.2.2.1 ErrorCode.fault
      (by decide) (by decide) (by decide),
   ((readHandler_timeoutHandler_results (some ReturnCode.CLOSED)
      { value := some ReturnCode.CLOSED, setCalls := 1 }).1.2.2.2.2.1 ErrorCode.success
      (by decide)).trans
    ((readHandler_timeoutHandler_results (some ReturnCode.CLOSED)
      { value := some ReturnCode.CLOSED, setCalls := 1 }).2.1.2 ReturnCode.CLOSED
      ReturnCode.TIMEOUT),
   ((readHandler_timeoutHandler_results (some ReturnCode.CLOSED)
      { value := some ReturnCode.CLOSED, setCalls := 1 }).2.2.2.2.2.2.2.1 ErrorCode.success
      (by decide)).trans (by decide)⟩

/-! ## The severity gate of the default logger -/

/-- C27, evaluation at the failing input: `isLoggable` switches on the level of
the message and never reads the configured level, so it is true for every
configured level and every message level.  With the level set to WARN an info
and a debug message are written; with the level set to ERROR a warn message is
written. -/
theorem DefaultLogger.isLoggable_ignores_level :
    (∀ (l : DefaultLogger) (logLevel : Level), l.isLoggable logLevel = true) ∧
    ((({} : DefaultLogger).setLogLevel Level.WARN_LEVEL).info).written = [Level.INFO_LEVEL] ∧
    ((({} : DefaultLogger).setLogLevel Level.WARN_LEVEL).debug).written = [Level.DEBUG_LEVEL] ∧
    ((({} : DefaultLogger).setLogLevel Level.ERROR_LEVEL).warn).written = [Level.WARN_LEVEL] ∧
    ((({} : DefaultLogger).setLogLevel Level.ERROR_LEVEL).warn).m_level = Level.ERROR_LEVEL := by
  refine ⟨?_, by decide, by decide, by decide, by decide⟩
  intro l logLevel
  cases logLevel <;> rfl

/-! ## Content longer than the 16 bit length field -/

/-- C28: for every content, whatever its length, the encoded record has
8 + len(content) bytes, the content follows the header untruncated, and the
two contentLength bytes of the header hold len(content) mod 65536, which
differs from len(content) as soon as the content is longer than 65535 bytes;
and `sendRequest`, with the reader open, returns and writes the request with
the whole parameter payload in one PARAMS record and the whole body in one
STDIN record, whatever their lengths. -/
theorem encodeFastCgiRecord_any_length (recType : FcgiRecordType) (content : Bytes)
    (requestId : Nat) :
    (encodeFastCgiRecord recType content requestId).length = 8 + content.length ∧
    (encodeFastCgiRecord recType content requestId).drop 8 = content ∧
    (encodeFastCgiRecord recType content requestId).getD 4 0 * 256 +
      (encodeFastCgiRecord recType content requestId).getD 5 0 = content.length % 65536 ∧
    (65535 < content.length →
      (encodeFastCgiRecord recType content requestId).getD 4 0 * 256 +
        (encodeFastCgiRecord recType content requestId).getD 5 0 ≠ content.length) ∧
    (∀ (T : TagType) (r : StreamReader) (rand : Nat) (pairs : KeyValuePairs)
        (body response : Bytes) (timeout : Nat), r.isOpen = true →
      ∃ out, sendRequest T r rand pairs body response timeout = some out ∧
        out.reader.sent = r.sent ++
          [ encodeFastCgiRecord FCGI_TYPE_BEGIN FCGI_HDR_STR (rand &&& 0x7fff) ++
            (if paramsRecord pairs = [] then []
             else encodeFastCgiRecord FCGI_TYPE_PARAMS (paramsRecord pairs) (rand &&& 0x7fff)) ++
            encodeFastCgiRecord FCGI_TYPE_PARAMS [] (rand &&& 0x7fff) ++
            (if body = [] then []
             else encodeFastCgiRecord FCGI_TYPE_STDIN body (rand &&& 0x7fff)) ++
            encodeFastCgiRecord FCGI_TYPE_STDIN [] (rand &&& 0x7fff) ]) := by
  have hfield : (encodeFastCgiRecord recType content requestId).getD 4 0 * 256 +
      (encodeFastCgiRecord recType content requestId).getD 5 0 = content.length % 65536 := by
    rw [encodeFastCgiRecord_eq]
    simp only [List.cons_append, List.getD_cons_succ, List.getD_cons_zero]
    omega
  refine ⟨encodeFastCgiRecord_length recType content requestId, ?_, hfield, ?_, ?_⟩
  · rw [encodeFastCgiRecord_eq]
    rfl
  · intro hlong
    rw [hfield]
    have : content.length % 65536 < 65536 := Nat.mod_lt _ (by decide)
    omega
  · intro T r rand pairs body response timeout hopen
    obtain ⟨out, hout, hsent⟩ := sendRequest_sent T r rand pairs body response timeout hopen
    refine ⟨out, hout, ?_⟩
    rw [hsent, buildRequest_eq, paramsRecord_eq]
    rfl

/-- Witness for C28: a STDIN record for the body of 65536 bytes; its
contentLength field holds 0. -/
theorem encodeFastCgiRecord_any_length_witness :
    (encodeFastCgiRecord FCGI_TYPE_STDIN longBody 0).length = 8 + longBody.length ∧
    (encodeFastCgiRecord FCGI_TYPE_STDIN longBody 0).drop 8 = longBody ∧
    (encodeFastCgiRecord FCGI_TYPE_STDIN longBody 0).getD 4 0 * 256 +
      (encodeFastCgiRecord FCGI_TYPE_STDIN longBody 0).getD 5 0 = longBody.length % 65536 ∧
    (encodeFastCgiRecord FCGI_TYPE_STDIN longBody 0).getD 4 0 * 256 +
      (encodeFastCgiRecord FCGI_TYPE_STDIN longBody 0).getD 5 0 ≠ longBody.length ∧
    (∃ out, sendRequest (.signedInt 32) {} 0 [] longBody [] 0 = some out ∧
      out.reader.sent = ({} : StreamReader).sent ++
        [ encodeFastCgiRecord FCGI_TYPE_BEGIN FCGI_HDR_STR (0 &&& 0x7fff) ++
          (if paramsRecord [] = [] then []
           else encodeFastCgiRecord FCGI_TYPE_PARAMS (paramsRecord []) (0 &&& 0x7fff)) ++
          encodeFastCgiRecord FCGI_TYPE_PARAMS [] (0 &&& 0x7fff) ++
          (if longBody = [] then []
           else encodeFastCgiRecord FCGI_TYPE_STDIN longBody (0 &&& 0x7fff)) ++
          encodeFastCgiRecord FCGI_TYPE_STDIN [] (0 &&& 0x7fff) ]) :=
  ⟨(encodeFastCgiRecord_any_length FCGI_TYPE_STDIN longBody 0).1,
   (encodeFastCgiRecord_any_length FCGI_TYPE_STDIN longBody 0).2.1,
   (encodeFastCgiRecord_any_length FCGI_TYPE_STDIN longBody 0).2.2.1,
   (encodeFastCgiRecord_any_length FCGI_TYPE_STDIN longBody 0).2.2.2.1
     (by rw [longBody_length]; decide),
   (encodeFastCgiRecord_any_length FCGI_TYPE_STDIN longBody 0).2.2.2.2
     (.signedInt 32) {} 0 [] longBody [] 0 rfl⟩

/-! ## Reading the parameter payload back -/

theorem specReadLength_prefix (n : Nat) (rest : Bytes) (h : n < 2 ^ 31) :
    specReadLength (specLengthPrefix n ++ rest) = some (n, rest) := by
  rw [specLengthPrefix_eq n h]
  by_cases hlt : n < 128
  · rw [if_pos hlt]
    simp [specReadLength, hlt]
  · rw [if_neg hlt]
    have h1 : ¬ 128 + n / 16777216 < 128 := by omega
    simp only [List.cons_append, List.nil_append, specReadLength, h1, if_false, and_7F]
    congr 2
    omega

theorem encodeNameValueParams_spec (name value : Bytes) (hn : name ≠ []) (hv : value ≠ [])
    (hnl : name.length < 2 ^ 31) (hvl : value.length < 2 ^ 31) :
    encodeNameValueParams name value =
      specLengthPrefix name.length ++ (specLengthPrefix value.length ++ (name ++ value)) := by
  rw [encodeNameValueParams_eq name value hn hv, codeLengthPrefix_eq_spec _ hnl,
    codeLengthPrefix_eq_spec _ hvl]
  simp only [List.append_assoc]

theorem specDecodePairs_cons (fuel : Nat) (name value rest : Bytes)
    (hn : name ≠ []) (hv : value ≠ [])
    (hnl : name.length < 2 ^ 31) (hvl : value.length < 2 ^ 31) :
    specDecodePairs (fuel + 1) (encodeNameValueParams name value ++ rest) =
      (specDecodePairs fuel rest).map fun pairs => (name, value) :: pairs := by
  have henc := encodeNameValueParams_spec name value hn hv hnl hvl
  have h1 : specReadLength (encodeNameValueParams name value ++ rest) =
      some (name.length, specLengthPrefix value.length ++ (name ++ value ++ rest)) := by
    rw [henc]
    simp only [List.append_assoc]
    exact specReadLength_prefix _ _ hnl
  have h2 : specReadLength (specLengthPrefix value.length ++ (name ++ value ++ rest)) =
      some (value.length, name ++ value ++ rest) := specReadLength_prefix _ _ hvl
  obtain ⟨b, bs, hb⟩ : ∃ b bs, encodeNameValueParams name value ++ rest = b :: bs := by
    cases hL : encodeNameValueParams name value ++ rest with
    | nil => rw [hL] at h1; simp [specReadLength] at h1
    | cons b bs => exact ⟨b, bs, rfl⟩
  rw [hb, specDecodePairs, ← hb, h1]
  simp only [h2]
  have hlen : ¬ (name ++ value ++ rest).length < name.length + value.length := by
    simp only [List.length_append]; omega
  have hdrop : (name ++ value ++ rest).drop (name.length + value.length) = rest := by
    apply List.drop_left'
    simp only [List.length_append]
  have htake1 : (name ++ value ++ rest).take name.length = name := by
    rw [List.append_assoc]
    exact List.take_left' rfl
  have htake2 : ((name ++ value ++ rest).drop name.length).take value.length = value := by
    rw [List.append_assoc, List.drop_left' rfl]
    exact List.take_left' rfl
  rw [if_neg hlen, hdrop, htake1, htake2]
  cases specDecodePairs fuel rest <;> rfl

theorem specDecodePairs_payload (pairs : KeyValuePairs) :
    (∀ p ∈ pairs, p.1 ≠ [] ∧ p.2 ≠ [] ∧ p.1.length < 2 ^ 31 ∧ p.2.length < 2 ^ 31) →
    ∀ fuel, pairs.length ≤ fuel → specDecodePairs fuel (specParamsPayload pairs) = some pairs := by
  induction pairs with
  | nil =>
    intro _ fuel _
    cases fuel <;> rfl
  | cons p ps ih =>
    intro h fuel hf
    obtain ⟨f, rfl⟩ : ∃ f, fuel = f + 1 := ⟨fuel - 1, by simp at hf; omega⟩
    obtain ⟨hn, hv, hnl, hvl⟩ := h p (List.mem_cons_self _ _)
    have hps := ih (fun q hq => h q (List.mem_cons_of_mem _ hq)) f (by simp at hf; omega)
    have hcons : specParamsPayload (p :: ps) =
        encodeNameValueParams p.1 p.2 ++ specParamsPayload ps := by
      simp [specParamsPayload]
    rw [hcons, specDecodePairs_cons f p.1 p.2 _ hn hv hnl hvl, hps]
    rfl

theorem paramsRecord_length_ge (pairs : KeyValuePairs) :
    (∀ p ∈ pairs, p.1 ≠ [] ∧ p.2 ≠ [] ∧ p.1.length < 2 ^ 31 ∧ p.2.length < 2 ^ 31) →
    pairs.length ≤ (specParamsPayload pairs).length := by
  induction pairs with
  | nil => intro _; simp
  | cons p ps ih =>
    intro h
    obtain ⟨hn, hv, hnl, hvl⟩ := h p (List.mem_cons_self _ _)
    have hps := ih (fun q hq => h q (List.mem_cons_of_mem _ hq))
    have hcons : specParamsPayload (p :: ps) =
        encodeNameValueParams p.1 p.2 ++ specParamsPayload ps := by
      simp [specParamsPayload]
    have hpos : 0 < p.1.length := List.length_pos.mpr hn
    rw [hcons, encodeNameValueParams_spec p.1 p.2 hn hv hnl hvl]
    simp only [List.length_append, List.length_cons]
    omega

/-- C29: for every list of pairs whose names and values are non-empty and
shorter than 2^31 bytes, the reference name/value decoder applied to the
payload `sendRequest` builds (the concatenation of the encodings, in list
order) returns exactly the original list, in order. -/
theorem paramsRecord_decodes (pairs : KeyValuePairs)
    (h : ∀ p ∈ pairs, p.1 ≠ [] ∧ p.2 ≠ [] ∧ p.1.length < 2 ^ 31 ∧ p.2.length < 2 ^ 31) :
    specDecodePairs (paramsRecord pairs).length (paramsRecord pairs) = some pairs ∧
    paramsRecord pairs = (pairs.map fun p => encodeNameValueParams p.1 p.2).flatten := by
  rw [paramsRecord_eq]
  exact ⟨specDecodePairs_payload pairs h _ (paramsRecord_length_ge pairs h), rfl⟩

/-- Witness for C29: a pair with one byte fields and a pair whose value takes
the four byte length prefix. -/
theorem paramsRecord_decodes_witness :
    specDecodePairs (paramsRecord [([65], [66]), ([67, 68], List.replicate 130 69)]).length
        (paramsRecord [([65], [66]), ([67, 68], List.replicate 130 69)]) =
      some [([65], [66]), ([67, 68], List.replicate 130 69)] ∧
    paramsRecord [([65], [66]), ([67, 68], List.replicate 130 69)] =
      (([([65], [66]), ([67, 68], List.replicate 130 69)] : KeyValuePairs).map
        fun p => encodeNameValueParams p.1 p.2).flatten :=
  paramsRecord_decodes [([65], [66]), ([67, 68], List.replicate 130 69)] (by
    intro p hp
    simp only [List.mem_cons, List.mem_singleton, List.mem_nil_iff, or_false] at hp
    rcases hp with rfl | rfl <;> simp)

end FastCgi
